import Mathlib

/-! filefactory: verification engine

A shallow embedding of the verification core of `outo/filefactory`:

* `diff/file_difference.go`          : the difference kinds (bit flags);
* `verify/verification_instruction.go`: policy instructions;
* `verify/verification_errors.go`     : the error aggregator `Errors`;
* `file/meta.go`                      : `Meta.Should` and `Meta.Verify`;
* `file/meta.go`                      : `Meta.AlignAttributes` and `Meta.Populate`;
* `file_factory.go`                   : `CreateFiles`, `VerifyFiles`, `FilesToCreate`;
* `attr/attribute.go`, `def/def_*.go` : the attribute types, the constructors `Reg`, `Dir`,
  `Sym`, `Regular.Verify` and `Symlink.Verify`;
* `dependencies/user/user.go`         : `CurrentIds`.

Conventions of the embedding.

* Unsigned machine integers (`diff.FileDifference`, `os.FileMode`, uid, gid) are natural
  numbers. The code only combines them with `|`, `&`, `==` and `!=`, none of which can
  leave the range of the type, so no reduction modulo a power of two is needed.
* A Go `error` is `Option GoError`: `none` is `nil`, `GoError.verification` is a
  `*verify.Errors`, `GoError.plain` is every other error value, identified by its message.
* A method with a pointer receiver that mutates the receiver returns the new receiver.
* The injected collaborators of package `file` (`impl.PathExists`, `impl.WrapNewFromPath`)
  are fields of `file.Implementation`; `Meta.Verify` returns, next to its error, the list of
  collaborator calls it made, in order.
-/

set_option autoImplicit false
set_option linter.dupNamespace false

/-- An error value that is not an aggregator (`errors.New`, an `*os.PathError`, ...). -/
structure PlainError where
  msg : String
deriving DecidableEq, Repr

/-! ## package diff -/

namespace diff

/-- Go: `type FileDifference uint64`. -/
abbrev FileDifference := Nat

def All : FileDifference := 1 <<< 0
def NotPresentOrNotAccessible : FileDifference := 1 <<< 1
def ModeType : FileDifference := 1 <<< 2
def ModePerm : FileDifference := 1 <<< 3
def Owner : FileDifference := 1 <<< 4
def Group : FileDifference := 1 <<< 5
def ModTime : FileDifference := 1 <<< 6
def AccTime : FileDifference := 1 <<< 7
def Size : FileDifference := 1 <<< 8
def LinkTarget : FileDifference := 1 <<< 9
def Contents : FileDifference := 1 <<< 10

end diff

/-! ## package os, package time (standard library, the parts the code reads) -/

namespace os

/-- Go: `type FileMode uint32`. -/
abbrev FileMode := Nat

def ModeDir : FileMode := 1 <<< 31
def ModeSymlink : FileMode := 1 <<< 27
def ModeDevice : FileMode := 1 <<< 26
def ModeNamedPipe : FileMode := 1 <<< 25
def ModeSocket : FileMode := 1 <<< 24
def ModeCharDevice : FileMode := 1 <<< 21
def ModeIrregular : FileMode := 1 <<< 19
def ModeSetuid : FileMode := 1 <<< 23
def ModeSetgid : FileMode := 1 <<< 22
def ModeSticky : FileMode := 1 <<< 20

/-- Mask for the type bits. -/
def ModeType : FileMode :=
  ModeDir ||| ModeSymlink ||| ModeNamedPipe ||| ModeSocket ||| ModeDevice ||| ModeCharDevice
    ||| ModeIrregular

/-- Unix permission bits, `0777`. -/
def ModePerm : FileMode := 0o777

/-- Go: `^os.ModeType`, the complement of the type mask in the 32 bits of a `FileMode`. -/
def notModeType : FileMode := 0xFFFFFFFF ^^^ ModeType

/-- Go interface `os.FileInfo`, the one method the code reads. -/
structure FileInfo where
  Size : Int
deriving DecidableEq, Repr

end os

namespace time

/-- An instant (seconds and nanoseconds since the Unix epoch) together with the name of the
location it is displayed in. -/
structure Time where
  sec : Int
  nsec : Nat
  loc : String
deriving DecidableEq, Repr

/-- Go: `Time.Equal` compares the instants and ignores the location. -/
def Time.Equal (t u : Time) : Bool :=
  t.sec == u.sec && t.nsec == u.nsec

end time

/-! ## package verify -/

namespace verify

structure Instruction where
  Verify : Bool
  Aspect : String
deriving DecidableEq, Repr

def NewInstruction (verify : Bool) (aspect : String) : Instruction :=
  { Verify := verify, Aspect := aspect }

def AllByDefault (verify : Bool) : Instruction := NewInstruction verify "all"
def ModePerm (verify : Bool) : Instruction := NewInstruction verify "mode-perm"
def ModifiedTime (verify : Bool) : Instruction := NewInstruction verify "modified"
def AccessedTime (verify : Bool) : Instruction := NewInstruction verify "accessed"
def Uid (verify : Bool) : Instruction := NewInstruction verify "uid"
def Gid (verify : Bool) : Instruction := NewInstruction verify "gid"
def Size (verify : Bool) : Instruction := NewInstruction verify "size"
def SymlinkTarget (verify : Bool) : Instruction := NewInstruction verify "symlink-target"
def Contents (verify : Bool) : Instruction := NewInstruction verify "contents"

/-- One recorded mismatch: kind, path and underlying cause (`nil` is `none`). -/
structure Error where
  FileDifference : diff.FileDifference
  Path : String
  Err : Option PlainError
deriving DecidableEq, Repr

def NewErr (difference : diff.FileDifference) (path : String) (err : Option PlainError) :
    Error :=
  { FileDifference := difference, Path := path, Err := err }

/-- The aggregator. Its zero value `{}` is the freshly constructed aggregator. -/
structure Errors where
  CombinedFileDifference : diff.FileDifference := 0
  Errors : List Error := []
deriving DecidableEq, Repr

def Errors.Add (ves : verify.Errors) (fileDifference : diff.FileDifference) (path : String)
    (err : Option PlainError) : verify.Errors :=
  { CombinedFileDifference := ves.CombinedFileDifference ||| fileDifference
    Errors := ves.Errors ++
      [{ FileDifference := fileDifference, Path := path, Err := err }] }

end verify

/-- The Go `error` interface, as far as the code distinguishes its dynamic types. -/
inductive GoError where
  | plain (e : PlainError)
  | verification (ves : verify.Errors)
deriving DecidableEq, Repr

namespace verify

def Errors.MapToNilIfNone (ves : verify.Errors) : Option GoError :=
  if ves.Errors.length = 0 then none else some (GoError.verification ves)

/-- Go: `func (ves *Errors) Merge(err error) (nonVerificationError error)`. Returns the
receiver after the call and the returned error. The type assertion `err.(*Errors)` succeeds
exactly on `GoError.verification`. -/
def Errors.Merge (ves : verify.Errors) (err : Option GoError) :
    verify.Errors × Option GoError :=
  match err with
  | none => (ves, none)
  | some (GoError.plain e) => (ves, some (GoError.plain e))
  | some (GoError.verification verrs) =>
    (verrs.Errors.foldl (fun ves verr => ves.Add verr.FileDifference verr.Path verr.Err) ves,
      none)

/-- The loop of `HasDifference`, which returns at the first matching triple. -/
def Errors.HasDifference.loop (difference : diff.FileDifference) (absolutePath : String) :
    List Error → Bool
  | [] => false
  | ve :: rest =>
    if ve.FileDifference = difference ∧ ve.Path = absolutePath then true
    else Errors.HasDifference.loop difference absolutePath rest

def Errors.HasDifference (ves : verify.Errors) (difference : diff.FileDifference)
    (absolutePath : String) : Bool :=
  Errors.HasDifference.loop difference absolutePath ves.Errors

def Errors.DifferenceFor (ves : verify.Errors) (absolutePath : String) :
    diff.FileDifference :=
  ves.Errors.foldl
    (fun diffUnion ve =>
      if ve.Path = absolutePath then diffUnion ||| ve.FileDifference else diffUnion)
    0

def Errors.IsFileNotPresentOrNotAccessible (ves : verify.Errors) : Bool :=
  (ves.CombinedFileDifference &&& diff.NotPresentOrNotAccessible) ≠ 0

def Errors.IsFileTypeUnexpected (ves : verify.Errors) : Bool :=
  (ves.CombinedFileDifference &&& diff.ModeType) ≠ 0

/-- One call on an aggregator: `Add(kind, path, cause)` or `Merge(err)`. -/
inductive Errors.Op where
  | Add (fileDifference : diff.FileDifference) (path : String) (err : Option PlainError)
  | Merge (err : Option GoError)
deriving DecidableEq, Repr

/-- The receiver after one call. -/
def Errors.apply (ves : verify.Errors) : Errors.Op → verify.Errors
  | Errors.Op.Add fileDifference path err => ves.Add fileDifference path err
  | Errors.Op.Merge err => (ves.Merge err).1

/-- The aggregator reached from the empty aggregator `Errors{}` by a sequence of calls. -/
def Errors.run (ops : List Errors.Op) : verify.Errors :=
  ops.foldl Errors.apply {}

/-- The bitwise OR of the kinds of a list of triples, zero for the empty list. -/
def kindsUnion (es : List Error) : diff.FileDifference :=
  es.foldl (fun u e => u ||| e.FileDifference) 0

/-- The aggregator of the tests: `Add(8, "some path (8)")`, then `Add(4, "some path (4)")`. -/
def sampleErrors : verify.Errors :=
  (({} : verify.Errors).Add 8 "some path (8)" (some ⟨"an error"⟩)).Add 4 "some path (4)"
    (some ⟨"another error"⟩)

/-- The aggregator handed to `Merge` in the tests. -/
def providedErrors : verify.Errors :=
  (({} : verify.Errors).Add 16 "some path (16)" (some ⟨"some error"⟩)).Add 1 "some path (1)"
    (some ⟨"yet another error"⟩)

/-- The aggregator of the tests of `HasDifference` and `DifferenceFor`. -/
def pathErrors : verify.Errors :=
  ((({} : verify.Errors).Add diff.ModTime "expected/path" (some ⟨"some error"⟩)).Add
    diff.AccTime "expected/path" (some ⟨"some error"⟩)).Add
    diff.Size "different/path" (some ⟨"some error"⟩)

end verify

namespace diff

/-- The eleven constants of the `const` block, in declaration order. -/
def kinds : List FileDifference :=
  [All, NotPresentOrNotAccessible, ModeType, ModePerm, Owner, Group, ModTime, AccTime, Size,
    LinkTarget, Contents]

end diff

/-! ## package attr -/

namespace attr

/-- Go: `func ModePerm(mode os.FileMode) os.FileMode { return mode.Perm() }`. -/
def ModePerm (mode : os.FileMode) : os.FileMode := mode &&& os.ModePerm

/-- An element of an `...interface{}` attribute list, by its dynamic type: the types the
populators switch on (`os.FileMode`, `attr.AccessedTime`, `attr.ModifiedTime`, `attr.Uid`,
`attr.Gid`, `attr.Size`, `attr.Seed`, `verify.Instruction`) and any other value. -/
inductive Attribute where
  | FileMode (mode : os.FileMode)
  | AccessedTime (t : time.Time)
  | ModifiedTime (t : time.Time)
  | Uid (val : Nat)
  | Gid (val : Nat)
  | Size (val : Int)
  | Seed (val : Int)
  | Instruction (instruction : verify.Instruction)
  | other (description : String)
deriving DecidableEq, Repr

/-- The value of an element of dynamic type `os.FileMode`. -/
def Attribute.asFileMode : Attribute → Option os.FileMode
  | Attribute.FileMode mode => some mode
  | _ => none

def Attribute.asAccessedTime : Attribute → Option time.Time
  | Attribute.AccessedTime t => some t
  | _ => none

def Attribute.asModifiedTime : Attribute → Option time.Time
  | Attribute.ModifiedTime t => some t
  | _ => none

def Attribute.asUid : Attribute → Option Nat
  | Attribute.Uid val => some val
  | _ => none

def Attribute.asGid : Attribute → Option Nat
  | Attribute.Gid val => some val
  | _ => none

def Attribute.asSize : Attribute → Option Int
  | Attribute.Size val => some val
  | _ => none

def Attribute.asSeed : Attribute → Option Int
  | Attribute.Seed val => some val
  | _ => none

def Attribute.asInstruction : Attribute → Option verify.Instruction
  | Attribute.Instruction instruction => some instruction
  | _ => none

/-- The dynamic types `Populate` switches on. -/
def Attribute.isCommon : Attribute → Bool
  | Attribute.FileMode _ => true
  | Attribute.AccessedTime _ => true
  | Attribute.ModifiedTime _ => true
  | Attribute.Uid _ => true
  | Attribute.Gid _ => true
  | Attribute.Instruction _ => true
  | _ => false

/-- The value of the last element of the list that the selector accepts, if any. -/
def lastOf {α : Type} (sel : Attribute → Option α) (A : List Attribute) : Option α :=
  (A.filterMap sel).getLast?

/-- The value an attribute takes from four lists applied in the order `H`, `D`, `E`, `C`:
from `C` if `C` has it, else from `E`, else from `D`, else from `H`. -/
def precedence {α : Type} (sel : Attribute → Option α) (H D E C : List Attribute) :
    Option α :=
  (lastOf sel C).or ((lastOf sel E).or ((lastOf sel D).or (lastOf sel H)))

end attr

/-! ## package file -/

namespace file

def TimeLayout : String := "2006-01-02 15:04:05.000000000"

structure Meta where
  Path : String := ""
  Mode : os.FileMode := 0
  Accessed : time.Time := ⟨0, 0, ""⟩
  Modified : time.Time := ⟨0, 0, ""⟩
  Uid : Nat := 0
  Gid : Nat := 0
  VerificationInstructions : List verify.Instruction := []
deriving DecidableEq, Repr

/-- The injected collaborators of package `file`: the two read by `Meta.Verify`, each
returning its Go result pair, and the three setters called by `Meta.AlignAttributes`. The
error of `WrapNewFromPath` is any Go error, an aggregator included: `Meta.Verify` returns it
untouched. The error of `PathExists` only becomes the cause of a triple. -/
structure Implementation where
  WrapNewFromPath : String → Meta × Option GoError
  PathExists : String → Bool × Option PlainError
  OsChmod : String → os.FileMode → Option GoError
  OsChtimes : String → time.Time → time.Time → Option GoError
  OsLchown : String → Int → Int → Option GoError

/-- Standard-library functions whose results only reach the path and the cause messages:
`filepath.Join` on two elements, `FileMode.String` and `Time.Format`; and, for
`AlignAttributes`, `filepath.IsAbs` and `filepath.Join` on a variadic list. -/
structure StdLib where
  Join : String → String → String
  ModeString : os.FileMode → String
  Format : time.Time → String → String
  IsAbs : String → Bool
  JoinAll : List String → String

/-- A collaborator invocation, with the path it was given. -/
inductive Call where
  | PathExists (path : String)
  | WrapNewFromPath (path : String)
deriving DecidableEq, Repr

def Meta.Should (m : Meta) (verification : verify.Instruction) : Bool :=
  let doVerify := true
  let doVerify := m.VerificationInstructions.foldl
    (fun doVerify verificationInstruction =>
      if verificationInstruction = verify.AllByDefault false then false else doVerify)
    doVerify
  let doVerify := m.VerificationInstructions.foldl
    (fun doVerify verificationInstruction =>
      if verificationInstruction.Aspect = verification.Aspect then
        verificationInstruction.Verify
      else doVerify)
    doVerify
  doVerify

/-- The attribute stage of `Meta.Verify` (lines 107-135): the five gated comparisons, each
adding to the aggregator it is handed. -/
def Meta.verifyAttributes (lib : StdLib) (m actual : Meta) (path : String)
    (verr : verify.Errors) : verify.Errors :=
  let verr :=
    if m.Should (verify.ModePerm true) then
      if (actual.Mode &&& os.ModePerm) ≠ (m.Mode &&& os.ModePerm) then
        verr.Add diff.ModePerm path (some ⟨"expected " ++ lib.ModeString m.Mode
          ++ ", actual " ++ lib.ModeString actual.Mode⟩)
      else verr
    else verr
  let verr :=
    if m.Should (verify.Uid true) then
      if actual.Uid ≠ m.Uid then
        verr.Add diff.Owner path (some ⟨"expected " ++ toString m.Uid
          ++ ", actual " ++ toString actual.Uid⟩)
      else verr
    else verr
  let verr :=
    if m.Should (verify.Gid true) then
      if actual.Gid ≠ m.Gid then
        verr.Add diff.Group path (some ⟨"expected " ++ toString m.Gid
          ++ ", actual " ++ toString actual.Gid⟩)
      else verr
    else verr
  let verr :=
    if m.Should (verify.AccessedTime true) then
      if !(actual.Accessed.Equal m.Accessed) then
        verr.Add diff.AccTime path (some ⟨"expected " ++ lib.Format m.Accessed TimeLayout
          ++ ", actual " ++ lib.Format actual.Accessed TimeLayout⟩)
      else verr
    else verr
  let verr :=
    if m.Should (verify.ModifiedTime true) then
      if !(actual.Modified.Equal m.Modified) then
        verr.Add diff.ModTime path (some ⟨"expected " ++ lib.Format m.Modified TimeLayout
          ++ ", actual " ++ lib.Format actual.Modified TimeLayout⟩)
      else verr
    else verr
  verr

/-- Go: `func (m Meta) Verify(root string) (err error)`. The second component is the list of
collaborator calls made, in order. -/
def Meta.Verify (impl : Implementation) (lib : StdLib) (m : Meta) (root : String) :
    Option GoError × List Call :=
  if m.VerificationInstructions.length = 1 ∧
      m.VerificationInstructions[0]? = some (verify.AllByDefault false) then
    (none, [])
  else
    let verr : verify.Errors := {}
    let path := lib.Join root m.Path
    let (ex, err) := impl.PathExists path
    match err with
    | some e =>
      (some (GoError.verification (verr.Add diff.NotPresentOrNotAccessible path (some e))),
        [Call.PathExists path])
    | none =>
      if !ex then
        (some (GoError.verification
            (verr.Add diff.NotPresentOrNotAccessible path (some ⟨"file does not exist"⟩))),
          [Call.PathExists path])
      else
        let (actual, err) := impl.WrapNewFromPath path
        match err with
        | some e => (some e, [Call.PathExists path, Call.WrapNewFromPath path])
        | none =>
          if (actual.Mode &&& os.ModeType) ≠ (m.Mode &&& os.ModeType) then
            (some (GoError.verification (verr.Add diff.ModeType path
                (some ⟨"expected " ++ lib.ModeString m.Mode ++ ", actual "
                  ++ lib.ModeString actual.Mode⟩))),
              [Call.PathExists path, Call.WrapNewFromPath path])
          else
            ((m.verifyAttributes lib actual path verr).MapToNilIfNone,
              [Call.PathExists path, Call.WrapNewFromPath path])

def ErrorMessageRootCannotBeUsedWithAbsoluteMetaPath : String :=
  "root cannot be used when meta path is absolute"

def ErrorMessageRelativePathHasToBeUsedWithRoot : String :=
  "relative meta path requires root"

def Meta.isSymlink (m : Meta) : Bool :=
  (m.Mode &&& os.ModeSymlink) ≠ 0

/-- A setter invocation made by `AlignAttributes`, with its arguments. -/
inductive SetterCall where
  | OsLchown (name : String) (uid gid : Int)
  | OsChmod (name : String) (mode : os.FileMode)
  | OsChtimes (name : String) (atime mtime : time.Time)
deriving DecidableEq, Repr

/-- The path resolution of `AlignAttributes` (lines 142-154): the target path, or the error
returned. -/
def Meta.alignPath (lib : StdLib) (m : Meta) (optionalRoot : List String) :
    Except GoError String :=
  if lib.IsAbs m.Path then
    if lib.JoinAll optionalRoot ≠ "" then
      Except.error (GoError.plain ⟨ErrorMessageRootCannotBeUsedWithAbsoluteMetaPath⟩)
    else
      Except.ok m.Path
  else
    if lib.JoinAll optionalRoot = "" then
      Except.error (GoError.plain ⟨ErrorMessageRelativePathHasToBeUsedWithRoot⟩)
    else
      Except.ok (lib.Join (lib.JoinAll optionalRoot) m.Path)

/-- Go: `func (m Meta) AlignAttributes(ownership, mode, times bool, optionalRoot ...string)`.
The second component is the list of setter calls made, in order. The conversions
`int(m.Uid)`, `int(m.Gid)` keep the value (`int` is 64 bits wide). -/
def Meta.AlignAttributes (impl : Implementation) (lib : StdLib) (m : Meta)
    (ownership mode times : Bool) (optionalRoot : List String) :
    Option GoError × List SetterCall :=
  match m.alignPath lib optionalRoot with
  | Except.error err => (some err, [])
  | Except.ok path =>
    match (if ownership then
        (impl.OsLchown path (Int.ofNat m.Uid) (Int.ofNat m.Gid),
          [SetterCall.OsLchown path (Int.ofNat m.Uid) (Int.ofNat m.Gid)])
      else (none, [])) with
    | (some err, calls) => (some err, calls)
    | (none, calls) =>
      match (if mode && !m.isSymlink then
          (impl.OsChmod path m.Mode, calls ++ [SetterCall.OsChmod path m.Mode])
        else (none, calls)) with
      | (some err, calls) => (some err, calls)
      | (none, calls) =>
        match (if times && !m.isSymlink then
            (impl.OsChtimes path m.Accessed m.Modified,
              calls ++ [SetterCall.OsChtimes path m.Accessed m.Modified])
          else (none, calls)) with
        | (some err, calls) => (some err, calls)
        | (none, calls) => (none, calls)

/-- One iteration of the loop of `Populate`: the type switch on the element. -/
def Meta.populateStep (m : Meta) : attr.Attribute → Meta
  | attr.Attribute.FileMode catt => { m with Mode := catt }
  | attr.Attribute.AccessedTime catt => { m with Accessed := catt }
  | attr.Attribute.ModifiedTime catt => { m with Modified := catt }
  | attr.Attribute.Uid catt => { m with Uid := catt }
  | attr.Attribute.Gid catt => { m with Gid := catt }
  | attr.Attribute.Instruction catt =>
    { m with VerificationInstructions := m.VerificationInstructions ++ [catt] }
  | _ => m

/-- Go: `func (m *Meta) Populate(relPath string, attributesAndInstructions ...interface{})`,
returning the receiver after the call. -/
def Meta.Populate (m : Meta) (relPath : String)
    (attributesAndInstructions : List attr.Attribute) : Meta :=
  { attributesAndInstructions.foldl Meta.populateStep m with Path := relPath }

/-! ### The attribute stage as specified, and concrete inputs -/

/-- The kinds the attribute stage is specified to record for an expected `m` and an actual
`a`, in order: each kind is present iff its aspect is to be verified and the attribute
differs. -/
def expectedAttributeKinds (m a : Meta) : List diff.FileDifference :=
  (if m.Should (verify.ModePerm true) = true ∧ (a.Mode &&& os.ModePerm) ≠ (m.Mode &&& os.ModePerm)
    then [diff.ModePerm] else []) ++
  (if m.Should (verify.Uid true) = true ∧ a.Uid ≠ m.Uid then [diff.Owner] else []) ++
  (if m.Should (verify.Gid true) = true ∧ a.Gid ≠ m.Gid then [diff.Group] else []) ++
  (if m.Should (verify.AccessedTime true) = true ∧ a.Accessed.Equal m.Accessed = false
    then [diff.AccTime] else []) ++
  (if m.Should (verify.ModifiedTime true) = true ∧ a.Modified.Equal m.Modified = false
    then [diff.ModTime] else [])

/-- A stand-in for the standard-library functions, for concrete runs. -/
def mockLib : StdLib :=
  { Join := fun root path => root ++ "/" ++ path
    ModeString := fun mode => toString mode
    Format := fun t _ => toString t.sec ++ "." ++ toString t.nsec
    IsAbs := fun path => path.data.head? = some '/'
    JoinAll := fun elems => String.intercalate "/" (elems.filter (fun e => e ≠ "")) }

/-- Collaborators that answer every path with the given results, as the mocks of the test
suite do. -/
def mockImpl (exists_ : Bool × Option PlainError) (read : Meta × Option PlainError) :
    Implementation :=
  { PathExists := fun _ => exists_
    WrapNewFromPath := fun _ => (read.1, read.2.map GoError.plain)
    OsChmod := fun _ _ => none
    OsChtimes := fun _ _ _ => none
    OsLchown := fun _ _ _ => none }

/-- Collaborators for which every path exists and whose metadata reader answers with the
given result, its error being any Go error. -/
def mockReaderImpl (read : Meta × Option GoError) : Implementation :=
  { PathExists := fun _ => (true, none)
    WrapNewFromPath := fun _ => read
    OsChmod := fun _ _ => none
    OsChtimes := fun _ _ _ => none
    OsLchown := fun _ _ _ => none }

/-- An aggregator as a caller of another package may build it: two triples of the same kind
at a foreign path, with a union that is not the OR of their kinds. -/
def foreignErrors : verify.Errors :=
  { CombinedFileDifference := diff.Size
    Errors := [{ FileDifference := diff.NotPresentOrNotAccessible, Path := "elsewhere",
                 Err := none },
               { FileDifference := diff.NotPresentOrNotAccessible, Path := "elsewhere",
                 Err := none }] }

/-- Collaborators whose setters answer every call with the given results. -/
def mockSetters (lchown chmod chtimes : Option GoError) : Implementation :=
  { PathExists := fun _ => (true, none)
    WrapNewFromPath := fun _ => ({}, none)
    OsChmod := fun _ _ => chmod
    OsChtimes := fun _ _ _ => chtimes
    OsLchown := fun _ _ _ => lchown }

/-- The record of the `AlignAttributes` tests, a regular file. -/
def alignRegular : Meta :=
  { Path := "original path", Mode := 0o666, Uid := 1883, Gid := 980,
    Accessed := ⟨10, 0, "UTC"⟩, Modified := ⟨20, 0, "UTC"⟩ }

/-- The same record as a symlink. -/
def alignSymlink : Meta :=
  { Path := "original path", Mode := os.ModeSymlink, Uid := 1883, Gid := 980,
    Accessed := ⟨10, 0, "UTC"⟩, Modified := ⟨20, 0, "UTC"⟩ }

/-- The expected record of the test "will collate all errors and return within Errors". -/
def collateExpected : Meta :=
  { Mode := 0o765, Uid := 654, Gid := 543, Accessed := ⟨100, 0, "UTC"⟩,
    Modified := ⟨200, 0, "UTC"⟩ }

/-- The retrieved record of the same test. -/
def collateActual : Meta :=
  { Mode := 0o123, Uid := 234, Gid := 345, Accessed := ⟨101, 0, "UTC"⟩,
    Modified := ⟨201, 0, "UTC"⟩ }

/-- The expected record of the example "not verifying mode permissions does not mean the
mode type can be incompatible": a directory, every aspect switched off. -/
def wrongTypeExpected : Meta :=
  { Path := "d", Mode := 0o500 ||| os.ModeDir, Uid := 1, Gid := 1,
    VerificationInstructions := [verify.AllByDefault false, verify.ModePerm false] }

/-- The record found on disk in that example: a symlink. -/
def wrongTypeActual : Meta :=
  { Path := "r/d", Mode := 0o765 ||| os.ModeSymlink, Uid := 2, Gid := 2 }

/-- A directory declaration that verifies ownership only. -/
def unchangedExpected : Meta :=
  { Path := "a/d", Mode := 0o700 ||| os.ModeDir, Uid := 1000, Gid := 100,
    Accessed := ⟨5400, 15, "UTC"⟩, Modified := ⟨0, 7, "UTC"⟩,
    VerificationInstructions := [verify.AllByDefault false, verify.Uid true] }

/-- The same entry as read back from disk after creation and alignment. -/
def unchangedActual : Meta :=
  { Path := "r/a/d", Mode := 0o700 ||| os.ModeDir, Uid := 1000, Gid := 100,
    Accessed := ⟨5400, 15, "UTC"⟩, Modified := ⟨0, 7, "UTC"⟩ }

/-- An expected record: a regular file with mode `0755`, every aspect verified. -/
def setuidExpected : Meta :=
  { Path := "bin/tool", Mode := 0o755, Uid := 1000, Gid := 100,
    Accessed := ⟨5400, 15, "UTC"⟩, Modified := ⟨0, 7, "UTC"⟩ }

/-- The record found on disk: the same file with the setuid and sticky bits set. -/
def setuidActual : Meta :=
  { Path := "r/bin/tool", Mode := 0o755 ||| os.ModeSetuid ||| os.ModeSticky, Uid := 1000,
    Gid := 100, Accessed := ⟨5400, 15, "UTC"⟩, Modified := ⟨0, 7, "UTC"⟩ }

/-- An expected record whose instruction list holds `all=false` twice. -/
def twiceAllFalse : Meta :=
  { Path := "d", Mode := 0o500 ||| os.ModeDir, Uid := 1, Gid := 1,
    VerificationInstructions := [verify.AllByDefault false, verify.AllByDefault false] }

/-- Go interface `File`, the three methods the batch functions call. A batch call invokes
each method at most once per list element, so an element is given by the results its calls
return in that run. -/
structure File where
  Create : String → Option GoError
  AlignAttributes : Bool → Bool → Bool → List String → Option GoError
  Verify : String → Option GoError

end file

/-! ## package filefactory -/

namespace filefactory

/-- A method invocation made by a batch function, with the position of the declaration in
the argument list and the arguments passed. -/
inductive Invocation where
  | Create (index : Nat) (root : String)
  | AlignAttributes (index : Nat) (ownership mode times : Bool) (optionalRoot : List String)
  | Verify (index : Nat) (root : String)
deriving DecidableEq, Repr

/-- First loop of `CreateFiles`, from position `i` on, appending to the invocations made. -/
def CreateFiles.createLoop (root : String) :
    List file.File → Nat → List Invocation → Option GoError × List Invocation
  | [], _, calls => (none, calls)
  | f :: rest, i, calls =>
    match f.Create root with
    | some err => (some err, calls ++ [Invocation.Create i root])
    | none => CreateFiles.createLoop root rest (i + 1) (calls ++ [Invocation.Create i root])

/-- Second loop of `CreateFiles`. -/
def CreateFiles.alignLoop (root : String) :
    List file.File → Nat → List Invocation → Option GoError × List Invocation
  | [], _, calls => (none, calls)
  | f :: rest, i, calls =>
    match f.AlignAttributes true true true [root] with
    | some err =>
      (some err, calls ++ [Invocation.AlignAttributes i true true true [root]])
    | none =>
      CreateFiles.alignLoop root rest (i + 1)
        (calls ++ [Invocation.AlignAttributes i true true true [root]])

/-- Go: `func CreateFiles(root string, files ...file.File) (err error)`, with the
invocations made, in order. -/
def CreateFiles (root : String) (files : List file.File) :
    Option GoError × List Invocation :=
  match CreateFiles.createLoop root files 0 [] with
  | (some err, calls) => (some err, calls)
  | (none, calls) => CreateFiles.alignLoop root files 0 calls

/-- The loop of `VerifyFiles`, from position `i` on. -/
def VerifyFiles.loop (root : String) :
    List file.File → Nat → verify.Errors → List Invocation →
      Option GoError × List Invocation
  | [], _, aggregatedVerificationErrors, calls =>
    (aggregatedVerificationErrors.MapToNilIfNone, calls)
  | f :: rest, i, aggregatedVerificationErrors, calls =>
    let err := f.Verify root
    match aggregatedVerificationErrors.Merge err with
    | (_, some err) => (some err, calls ++ [Invocation.Verify i root])
    | (aggregatedVerificationErrors, none) =>
      VerifyFiles.loop root rest (i + 1) aggregatedVerificationErrors
        (calls ++ [Invocation.Verify i root])

/-- Go: `func VerifyFiles(root string, expectedFiles ...file.File) (err error)`, with the
invocations made, in order. -/
def VerifyFiles (root : String) (expectedFiles : List file.File) :
    Option GoError × List Invocation :=
  VerifyFiles.loop root expectedFiles 0 {} []

/-- The triples a declaration reports: those of the aggregator its `Verify` returns. -/
def reportedTriples (root : String) (f : file.File) : List verify.Error :=
  match f.Verify root with
  | some (GoError.verification ves) => ves.Errors
  | _ => []

/-- A declaration that answers every call with the given results. -/
def mockFile (create align verify : Option GoError) : file.File :=
  { Create := fun _ => create
    AlignAttributes := fun _ _ _ _ => align
    Verify := fun _ => verify }

/-- The triples reported by a list of declarations, in input order. -/
def allReportedTriples (root : String) : List file.File → List verify.Error
  | [] => []
  | f :: rest => reportedTriples root f ++ allReportedTriples root rest

/-- An error that is `nil` or an aggregator, as opposed to any other error value. -/
def nilOrAggregator : Option GoError → Bool
  | some (GoError.plain _) => false
  | _ => true

/-- A declaration for which every call succeeds. -/
def okFile : file.File := mockFile none none none

/-- A declaration whose `Verify` reports one triple of kind 8 at "some path", as the mocks
of the `VerifyFiles` test do. -/
def mismatchFile (msg : String) : file.File :=
  mockFile none none
    (some (GoError.verification (({} : verify.Errors).Add 8 "some path" (some ⟨msg⟩))))

/-- A declaration whose `Verify` fails with an error that is not an aggregator. -/
def brokenVerifyFile : file.File :=
  mockFile none none (some (GoError.plain ⟨"verify failed"⟩))

/-- A declaration whose `Create` fails. -/
def brokenCreateFile : file.File :=
  mockFile (some (GoError.plain ⟨"create failed"⟩)) none none

/-- A declaration whose `AlignAttributes` fails. -/
def brokenAlignFile : file.File :=
  mockFile none (some (GoError.plain ⟨"align failed"⟩)) none

def MsgConstructorDidNotDoItsJob : String :=
  "whoops, constructor is meant to create a wrapper in any case"

structure FileFactory where
  hardcodedFileFactoryDefaults : List attr.Attribute
  extraFileFactoryDefaults : List attr.Attribute
deriving DecidableEq, Repr

/-- Go: `type DefinitionConstructor func(hardcoded, extra []interface{}) file.File`. The
declaration type `δ` stands for the interface `file.File`; `none` is the nil interface. -/
abbrev DefinitionConstructor (δ : Type) := List attr.Attribute → List attr.Attribute → Option δ

/-- The loop of `FilesToCreate`; a panic is `Except.error` with its message. -/
def FileFactory.FilesToCreate.loop {δ : Type} (ff : FileFactory) :
    List (DefinitionConstructor δ) → List δ → Except String (List δ)
  | [], files => Except.ok files
  | constructor :: rest, files =>
    match constructor ff.hardcodedFileFactoryDefaults ff.extraFileFactoryDefaults with
    | none => Except.error MsgConstructorDidNotDoItsJob
    | some f => FileFactory.FilesToCreate.loop ff rest (files ++ [f])

def FileFactory.FilesToCreate {δ : Type} (ff : FileFactory)
    (constructors : List (DefinitionConstructor δ)) : Except String (List δ) :=
  FileFactory.FilesToCreate.loop ff constructors []

def FileFactory.FilesToExpect {δ : Type} (ff : FileFactory)
    (constructors : List (DefinitionConstructor δ)) : Except String (List δ) :=
  ff.FilesToCreate constructors

end filefactory

/-! ## package def (named `defs` here, since the package name is reserved) -/

namespace defs

structure Regular where
  Meta : file.Meta := {}
  Size : Int := 0
  Seed : Int := 0
deriving DecidableEq, Repr

structure Directory where
  Meta : file.Meta := {}
deriving DecidableEq, Repr

structure Symlink where
  Meta : file.Meta := {}
  LinkTarget : String := ""
deriving DecidableEq, Repr

/-- A value of the interface `file.File` built by one of the three constructors. -/
inductive Declaration where
  | Regular (f : defs.Regular)
  | Directory (f : defs.Directory)
  | Symlink (f : defs.Symlink)
deriving DecidableEq, Repr

/-- The embedded `file.Meta` of a declaration. -/
def Declaration.Meta : Declaration → file.Meta
  | Declaration.Regular f => f.Meta
  | Declaration.Directory f => f.Meta
  | Declaration.Symlink f => f.Meta

/-- The `fileSpecificDefaults` of `Reg`. -/
def Reg.fileSpecificDefaults : List attr.Attribute :=
  [attr.Attribute.FileMode (attr.ModePerm 0o666), attr.Attribute.Size 20]

/-- One iteration of the second loop of `Reg`: the type switch on the element. -/
def Reg.sizeSeedStep (regular : Regular) : attr.Attribute → Regular
  | attr.Attribute.Size catt => { regular with Size := catt }
  | attr.Attribute.Seed catt => { regular with Seed := catt }
  | _ => regular

/-- The body of the constructor returned by `Reg`, up to the `return`. -/
def Reg.regular (relPath : String) (extraFileSpecificAttributes : List attr.Attribute)
    (hardcodedFileFactoryDefaults extraFileFactoryDefaults : List attr.Attribute) :
    Regular :=
  let regular : Regular := {}
  let combined := hardcodedFileFactoryDefaults ++
    (Reg.fileSpecificDefaults ++ (extraFileFactoryDefaults ++ extraFileSpecificAttributes))
  let regular := { regular with Meta := regular.Meta.Populate relPath combined }
  let regular := combined.foldl Reg.sizeSeedStep regular
  { regular with Meta := { regular.Meta with Mode := regular.Meta.Mode &&& os.notModeType } }

def Reg (relPath : String) (extraFileSpecificAttributes : List attr.Attribute) :
    filefactory.DefinitionConstructor Declaration :=
  fun hardcodedFileFactoryDefaults extraFileFactoryDefaults =>
    some (Declaration.Regular (Reg.regular relPath extraFileSpecificAttributes
      hardcodedFileFactoryDefaults extraFileFactoryDefaults))

/-- The `fileSpecificDefaults` of `Dir`. -/
def Dir.fileSpecificDefaults : List attr.Attribute :=
  [attr.Attribute.FileMode (attr.ModePerm 0o777)]

/-- The body of the constructor returned by `Dir`, up to the `return`. -/
def Dir.directory (relPath : String) (extraFileSpecificAttributes : List attr.Attribute)
    (hardcodedFileFactoryDefaults extraFileFactoryDefaults : List attr.Attribute) :
    Directory :=
  let directory : Directory := {}
  let combined := hardcodedFileFactoryDefaults ++
    (Dir.fileSpecificDefaults ++ (extraFileFactoryDefaults ++ extraFileSpecificAttributes))
  let directory := { directory with Meta := directory.Meta.Populate relPath combined }
  let directory :=
    { directory with
      Meta := { directory.Meta with Mode := directory.Meta.Mode &&& os.notModeType } }
  { directory with Meta := { directory.Meta with Mode := directory.Meta.Mode ||| os.ModeDir } }

def Dir (relPath : String) (extraFileSpecificAttributes : List attr.Attribute) :
    filefactory.DefinitionConstructor Declaration :=
  fun hardcodedFileFactoryDefaults extraFileFactoryDefaults =>
    some (Declaration.Directory (Dir.directory relPath extraFileSpecificAttributes
      hardcodedFileFactoryDefaults extraFileFactoryDefaults))

/-- The `fileSpecificDefaults` of `Sym`. -/
def Sym.fileSpecificDefaults : List attr.Attribute :=
  [attr.Attribute.Instruction (verify.ModePerm false),
   attr.Attribute.Instruction (verify.ModifiedTime false),
   attr.Attribute.Instruction (verify.AccessedTime false)]

/-- The body of the constructor returned by `Sym`, up to the `return`. -/
def Sym.symlink (relPath : String) (linkTarget : String)
    (extraFileSpecificAttributes : List attr.Attribute)
    (hardcodedFileFactoryDefaults extraFileFactoryDefaults : List attr.Attribute) :
    Symlink :=
  let symlink : Symlink := { LinkTarget := linkTarget }
  let combined := hardcodedFileFactoryDefaults ++
    (Sym.fileSpecificDefaults ++ (extraFileFactoryDefaults ++ extraFileSpecificAttributes))
  let symlink := { symlink with Meta := symlink.Meta.Populate relPath combined }
  let symlink :=
    { symlink with Meta := { symlink.Meta with Mode := symlink.Meta.Mode &&& os.notModeType } }
  { symlink with Meta := { symlink.Meta with Mode := symlink.Meta.Mode ||| os.ModeSymlink } }

def Sym (relPath : String) (linkTarget : String)
    (extraFileSpecificAttributes : List attr.Attribute) :
    filefactory.DefinitionConstructor Declaration :=
  fun hardcodedFileFactoryDefaults extraFileFactoryDefaults =>
    some (Declaration.Symlink (Sym.symlink relPath linkTarget extraFileSpecificAttributes
      hardcodedFileFactoryDefaults extraFileFactoryDefaults))

/-- The injected collaborators of package `def`. Each returns its Go result (pair). Byte
slices are lists of byte values. -/
structure Implementation where
  OsLstat : String → os.FileInfo × Option GoError
  OsReadlink : String → String × Option GoError
  OsMkdirAll : String → os.FileMode → Option GoError
  OsSymlink : String → String → Option GoError
  IoutilWriteFile : String → List Nat → os.FileMode → Option GoError
  IoutilReadFile : String → List Nat × Option GoError
  MetaVerify : file.Meta → String → Option GoError

/-- Standard-library functions used by package `def`: the bytes read from
`rand.New(rand.NewSource(seed))` into a slice of the given length,
`base64.StdEncoding.EncodeToString`, and the largest length `make([]byte, n)` accepts
(`runtime.maxAlloc`). -/
structure StdLib where
  RandRead : Int → Nat → List Nat
  EncodeToString : List Nat → String
  MaxAlloc : Nat

/-- A collaborator invocation made by a kind-specific `Verify`. -/
inductive Call where
  | MetaVerify (m : file.Meta) (root : String)
  | OsLstat (name : String)
  | IoutilReadFile (filename : String)
  | OsReadlink (name : String)
deriving DecidableEq, Repr

/-- Go: `func ProvidePseudoRandomBytes(size, seed int64) (bs []byte)`. `make([]byte, size)`
panics ("makeslice: len out of range") for a negative size and for a size above the
allocation limit of the runtime, `dlib.MaxAlloc` (`runtime.maxAlloc`, 2^48 bytes on 64-bit
Linux); within the limit the allocation is taken to succeed. A panic is `Except.error`. -/
def ProvidePseudoRandomBytes (dlib : StdLib) (size seed : Int) : Except String (List Nat) :=
  if size < 0 ∨ (dlib.MaxAlloc : Int) < size then Except.error "makeslice: len out of range"
  else Except.ok (dlib.RandRead seed size.toNat)

/-- Go slice expression `bs[:n]`: the first `n` elements. It panics when `n` exceeds the
length; a panic is `Except.error`. -/
def sliceTo (bs : List Nat) (n : Nat) : Except String (List Nat) :=
  if n ≤ bs.length then Except.ok (bs.take n)
  else Except.error "slice bounds out of range"

/-- Go: `int(math.Min(50, float64(n)))` for a slice length `n`. The result is `n` itself
when `n` is below 50 and 50 otherwise, whatever rounding `float64(n)` undergoes. -/
def sampleLength (n : Nat) : Nat := min 50 n

/-- Lines 116-121 of `Regular.Verify`: the cause of a `Contents` triple, built from samples
of the expected and of the actual bytes. -/
def Regular.contentsCause (dlib : StdLib) (expectedBytes actualBytes : List Nat) :
    Except String PlainError :=
  let expectedBytesSampleLength := sampleLength expectedBytes.length
  let actualBytesSampleLength := sampleLength actualBytes.length
  match sliceTo expectedBytes expectedBytesSampleLength with
  | Except.error msg => Except.error msg
  | Except.ok expectedSample =>
    match sliceTo actualBytes actualBytesSampleLength with
    | Except.error msg => Except.error msg
    | Except.ok actualSample =>
      Except.ok ⟨"base64(bytes[:<=50]) for expected " ++ dlib.EncodeToString expectedSample
        ++ ", actual " ++ dlib.EncodeToString actualSample⟩

/-- Lines 97-125 of `Regular.Verify`: the size and contents checks, entered with the
aggregator `verr` and the calls made so far. -/
def Regular.verifySizeAndContents (impl : Implementation) (lib : file.StdLib) (dlib : StdLib)
    (f : Regular) (root : String) (verr : verify.Errors) (calls : List Call) :
    Except String (Option GoError) × List Call :=
  let absolutePath := lib.Join root f.Meta.Path
  let (fi, err) := impl.OsLstat absolutePath
  let calls := calls ++ [Call.OsLstat absolutePath]
  match err with
  | some err => (Except.ok (some err), calls)
  | none =>
    let verr :=
      if f.Meta.Should (verify.Size true) then
        if fi.Size ≠ f.Size then
          verr.Add diff.Size absolutePath
            (some ⟨"expected " ++ toString f.Size ++ ", actual " ++ toString fi.Size⟩)
        else verr
      else verr
    if f.Meta.Should (verify.Contents true) then
      let (actualBytes, err) := impl.IoutilReadFile absolutePath
      let calls := calls ++ [Call.IoutilReadFile absolutePath]
      match err with
      | some err => (Except.ok (some err), calls)
      | none =>
        match ProvidePseudoRandomBytes dlib f.Size f.Seed with
        | Except.error msg => (Except.error msg, calls)
        | Except.ok expectedBytes =>
          if actualBytes ≠ expectedBytes then
            match Regular.contentsCause dlib expectedBytes actualBytes with
            | Except.error msg => (Except.error msg, calls)
            | Except.ok cause =>
              (Except.ok (verr.Add diff.Contents absolutePath (some cause)).MapToNilIfNone,
                calls)
          else
            (Except.ok verr.MapToNilIfNone, calls)
    else
      (Except.ok verr.MapToNilIfNone, calls)

/-- Go: `func (f Regular) Verify(root string) (err error)`, with the collaborator calls made,
in order. -/
def Regular.Verify (impl : Implementation) (lib : file.StdLib) (dlib : StdLib)
    (f : Regular) (root : String) : Except String (Option GoError) × List Call :=
  let verr : verify.Errors := {}
  let err := impl.MetaVerify f.Meta root
  match verr.Merge err with
  | (_, some err) => (Except.ok (some err), [Call.MetaVerify f.Meta root])
  | (verr, none) =>
    if verr.IsFileNotPresentOrNotAccessible then
      (Except.ok (some (GoError.verification verr)), [Call.MetaVerify f.Meta root])
    else if verr.IsFileTypeUnexpected then
      (Except.ok (some (GoError.verification verr)), [Call.MetaVerify f.Meta root])
    else
      Regular.verifySizeAndContents impl lib dlib f root verr [Call.MetaVerify f.Meta root]

/-- Go: `func (f Symlink) Verify(root string) (err error)`, with the collaborator calls made,
in order. -/
def Symlink.Verify (impl : Implementation) (lib : file.StdLib) (f : Symlink)
    (root : String) : Option GoError × List Call :=
  let verr : verify.Errors := {}
  let err := impl.MetaVerify f.Meta root
  match verr.Merge err with
  | (_, some err) => (some err, [Call.MetaVerify f.Meta root])
  | (verr, none) =>
    if verr.IsFileNotPresentOrNotAccessible then
      (some (GoError.verification verr), [Call.MetaVerify f.Meta root])
    else if verr.IsFileTypeUnexpected then
      (some (GoError.verification verr), [Call.MetaVerify f.Meta root])
    else
      let path := lib.Join root f.Meta.Path
      let (linkTarget, err) := impl.OsReadlink path
      match err with
      | some err => (some err, [Call.MetaVerify f.Meta root, Call.OsReadlink path])
      | none =>
        let verr :=
          if f.Meta.Should (verify.SymlinkTarget true) then
            if linkTarget ≠ f.LinkTarget then
              verr.Add diff.LinkTarget path
                (some ⟨"expected " ++ f.LinkTarget ++ ", actual " ++ linkTarget⟩)
            else verr
          else verr
        (verr.MapToNilIfNone, [Call.MetaVerify f.Meta root, Call.OsReadlink path])

/-- The `MetaVerify` collaborator of `GetProductionImplementation`: `meta.Verify(root)` of
package `file`. The other collaborators are kept. -/
def withProductionMetaVerify (impl : Implementation) (fimpl : file.Implementation)
    (lib : file.StdLib) : Implementation :=
  { impl with MetaVerify := fun m root => (m.Verify fimpl lib root).1 }

/-- The triples of the error returned by the generic verification: those of the aggregator,
none for `nil`. -/
def genericTriples : Option GoError → List verify.Error
  | some (GoError.verification ves) => ves.Errors
  | _ => []

/-- A triple whose kind carries neither the `NotPresentOrNotAccessible` nor the `ModeType`
flag. -/
def carriesNoShortCircuit (t : verify.Error) : Bool :=
  (t.FileDifference &&& diff.NotPresentOrNotAccessible) = 0 ∧
    (t.FileDifference &&& diff.ModeType) = 0

/-- The kinds and paths `Regular.Verify` is specified to report: the triples of the generic
verification, then `Size` iff the size is to be verified and differs, then `Contents` iff
the contents are to be verified and differ, both at `path`. -/
def expectedRegularTriples (f : Regular) (generic : List verify.Error) (path : String)
    (s : Int) (b expectedBytes : List Nat) : List (diff.FileDifference × String) :=
  generic.map (fun t => (t.FileDifference, t.Path))
  ++ (if f.Meta.Should (verify.Size true) = true ∧ s ≠ f.Size then [(diff.Size, path)] else [])
  ++ (if f.Meta.Should (verify.Contents true) = true ∧ b ≠ expectedBytes
      then [(diff.Contents, path)] else [])

/-- The kinds and paths `Symlink.Verify` is specified to report. -/
def expectedSymlinkTriples (f : Symlink) (generic : List verify.Error) (path : String)
    (linkTarget : String) : List (diff.FileDifference × String) :=
  generic.map (fun t => (t.FileDifference, t.Path))
  ++ (if f.Meta.Should (verify.SymlinkTarget true) = true ∧ linkTarget ≠ f.LinkTarget
      then [(diff.LinkTarget, path)] else [])

/-- Collaborators of package `def` for a symlink: the generic verification and the link
read answer with the given results. -/
def mockLinkImpl (metaVerify : Option GoError) (readlink : String × Option GoError) :
    Implementation :=
  { OsLstat := fun _ => ({ Size := 0 }, none)
    OsReadlink := fun _ => readlink
    OsMkdirAll := fun _ _ => none
    OsSymlink := fun _ _ => none
    IoutilWriteFile := fun _ _ _ => none
    IoutilReadFile := fun _ => ([], none)
    MetaVerify := fun _ _ => metaVerify }

/-- A regular declaration with a negative size; every aspect is verified. -/
def negativeSizeRegular : Regular :=
  { Meta := { Path := "f" }, Size := -1, Seed := 18 }

/-- A regular declaration with the largest `int64` as its size; every aspect is verified. -/
def hugeSizeRegular : Regular :=
  { Meta := { Path := "f" }, Size := 9223372036854775807, Seed := 18 }

/-- A regular declaration whose instruction list is exactly `[all=false]`. -/
def skippedRegular : Regular :=
  { Meta := { Path := "f", VerificationInstructions := [verify.AllByDefault false] },
    Size := 20, Seed := 18 }

/-- The declaration of the test "will append error to VerificationErrors if contents are
different". -/
def contentsRegular : Regular :=
  { Meta := { Path := "file-with-different-contents" }, Size := 20, Seed := 99999 }

/-- A symlink declaration with the default instructions of `Sym`. -/
def sampleSymlink : Symlink :=
  { Meta := { Path := "l", Mode := os.ModeSymlink,
              VerificationInstructions := [verify.ModePerm false, verify.ModifiedTime false,
                verify.AccessedTime false] },
    LinkTarget := "symlink/target/path" }

/-- The aggregator of the test "will append error to VerificationErrors if contents are
different": one `AccTime` triple. -/
def accTimeErrors : verify.Errors :=
  ({} : verify.Errors).Add diff.AccTime "some path" (some ⟨"accTime error"⟩)

/-- Collaborators of package `def` that answer every call with the given results. -/
def mockImpl (metaVerify : Option GoError) (lstat : os.FileInfo × Option GoError)
    (readFile : List Nat × Option GoError) : Implementation :=
  { OsLstat := fun _ => lstat
    OsReadlink := fun _ => ("", none)
    OsMkdirAll := fun _ _ => none
    OsSymlink := fun _ _ => none
    IoutilWriteFile := fun _ _ _ => none
    IoutilReadFile := fun _ => readFile
    MetaVerify := fun _ _ => metaVerify }

/-- A stand-in for the standard-library functions of package `def`. -/
def mockLib : StdLib :=
  { RandRead := fun seed n => (List.range n).map (fun i => (seed.toNat + i) % 256)
    EncodeToString := fun bs => String.intercalate "," (bs.map toString)
    MaxAlloc := 281474976710656 }

/-- An aggregator as `Meta.Verify` returns it for a missing path. -/
def notPresentErrors : verify.Errors :=
  ({} : verify.Errors).Add diff.NotPresentOrNotAccessible "r/f" (some ⟨"file does not exist"⟩)

/-- The precedence rule for the common attributes of a declaration built from the lists
`H` (factory hardcoded), `D` (kind defaults), `E` (factory extra) and `C` (call site):
permission bits, uid, gid and the two times each come from `C` if `C` has the attribute,
else from `E`, else from `D`, else from `H` (else the zero value). -/
def followsPrecedence (H D E C : List attr.Attribute) (m : file.Meta) : Prop :=
  (m.Mode &&& os.ModePerm)
    = ((attr.precedence attr.Attribute.asFileMode H D E C).getD 0 &&& os.ModePerm) ∧
  m.Uid = (attr.precedence attr.Attribute.asUid H D E C).getD 0 ∧
  m.Gid = (attr.precedence attr.Attribute.asGid H D E C).getD 0 ∧
  m.Accessed = (attr.precedence attr.Attribute.asAccessedTime H D E C).getD ⟨0, 0, ""⟩ ∧
  m.Modified = (attr.precedence attr.Attribute.asModifiedTime H D E C).getD ⟨0, 0, ""⟩

/-- Call-site attributes without accessed time, modified time, uid or gid. -/
def noOwnershipOrTimes (C : List attr.Attribute) : Prop :=
  ∀ a ∈ C, a.asAccessedTime = none ∧ a.asModifiedTime = none ∧ a.asUid = none ∧
    a.asGid = none

instance noOwnershipOrTimes.decidable (C : List attr.Attribute) :
    Decidable (noOwnershipOrTimes C) := by
  unfold noOwnershipOrTimes
  infer_instance

/-- A constructor obtained from `Reg`, `Dir` or `Sym` with such call-site attributes. -/
def kindConstructor (c : filefactory.DefinitionConstructor Declaration) : Prop :=
  ∃ (relPath : String) (C : List attr.Attribute), noOwnershipOrTimes C ∧
    (c = Reg relPath C ∨ c = Dir relPath C ∨ ∃ linkTarget, c = Sym relPath linkTarget C)

/-- Hardcoded factory defaults as `New` builds them: uid, gid, modified and accessed time. -/
def sampleHardcoded : List attr.Attribute :=
  [attr.Attribute.Uid 1000, attr.Attribute.Gid 100,
   attr.Attribute.ModifiedTime ⟨1500, 0, "Local"⟩,
   attr.Attribute.AccessedTime ⟨6915, 0, "Local"⟩]

/-- Extra factory defaults as in the test "will use the variadic parameters to overwrite
common defaults for all files". -/
def sampleExtra : List attr.Attribute :=
  [attr.Attribute.FileMode 0o765, attr.Attribute.Uid 3453, attr.Attribute.Gid 4334]

/-- A factory with these defaults. -/
def sampleFactory : filefactory.FileFactory :=
  { hardcodedFileFactoryDefaults := sampleHardcoded
    extraFileFactoryDefaults := sampleExtra }

end defs

/-! ## package strconv (standard library), package dependencies/user -/

namespace strconv

/-- Go: `strconv.ParseUint(s, 10, 32)`, the only way the code calls it. A non-empty string
of decimal digits below `2^32` parses; an empty string or any other character is a syntax
error (value 0), a larger number is a range error (value `2^32 - 1`). The message leaves out
the quoting of `s`. -/
def ParseUint (s : String) : Nat × Option GoError :=
  if s.data = [] ∨ ¬ (s.data.all Char.isDigit) then
    (0, some (GoError.plain ⟨"strconv.ParseUint: parsing " ++ s ++ ": invalid syntax"⟩))
  else
    let n := s.data.foldl (fun n c => 10 * n + (c.toNat - 48)) 0
    if n ≥ 2 ^ 32 then
      (2 ^ 32 - 1,
        some (GoError.plain ⟨"strconv.ParseUint: parsing " ++ s ++ ": value out of range"⟩))
    else (n, none)

end strconv

namespace user

/-- Go: `os/user.User`, the two fields the code reads. -/
structure User where
  Uid : String
  Gid : String
deriving DecidableEq, Repr

/-- The injected collaborators of package `user`. -/
structure Implementation where
  UserCurrent : User × Option GoError
  UserGroupIds : User → List String × Option GoError

/-- One iteration of the loop of `CurrentIds` over the group ids; the state is the pair of
the named results `otherGid` and `err`. -/
def CurrentIds.step (u : User) (state : Nat × Option GoError) (gid : String) :
    Nat × Option GoError :=
  if gid = u.Gid then state
  else
    match strconv.ParseUint gid with
    | (_, some err) => (state.1, some err)
    | (t, none) => (t % 2 ^ 32, none)

/-- Go: `func CurrentIds() (uid, primaryGid, otherGid uint32, err error)`. A bare `return`
returns the named results as they stand. -/
def CurrentIds (impl : Implementation) : Nat × Nat × Nat × Option GoError :=
  match impl.UserCurrent with
  | (_, some err) => (0, 0, 0, some err)
  | (u, none) =>
    match strconv.ParseUint u.Uid with
    | (_, some err) => (0, 0, 0, some err)
    | (t, none) =>
      let uid := t % 2 ^ 32
      match strconv.ParseUint u.Gid with
      | (_, some err) => (uid, 0, 0, some err)
      | (t, none) =>
        let primaryGid := t % 2 ^ 32
        match impl.UserGroupIds u with
        | (_, some err) => (uid, primaryGid, 0, some err)
        | (gids, none) =>
          let (otherGid, err) := gids.foldl (CurrentIds.step u) (0, none)
          let otherGid := if otherGid = 0 then primaryGid else otherGid
          (uid, primaryGid, otherGid, err)

/-- Collaborators as the tests mock them: a current user and the group ids returned for
every user. -/
def mockImpl (uid gid : String) (gids : List String) : Implementation :=
  { UserCurrent := ({ Uid := uid, Gid := gid }, none)
    UserGroupIds := fun _ => (gids, none) }

/-- A string that `strconv.ParseUint(s, 10, 32)` accepts. -/
def numeric (s : String) : Bool :=
  (strconv.ParseUint s).2 = none

end user

/-! ## The policy resolver `Meta.Should` -/

namespace file

/-- First loop of `Should`: the running value falls to `false` exactly when the instruction
`all=false` occurs in the list. -/
theorem baseline_foldl (L : List verify.Instruction) (b : Bool) :
    L.foldl (fun doVerify vi => if vi = verify.AllByDefault false then false else doVerify) b
      = (b && !decide (verify.AllByDefault false ∈ L)) := by
  induction L generalizing b with
  | nil => simp
  | cons x xs ih =>
    rw [List.foldl_cons, ih]
    by_cases hx : x = verify.AllByDefault false
    · simp [hx]
    · have hx' : ¬ verify.AllByDefault false = x := fun h => hx h.symm
      simp [hx, hx']

/-- Second loop of `Should`: instructions of another aspect leave the running value alone. -/
theorem aspect_foldl_skip (a : String) (L : List verify.Instruction) (b : Bool)
    (h : ∀ i ∈ L, i.Aspect ≠ a) :
    L.foldl (fun doVerify vi => if vi.Aspect = a then vi.Verify else doVerify) b = b := by
  induction L generalizing b with
  | nil => rfl
  | cons x xs ih =>
    have hx : x.Aspect ≠ a := h x (List.mem_cons_self x xs)
    rw [List.foldl_cons, if_neg hx]
    exact ih b (fun i hi => h i (List.mem_cons_of_mem x hi))

/-- Second loop of `Should`: the last instruction of the queried aspect decides. -/
theorem aspect_foldl_last (a : String) (pre post : List verify.Instruction)
    (i : verify.Instruction) (b : Bool) (hi : i.Aspect = a)
    (hpost : ∀ j ∈ post, j.Aspect ≠ a) :
    (pre ++ i :: post).foldl
      (fun doVerify vi => if vi.Aspect = a then vi.Verify else doVerify) b = i.Verify := by
  rw [List.foldl_append, List.foldl_cons, if_pos hi]
  exact aspect_foldl_skip a post i.Verify hpost

/-- A list with an instruction of aspect `a` splits at the last such instruction. -/
theorem exists_last_of_aspect (a : String) (L : List verify.Instruction)
    (h : ∃ i ∈ L, i.Aspect = a) :
    ∃ pre i post, L = pre ++ i :: post ∧ i.Aspect = a ∧ ∀ j ∈ post, j.Aspect ≠ a := by
  induction L with
  | nil => obtain ⟨i, hi, _⟩ := h; cases hi
  | cons x xs ih =>
    by_cases hxs : ∃ i ∈ xs, i.Aspect = a
    · obtain ⟨pre, i, post, hL, hi, hpost⟩ := ih hxs
      exact ⟨x :: pre, i, post, by rw [hL]; rfl, hi, hpost⟩
    · obtain ⟨i, hi, hia⟩ := h
      rcases List.mem_cons.mp hi with rfl | hmem
      · exact ⟨[], i, xs, rfl, hia, fun j hj hja => hxs ⟨j, hj, hja⟩⟩
      · exact absurd ⟨i, hmem, hia⟩ hxs

/-- C7. If the instruction list holds an instruction of the queried aspect, it splits as
`pre ++ i :: post` with `i` the last instruction of that aspect, and for every such split
`Should` returns `i.Verify`, whatever "all" instructions stand in `pre` or `post`. -/
theorem Should_last_of_aspect_wins (m : Meta) (q : verify.Instruction)
    (h : ∃ i ∈ m.VerificationInstructions, i.Aspect = q.Aspect) :
    (∃ pre i post, m.VerificationInstructions = pre ++ i :: post ∧ i.Aspect = q.Aspect ∧
        ∀ j ∈ post, j.Aspect ≠ q.Aspect) ∧
    ∀ pre i post, m.VerificationInstructions = pre ++ i :: post → i.Aspect = q.Aspect →
        (∀ j ∈ post, j.Aspect ≠ q.Aspect) → m.Should q = i.Verify := by
  refine ⟨exists_last_of_aspect q.Aspect _ h, ?_⟩
  intro pre i post hL hi hpost
  unfold Meta.Should
  simp only [hL]
  exact aspect_foldl_last q.Aspect pre post i _ hi hpost

/-- C7, instance: in `[uid=true, all=false, uid=false, all=true]` the last "uid" instruction
is `uid=false`, and `Should` returns its value `false`. -/
theorem Should_last_of_aspect_wins_witness :
    (∃ i ∈ [verify.Uid true, verify.AllByDefault false, verify.Uid false,
        verify.AllByDefault true], i.Aspect = (verify.Uid true).Aspect) ∧
    Meta.Should { VerificationInstructions := [verify.Uid true, verify.AllByDefault false,
      verify.Uid false, verify.AllByDefault true] } (verify.Uid true)
      = (verify.Uid false).Verify :=
  ⟨⟨verify.Uid true, by decide, rfl⟩,
   (Should_last_of_aspect_wins
      { VerificationInstructions := [verify.Uid true, verify.AllByDefault false,
          verify.Uid false, verify.AllByDefault true] }
      (verify.Uid true) ⟨verify.Uid true, by decide, rfl⟩).2
      [verify.Uid true, verify.AllByDefault false] (verify.Uid false)
      [verify.AllByDefault true] rfl rfl (by decide)⟩

/-- When no instruction mentions the queried aspect, `Should` is the result of the first
loop. -/
theorem Should_unmentioned (m : Meta) (q : verify.Instruction)
    (h : ∀ i ∈ m.VerificationInstructions, i.Aspect ≠ q.Aspect) :
    m.Should q = !decide (verify.AllByDefault false ∈ m.VerificationInstructions) := by
  unfold Meta.Should
  simp only []
  rw [aspect_foldl_skip q.Aspect _ _ h, baseline_foldl]
  simp

/-- C8. For an aspect that no instruction of the list mentions, `Should` returns `false` when
the instruction `all=false` occurs in the list and `true` otherwise; with an empty list it
returns `true` for every aspect; and with `[all=false, mode-perm=true]` it returns `true` for
"mode-perm" and `false` for every other aspect. -/
theorem Should_default_and_all_false :
    (∀ (m : Meta) (q : verify.Instruction),
        (∀ i ∈ m.VerificationInstructions, i.Aspect ≠ q.Aspect) →
        m.Should q = !decide (verify.AllByDefault false ∈ m.VerificationInstructions)) ∧
    (∀ (m : Meta) (q : verify.Instruction),
        m.VerificationInstructions = [] → m.Should q = true) ∧
    (∀ (m : Meta) (q : verify.Instruction),
        m.VerificationInstructions = [verify.AllByDefault false, verify.ModePerm true] →
        m.Should q = decide (q.Aspect = "mode-perm")) := by
  refine ⟨Should_unmentioned, ?_, ?_⟩
  · intro m q hL
    rw [Should_unmentioned m q (by simp [hL]), hL]
    simp
  · intro m q hL
    by_cases hq : q.Aspect = "mode-perm"
    · unfold Meta.Should
      simp [hL, hq, verify.ModePerm, verify.AllByDefault, verify.NewInstruction]
    · by_cases hall : q.Aspect = "all"
      · unfold Meta.Should
        simp [hL, hall, verify.ModePerm, verify.AllByDefault, verify.NewInstruction]
      · have hq' : ¬ "mode-perm" = q.Aspect := fun h => hq h.symm
        have hall' : ¬ "all" = q.Aspect := fun h => hall h.symm
        unfold Meta.Should
        simp [hL, hq, hq', hall', verify.ModePerm, verify.AllByDefault,
          verify.NewInstruction]

/-- C8, instance: in `[all=false, uid=true]` nothing mentions "gid", the instruction
`all=false` occurs, and `Should` returns `false` for "gid". -/
theorem Should_default_and_all_false_witness :
    (∀ i ∈ [verify.AllByDefault false, verify.Uid true],
        i.Aspect ≠ (verify.Gid true).Aspect) ∧
    Meta.Should { VerificationInstructions := [verify.AllByDefault false, verify.Uid true] }
      (verify.Gid true) = false :=
  ⟨by decide,
   (Should_default_and_all_false.1
      { VerificationInstructions := [verify.AllByDefault false, verify.Uid true] }
      (verify.Gid true) (by decide)).trans (by decide)⟩

/-- C9, counterexample. In `[all=false, all=true]` no instruction mentions "mode-perm" and
the last "all" instruction is `all=true`, yet `Should` returns `false` for "mode-perm", not
the value `true` of that last "all" instruction. -/
theorem Should_last_all_counterexample :
    (∀ i ∈ [verify.AllByDefault false, verify.AllByDefault true],
        i.Aspect ≠ (verify.ModePerm true).Aspect) ∧
    ([verify.AllByDefault false, verify.AllByDefault true].filter
        (fun i => i.Aspect = "all")).getLast? = some (verify.AllByDefault true) ∧
    Meta.Should
      { VerificationInstructions := [verify.AllByDefault false, verify.AllByDefault true] }
      (verify.ModePerm true) = false ∧
    Meta.Should
      { VerificationInstructions := [verify.AllByDefault false, verify.AllByDefault true] }
      (verify.ModePerm true) ≠ (verify.AllByDefault true).Verify := by
  refine ⟨by decide, by decide, by decide, by decide⟩

/-- C9, amended. For an aspect that no instruction of the list mentions (in particular for
every aspect other than "all" that the list does not mention),
only "all" instructions with value `false` move the baseline, and nothing moves it back:
`Should` returns `true` exactly when every "all" instruction of the list has value `true`.
So when `all=false` is later followed by `all=true`, `Should` returns `false`. -/
theorem Should_all_false_is_sticky (m : Meta) (q : verify.Instruction)
    (h : ∀ i ∈ m.VerificationInstructions, i.Aspect ≠ q.Aspect) :
    (m.Should q = true ↔
      ∀ i ∈ m.VerificationInstructions, i.Aspect = "all" → i.Verify = true) ∧
    (∀ pre mid post, m.VerificationInstructions =
        pre ++ verify.AllByDefault false :: (mid ++ verify.AllByDefault true :: post) →
      m.Should q = false) := by
  have key : m.Should q = true ↔
      ∀ i ∈ m.VerificationInstructions, i.Aspect = "all" → i.Verify = true := by
    rw [Should_unmentioned m q h]
    simp only [Bool.not_eq_true', decide_eq_false_iff_not]
    constructor
    · intro hno i hi hia
      cases hv : i.Verify with
      | true => rfl
      | false =>
        exfalso
        apply hno
        have : i = verify.AllByDefault false := by
          cases i
          simp_all [verify.AllByDefault, verify.NewInstruction]
        rw [← this]
        exact hi
    · intro hall hmem
      have := hall _ hmem rfl
      simp [verify.AllByDefault, verify.NewInstruction] at this
  refine ⟨key, ?_⟩
  intro pre mid post hL
  rw [Should_unmentioned m q h, hL]
  simp

/-- C9 amended, instance: `[all=false, all=true]` queried for "mode-perm". -/
theorem Should_all_false_is_sticky_witness :
    (∀ i ∈ [verify.AllByDefault false, verify.AllByDefault true],
        i.Aspect ≠ (verify.ModePerm true).Aspect) ∧
    Meta.Should
      { VerificationInstructions := [verify.AllByDefault false, verify.AllByDefault true] }
      (verify.ModePerm true) = false :=
  ⟨by decide,
   (Should_all_false_is_sticky
      { VerificationInstructions := [verify.AllByDefault false, verify.AllByDefault true] }
      (verify.ModePerm true) (by decide)).2 [] [] [] rfl⟩

end file

/-! ## The aggregator `verify.Errors` -/

namespace verify

/-- C10. `Add(k, p, c)` appends the triple `(k, p, c)` after the existing triples, which keep
their positions, and ORs `k` into `CombinedFileDifference`; two `Add`s on the empty
aggregator leave `CombinedFileDifference = k1 ||| k2`. -/
theorem Errors.Add_appends_and_ors (s : verify.Errors) (k : diff.FileDifference) (p : String)
    (c : Option PlainError) :
    (s.Add k p c).Errors = s.Errors ++ [{ FileDifference := k, Path := p, Err := c }] ∧
    (s.Add k p c).Errors.length = s.Errors.length + 1 ∧
    (∀ n, n < s.Errors.length → (s.Add k p c).Errors[n]? = s.Errors[n]?) ∧
    (s.Add k p c).Errors[s.Errors.length]?
      = some { FileDifference := k, Path := p, Err := c } ∧
    (s.Add k p c).CombinedFileDifference = s.CombinedFileDifference ||| k ∧
    ∀ (k2 : diff.FileDifference) (p2 : String) (c2 : Option PlainError),
      ((({} : verify.Errors).Add k p c).Add k2 p2 c2).CombinedFileDifference = k ||| k2 := by
  refine ⟨rfl, ?_, ?_, ?_, rfl, ?_⟩
  · simp [Errors.Add]
  · intro n hn
    simp only [Errors.Add]
    exact List.getElem?_append_left hn
  · simp [Errors.Add]
  · intro k2 p2 c2
    simp [Errors.Add]

end verify

/-! ## `Meta.Verify` -/

namespace file

/-- The trivial-skip test of `Verify` holds exactly for the one-element list `[all=false]`. -/
theorem skip_test_iff (L : List verify.Instruction) :
    (L.length = 1 ∧ L[0]? = some (verify.AllByDefault false)) ↔
      L = [verify.AllByDefault false] := by
  constructor
  · rintro ⟨hlen, h0⟩
    match L, hlen, h0 with
    | [x], _, h0 =>
      simp only [List.getElem?_cons_zero, Option.some.injEq] at h0
      rw [h0]
  · intro h
    subst h
    exact ⟨rfl, rfl⟩

/-- Past the trivial skip, with an existing path and a successful metadata read, `Verify`
is the type check followed by the attribute stage. -/
theorem Verify_after_read (impl : Implementation) (lib : StdLib) (m a : Meta) (root : String)
    (hne : m.VerificationInstructions ≠ [verify.AllByDefault false])
    (hex : impl.PathExists (lib.Join root m.Path) = (true, none))
    (hrd : impl.WrapNewFromPath (lib.Join root m.Path) = (a, none)) :
    m.Verify impl lib root =
      if (a.Mode &&& os.ModeType) ≠ (m.Mode &&& os.ModeType) then
        (some (GoError.verification (({} : verify.Errors).Add diff.ModeType
            (lib.Join root m.Path)
            (some ⟨"expected " ++ lib.ModeString m.Mode ++ ", actual "
              ++ lib.ModeString a.Mode⟩))),
          [Call.PathExists (lib.Join root m.Path), Call.WrapNewFromPath (lib.Join root m.Path)])
      else
        ((m.verifyAttributes lib a (lib.Join root m.Path) {}).MapToNilIfNone,
          [Call.PathExists (lib.Join root m.Path), Call.WrapNewFromPath (lib.Join root m.Path)])
      := by
  have hskip : ¬ (m.VerificationInstructions.length = 1 ∧
      m.VerificationInstructions[0]? = some (verify.AllByDefault false)) :=
    fun h => hne ((skip_test_iff _).mp h)
  unfold Meta.Verify
  rw [if_neg hskip]
  simp only [hex, hrd]
  rfl

/-- Past the trivial skip, an error of the path-exists check ends `Verify` with one
`NotPresentOrNotAccessible` triple whose cause is that error. -/
theorem Verify_exists_error (impl : Implementation) (lib : StdLib) (m : Meta) (root : String)
    (ex : Bool) (e : PlainError)
    (hne : m.VerificationInstructions ≠ [verify.AllByDefault false])
    (hex : impl.PathExists (lib.Join root m.Path) = (ex, some e)) :
    m.Verify impl lib root =
      (some (GoError.verification (({} : verify.Errors).Add diff.NotPresentOrNotAccessible
          (lib.Join root m.Path) (some e))),
        [Call.PathExists (lib.Join root m.Path)]) := by
  have hskip : ¬ (m.VerificationInstructions.length = 1 ∧
      m.VerificationInstructions[0]? = some (verify.AllByDefault false)) :=
    fun h => hne ((skip_test_iff _).mp h)
  unfold Meta.Verify
  rw [if_neg hskip]
  simp only [hex]

/-- Past the trivial skip, the answer "does not exist" ends `Verify` with one
`NotPresentOrNotAccessible` triple. -/
theorem Verify_not_exists (impl : Implementation) (lib : StdLib) (m : Meta) (root : String)
    (hne : m.VerificationInstructions ≠ [verify.AllByDefault false])
    (hex : impl.PathExists (lib.Join root m.Path) = (false, none)) :
    m.Verify impl lib root =
      (some (GoError.verification (({} : verify.Errors).Add diff.NotPresentOrNotAccessible
          (lib.Join root m.Path) (some ⟨"file does not exist"⟩))),
        [Call.PathExists (lib.Join root m.Path)]) := by
  have hskip : ¬ (m.VerificationInstructions.length = 1 ∧
      m.VerificationInstructions[0]? = some (verify.AllByDefault false)) :=
    fun h => hne ((skip_test_iff _).mp h)
  unfold Meta.Verify
  rw [if_neg hskip]
  simp only [hex]
  rfl

/-- Past the trivial skip and the existence check, an error of the metadata reader is the
result of `Verify`. -/
theorem Verify_reader_error (impl : Implementation) (lib : StdLib) (m a : Meta)
    (root : String) (e : GoError)
    (hne : m.VerificationInstructions ≠ [verify.AllByDefault false])
    (hex : impl.PathExists (lib.Join root m.Path) = (true, none))
    (hrd : impl.WrapNewFromPath (lib.Join root m.Path) = (a, some e)) :
    m.Verify impl lib root =
      (some e,
        [Call.PathExists (lib.Join root m.Path), Call.WrapNewFromPath (lib.Join root m.Path)])
      := by
  have hskip : ¬ (m.VerificationInstructions.length = 1 ∧
      m.VerificationInstructions[0]? = some (verify.AllByDefault false)) :=
    fun h => hne ((skip_test_iff _).mp h)
  unfold Meta.Verify
  rw [if_neg hskip]
  simp only [hex, hrd]
  rfl

/-- The first `Add` on the empty aggregator. -/
theorem Add_on_empty (k : diff.FileDifference) (path : String) (cause : Option PlainError) :
    ({} : verify.Errors).Add k path cause =
      { CombinedFileDifference := k
        Errors := [{ FileDifference := k, Path := path, Err := cause }] } := by
  simp [verify.Errors.Add]

/-- One gated comparison: it appends the kind `k` at `path` iff the aspect is to be verified
and the attribute differs, and ORs `k` into the union in that case. -/
theorem gated_add_spec (c1 c2 c2' : Prop) [Decidable c1] [Decidable c2] [Decidable c2']
    (hc : c2 ↔ c2') (verr : verify.Errors) (k : diff.FileDifference) (path : String)
    (cause : Option PlainError) (base : List (diff.FileDifference × String))
    (ks : List diff.FileDifference) (c0 : diff.FileDifference)
    (h1 : verr.Errors.map (fun e => (e.FileDifference, e.Path))
      = base ++ ks.map (fun k => (k, path)))
    (h2 : verr.CombinedFileDifference = ks.foldl (fun u k => u ||| k) c0) :
    (if c1 then (if c2 then verr.Add k path cause else verr) else verr).Errors.map
        (fun e => (e.FileDifference, e.Path))
      = base ++ (ks ++ (if c1 ∧ c2' then [k] else [])).map (fun k => (k, path)) ∧
    (if c1 then (if c2 then verr.Add k path cause else verr) else verr).CombinedFileDifference
      = (ks ++ (if c1 ∧ c2' then [k] else [])).foldl (fun u k => u ||| k) c0 := by
  by_cases h1' : c1
  · by_cases h2' : c2
    · have h3 : c2' := hc.mp h2'
      simp [h1', h2', h3, verify.Errors.Add, h1, h2]
    · have h3 : ¬ c2' := fun h => h2' (hc.mpr h)
      simp [h1', h2', h3, h1, h2]
  · simp [h1', h1, h2]

/-- What the attribute stage adds to an aggregator: the expected kinds, in order, each at
`path`, and their OR. -/
theorem verifyAttributes_spec (lib : StdLib) (m a : Meta) (path : String)
    (verr : verify.Errors) :
    (m.verifyAttributes lib a path verr).Errors.map (fun e => (e.FileDifference, e.Path))
      = verr.Errors.map (fun e => (e.FileDifference, e.Path))
        ++ (expectedAttributeKinds m a).map (fun k => (k, path)) ∧
    (m.verifyAttributes lib a path verr).CombinedFileDifference
      = (expectedAttributeKinds m a).foldl (fun u k => u ||| k) verr.CombinedFileDifference := by
  have s1 := gated_add_spec (m.Should (verify.ModePerm true) = true)
    ((a.Mode &&& os.ModePerm) ≠ (m.Mode &&& os.ModePerm)) _ Iff.rfl verr diff.ModePerm path
    (some ⟨"expected " ++ lib.ModeString m.Mode ++ ", actual " ++ lib.ModeString a.Mode⟩)
    (verr.Errors.map (fun e => (e.FileDifference, e.Path))) [] verr.CombinedFileDifference
    (by simp) rfl
  have s2 := gated_add_spec (m.Should (verify.Uid true) = true)
    (a.Uid ≠ m.Uid) _ Iff.rfl _ diff.Owner path
    (some ⟨"expected " ++ toString m.Uid ++ ", actual " ++ toString a.Uid⟩)
    _ _ _ s1.1 s1.2
  have s3 := gated_add_spec (m.Should (verify.Gid true) = true)
    (a.Gid ≠ m.Gid) _ Iff.rfl _ diff.Group path
    (some ⟨"expected " ++ toString m.Gid ++ ", actual " ++ toString a.Gid⟩)
    _ _ _ s2.1 s2.2
  have s4 := gated_add_spec (m.Should (verify.AccessedTime true) = true)
    ((!(a.Accessed.Equal m.Accessed)) = true)
    (a.Accessed.Equal m.Accessed = false) (by simp) _ diff.AccTime path
    (some ⟨"expected " ++ lib.Format m.Accessed TimeLayout ++ ", actual "
      ++ lib.Format a.Accessed TimeLayout⟩)
    _ _ _ s3.1 s3.2
  have s5 := gated_add_spec (m.Should (verify.ModifiedTime true) = true)
    ((!(a.Modified.Equal m.Modified)) = true)
    (a.Modified.Equal m.Modified = false) (by simp) _ diff.ModTime path
    (some ⟨"expected " ++ lib.Format m.Modified TimeLayout ++ ", actual "
      ++ lib.Format a.Modified TimeLayout⟩)
    _ _ _ s4.1 s4.2
  exact s5

/-- C1. Past the trivial skip, when the path exists, the metadata read succeeds and the
type bits agree, the aggregator built by `Verify` holds exactly the expected attribute
kinds (`ModePerm`, `Owner`, `Group`, `AccTime`, `ModTime`, each iff its aspect is to be
verified and the attribute differs), in this order and each at `Join root m.Path`; its
`CombinedFileDifference` is their OR; `Verify` returns `nil` iff that list is empty and the
aggregator otherwise. -/
theorem Verify_records_attribute_mismatches (impl : Implementation) (lib : StdLib)
    (m a : Meta) (root : String)
    (hne : m.VerificationInstructions ≠ [verify.AllByDefault false])
    (hex : impl.PathExists (lib.Join root m.Path) = (true, none))
    (hrd : impl.WrapNewFromPath (lib.Join root m.Path) = (a, none))
    (hty : (a.Mode &&& os.ModeType) = (m.Mode &&& os.ModeType)) :
    ∃ ves : verify.Errors,
      ves.Errors.map (fun e => (e.FileDifference, e.Path))
        = (expectedAttributeKinds m a).map (fun k => (k, lib.Join root m.Path)) ∧
      ves.CombinedFileDifference
        = (expectedAttributeKinds m a).foldl (fun u k => u ||| k) 0 ∧
      (m.Verify impl lib root).1
        = (if expectedAttributeKinds m a = [] then none
            else some (GoError.verification ves)) ∧
      ((m.Verify impl lib root).1 = none ↔ expectedAttributeKinds m a = []) := by
  have hspec := verifyAttributes_spec lib m a (lib.Join root m.Path) {}
  have hmap : (m.verifyAttributes lib a (lib.Join root m.Path) {}).Errors.map
      (fun e => (e.FileDifference, e.Path))
        = (expectedAttributeKinds m a).map (fun k => (k, lib.Join root m.Path)) := by
    rw [hspec.1]; rfl
  have hlen : (m.verifyAttributes lib a (lib.Join root m.Path) {}).Errors.length
      = (expectedAttributeKinds m a).length := by
    have := congrArg List.length hmap
    simpa using this
  have hres : (m.Verify impl lib root).1
      = (if expectedAttributeKinds m a = [] then none
          else some (GoError.verification
            (m.verifyAttributes lib a (lib.Join root m.Path) {}))) := by
    rw [Verify_after_read impl lib m a root hne hex hrd, if_neg (not_not.mpr hty)]
    simp only [verify.Errors.MapToNilIfNone, hlen, List.length_eq_zero]
  refine ⟨m.verifyAttributes lib a (lib.Join root m.Path) {}, hmap, hspec.2, hres, ?_⟩
  rw [hres]
  by_cases hk : expectedAttributeKinds m a = [] <;> simp [hk]

/-- C1, instance: the test "will collate all errors and return within Errors". All five
attributes differ and the five kinds are recorded in order. -/
theorem Verify_records_attribute_mismatches_witness :
    collateExpected.VerificationInstructions ≠ [verify.AllByDefault false] ∧
    (collateActual.Mode &&& os.ModeType) = (collateExpected.Mode &&& os.ModeType) ∧
    expectedAttributeKinds collateExpected collateActual
      = [diff.ModePerm, diff.Owner, diff.Group, diff.AccTime, diff.ModTime] ∧
    ∃ ves : verify.Errors,
      ves.Errors.map (fun e => (e.FileDifference, e.Path))
        = (expectedAttributeKinds collateExpected collateActual).map
            (fun k => (k, mockLib.Join "/some/root" collateExpected.Path)) ∧
      ves.CombinedFileDifference
        = (expectedAttributeKinds collateExpected collateActual).foldl (fun u k => u ||| k) 0 ∧
      (collateExpected.Verify (mockImpl (true, none) (collateActual, none)) mockLib
          "/some/root").1
        = (if expectedAttributeKinds collateExpected collateActual = [] then none
            else some (GoError.verification ves)) ∧
      ((collateExpected.Verify (mockImpl (true, none) (collateActual, none)) mockLib
          "/some/root").1 = none ↔
        expectedAttributeKinds collateExpected collateActual = []) :=
  ⟨by decide, by decide, by decide,
   Verify_records_attribute_mismatches (mockImpl (true, none) (collateActual, none)) mockLib
     collateExpected collateActual "/some/root" (by decide) rfl rfl (by decide)⟩

/-- C2. Past the trivial skip, if the path-exists check returns an error, or `false` without
error, `Verify` returns an aggregator with exactly one triple, of kind
`NotPresentOrNotAccessible` at `Join root m.Path`; the only collaborator call is the
path-exists check, so the metadata reader is not invoked. -/
theorem Verify_not_present_or_not_accessible (impl : Implementation) (lib : StdLib)
    (m : Meta) (root : String)
    (hne : m.VerificationInstructions ≠ [verify.AllByDefault false])
    (hex : (impl.PathExists (lib.Join root m.Path)).2 ≠ none ∨
      impl.PathExists (lib.Join root m.Path) = (false, none)) :
    (∃ cause, (m.Verify impl lib root).1 = some (GoError.verification
      { CombinedFileDifference := diff.NotPresentOrNotAccessible
        Errors := [{ FileDifference := diff.NotPresentOrNotAccessible,
                     Path := lib.Join root m.Path, Err := cause }] })) ∧
    (m.Verify impl lib root).2 = [Call.PathExists (lib.Join root m.Path)] ∧
    ∀ p, Call.WrapNewFromPath p ∉ (m.Verify impl lib root).2 := by
  have key : (∃ cause, (m.Verify impl lib root).1 = some (GoError.verification
      { CombinedFileDifference := diff.NotPresentOrNotAccessible
        Errors := [{ FileDifference := diff.NotPresentOrNotAccessible,
                     Path := lib.Join root m.Path, Err := cause }] })) ∧
      (m.Verify impl lib root).2 = [Call.PathExists (lib.Join root m.Path)] := by
    rcases hpe : impl.PathExists (lib.Join root m.Path) with ⟨ex, err⟩
    rw [hpe] at hex
    cases err with
    | some e =>
      rw [Verify_exists_error impl lib m root ex e hne hpe, Add_on_empty]
      exact ⟨⟨some e, rfl⟩, rfl⟩
    | none =>
      rcases hex with hex | hex
      · exact absurd rfl hex
      · rw [Verify_not_exists impl lib m root hne (hpe.trans hex), Add_on_empty]
        exact ⟨⟨some ⟨"file does not exist"⟩, rfl⟩, rfl⟩
  refine ⟨key.1, key.2, ?_⟩
  intro p hp
  rw [key.2] at hp
  simp at hp

/-- C2, instance: the path-exists check fails with "exists() error", as in the test "will
add verification error and return immediately if file existence check returns with an
error". -/
theorem Verify_not_present_or_not_accessible_witness :
    ({ Path := "rel path" } : Meta).VerificationInstructions ≠ [verify.AllByDefault false] ∧
    ((mockImpl (false, some ⟨"exists() error"⟩) ({}, some ⟨"an error"⟩)).PathExists
        (mockLib.Join "does not matter" "rel path")).2 ≠ none ∧
    (({ Path := "rel path" } : Meta).Verify
        (mockImpl (false, some ⟨"exists() error"⟩) ({}, some ⟨"an error"⟩)) mockLib
        "does not matter").2
      = [Call.PathExists "does not matter/rel path"] :=
  ⟨by decide, by decide,
   (Verify_not_present_or_not_accessible
      (mockImpl (false, some ⟨"exists() error"⟩) ({}, some ⟨"an error"⟩)) mockLib
      { Path := "rel path" } "does not matter" (by decide) (Or.inl (by decide))).2.1⟩

/-- C3. Past the trivial skip, when the path exists and the metadata read succeeds, a
difference in the type bits makes `Verify` return an aggregator with exactly one triple, of
kind `ModeType` at `Join root m.Path`, whatever the instructions and the other attributes
are. -/
theorem Verify_wrong_type (impl : Implementation) (lib : StdLib) (m a : Meta) (root : String)
    (hne : m.VerificationInstructions ≠ [verify.AllByDefault false])
    (hex : impl.PathExists (lib.Join root m.Path) = (true, none))
    (hrd : impl.WrapNewFromPath (lib.Join root m.Path) = (a, none))
    (hty : (a.Mode &&& os.ModeType) ≠ (m.Mode &&& os.ModeType)) :
    ∃ cause, (m.Verify impl lib root).1 = some (GoError.verification
      { CombinedFileDifference := diff.ModeType
        Errors := [{ FileDifference := diff.ModeType, Path := lib.Join root m.Path,
                     Err := cause }] }) := by
  rw [Verify_after_read impl lib m a root hne hex hrd, if_pos hty, Add_on_empty]
  exact ⟨_, rfl⟩

/-- C3, instance: a directory is expected, a symlink is found, permissions and ownership
differ too, and every aspect is switched off by `[all=false, mode-perm=false]`. -/
theorem Verify_wrong_type_witness :
    wrongTypeExpected.VerificationInstructions ≠ [verify.AllByDefault false] ∧
    (wrongTypeActual.Mode &&& os.ModeType) ≠ (wrongTypeExpected.Mode &&& os.ModeType) ∧
    ∃ cause, (wrongTypeExpected.Verify (mockImpl (true, none) (wrongTypeActual, none))
        mockLib "r").1
      = some (GoError.verification
          { CombinedFileDifference := diff.ModeType
            Errors := [{ FileDifference := diff.ModeType, Path := "r/d", Err := cause }] }) :=
  ⟨by decide, by decide,
   Verify_wrong_type (mockImpl (true, none) (wrongTypeActual, none)) mockLib
     wrongTypeExpected wrongTypeActual "r" (by decide) rfl rfl (by decide)⟩

/-- C4. With the instruction list exactly `[all=false]`, `Verify` returns `nil` and makes no
collaborator call: neither the path-exists check nor the metadata reader is invoked. -/
theorem Verify_trivial_skip (impl : Implementation) (lib : StdLib) (m : Meta) (root : String)
    (h : m.VerificationInstructions = [verify.AllByDefault false]) :
    m.Verify impl lib root = (none, []) := by
  unfold Meta.Verify
  rw [if_pos ((skip_test_iff _).mpr h)]

/-- C4, instance: the test "will leave immediately without error if none of the attributes
are to be verified", with collaborators that would fail if asked. -/
theorem Verify_trivial_skip_witness :
    ({ Path := "p", VerificationInstructions := [verify.AllByDefault false] } : Meta).Verify
        (mockImpl (false, some ⟨"exists() error"⟩) ({}, some ⟨"an error"⟩)) mockLib
        "does not matter"
      = (none, []) :=
  Verify_trivial_skip (mockImpl (false, some ⟨"exists() error"⟩) ({}, some ⟨"an error"⟩))
    mockLib { Path := "p", VerificationInstructions := [verify.AllByDefault false] }
    "does not matter" rfl

/-- C5. Past the trivial skip, if the path exists and the metadata reader returns the error
`e` (any Go error), `Verify` returns `e` itself, not an aggregator of its own. -/
theorem Verify_returns_reader_error (impl : Implementation) (lib : StdLib) (m a : Meta)
    (root : String) (e : GoError)
    (hne : m.VerificationInstructions ≠ [verify.AllByDefault false])
    (hex : impl.PathExists (lib.Join root m.Path) = (true, none))
    (hrd : impl.WrapNewFromPath (lib.Join root m.Path) = (a, some e)) :
    (m.Verify impl lib root).1 = some e := by
  rw [Verify_reader_error impl lib m a root e hne hex hrd]

/-- C5, instance: the test "will return base.NewFromPath error". -/
theorem Verify_returns_reader_error_witness :
    (({ Path := "p" } : Meta).Verify
        (mockImpl (true, none) ({}, some ⟨"base.NewFromPath error"⟩)) mockLib
        "does not matter").1
      = some (GoError.plain ⟨"base.NewFromPath error"⟩) :=
  Verify_returns_reader_error (mockImpl (true, none) ({}, some ⟨"base.NewFromPath error"⟩))
    mockLib { Path := "p" } {} "does not matter" (GoError.plain ⟨"base.NewFromPath error"⟩)
    (by decide) rfl rfl

/-- A time is `Equal` to itself. -/
theorem Time_Equal_self (t : time.Time) : t.Equal t = true := by
  simp [time.Time.Equal]

/-- C6. For every instruction list: when the path exists and the metadata reader returns a
record whose `Mode`, `Uid`, `Gid`, `Accessed` and `Modified` equal those of `m`, `Verify`
returns `nil`. -/
theorem Verify_of_unchanged_attributes (impl : Implementation) (lib : StdLib) (m a : Meta)
    (root : String)
    (hex : impl.PathExists (lib.Join root m.Path) = (true, none))
    (hrd : impl.WrapNewFromPath (lib.Join root m.Path) = (a, none))
    (hMode : a.Mode = m.Mode) (hUid : a.Uid = m.Uid) (hGid : a.Gid = m.Gid)
    (hAcc : a.Accessed = m.Accessed) (hMod : a.Modified = m.Modified) :
    (m.Verify impl lib root).1 = none := by
  by_cases hskip : m.VerificationInstructions = [verify.AllByDefault false]
  · unfold Meta.Verify
    rw [if_pos ((skip_test_iff _).mpr hskip)]
  · have hkinds : expectedAttributeKinds m a = [] := by
      simp [expectedAttributeKinds, hMode, hUid, hGid, hAcc, hMod, Time_Equal_self]
    have hspec := (verifyAttributes_spec lib m a (lib.Join root m.Path) {}).1
    rw [hkinds] at hspec
    have hnil : (m.verifyAttributes lib a (lib.Join root m.Path) {}).Errors = [] := by
      simpa using hspec
    rw [Verify_after_read impl lib m a root hskip hex hrd, hMode]
    simp [verify.Errors.MapToNilIfNone, hnil]

/-- C6, instance: a directory record is read back with the same mode, ownership and times
and verifies, here under the instructions `[all=false, uid=true]`. -/
theorem Verify_of_unchanged_attributes_witness :
    unchangedActual.Mode = unchangedExpected.Mode ∧
    unchangedActual.Accessed = unchangedExpected.Accessed ∧
    (unchangedExpected.Verify (mockImpl (true, none) (unchangedActual, none))
        mockLib "r").1 = none :=
  ⟨rfl, rfl,
   Verify_of_unchanged_attributes (mockImpl (true, none) (unchangedActual, none)) mockLib
     unchangedExpected unchangedActual "r" rfl rfl rfl rfl rfl rfl rfl⟩

end file

/-! ## The aggregator: `Merge`, the invariant of the union, and the queries -/

namespace verify

/-- Folding kinds into a union from `c` is `c` OR the union of the kinds. -/
theorem foldl_or_kinds (es : List Error) (c : diff.FileDifference) :
    es.foldl (fun u e => u ||| e.FileDifference) c = c ||| kindsUnion es := by
  unfold kindsUnion
  induction es generalizing c with
  | nil => simp
  | cons e es ih =>
    rw [List.foldl_cons, List.foldl_cons, ih, ih (0 ||| e.FileDifference), Nat.zero_or,
      Nat.lor_assoc]

/-- The union of the kinds of a concatenation. -/
theorem kindsUnion_append (es fs : List Error) :
    kindsUnion (es ++ fs) = kindsUnion es ||| kindsUnion fs := by
  rw [kindsUnion, List.foldl_append, foldl_or_kinds]
  rfl

/-- The loop of `Merge`: the triples of the absorbed list are appended in order. -/
theorem foldl_Add_Errors (es : List Error) (s : verify.Errors) :
    (es.foldl (fun ves verr => ves.Add verr.FileDifference verr.Path verr.Err) s).Errors
      = s.Errors ++ es := by
  induction es generalizing s with
  | nil => simp
  | cons e es ih =>
    rw [List.foldl_cons, ih]
    simp [Errors.Add]

/-- The loop of `Merge`: the kinds of the absorbed list are ORed into the union. -/
theorem foldl_Add_Combined (es : List Error) (s : verify.Errors) :
    verify.Errors.CombinedFileDifference
        (es.foldl (fun ves verr => ves.Add verr.FileDifference verr.Path verr.Err) s)
      = s.CombinedFileDifference ||| kindsUnion es := by
  induction es generalizing s with
  | nil => simp [kindsUnion]
  | cons e es ih =>
    rw [List.foldl_cons, ih]
    have h : kindsUnion (e :: es) = e.FileDifference ||| kindsUnion es := by
      have := kindsUnion_append [e] es
      simpa [kindsUnion] using this
    rw [h, ← Nat.lor_assoc]
    rfl

/-- `Add` keeps the union equal to the OR of the recorded kinds. -/
theorem Add_keeps_union (s : verify.Errors) (k : diff.FileDifference) (p : String)
    (c : Option PlainError) (h : s.CombinedFileDifference = kindsUnion s.Errors) :
    (s.Add k p c).CombinedFileDifference = kindsUnion (s.Add k p c).Errors := by
  simp only [Errors.Add]
  rw [kindsUnion_append, h]
  simp [kindsUnion]

/-- `Merge` keeps the union equal to the OR of the recorded kinds, whatever it is handed. -/
theorem Merge_keeps_union (s : verify.Errors) (err : Option GoError)
    (h : s.CombinedFileDifference = kindsUnion s.Errors) :
    (s.Merge err).1.CombinedFileDifference = kindsUnion (s.Merge err).1.Errors := by
  match err with
  | none => exact h
  | some (GoError.plain e) => exact h
  | some (GoError.verification o) =>
    simp only [Errors.Merge]
    rw [foldl_Add_Combined, foldl_Add_Errors, kindsUnion_append, h]

/-- The invariant along a sequence of calls started from any aggregator that satisfies it. -/
theorem foldl_apply_keeps_union (ops : List Errors.Op) (s : verify.Errors)
    (h : s.CombinedFileDifference = kindsUnion s.Errors) :
    (ops.foldl Errors.apply s).CombinedFileDifference
      = kindsUnion (ops.foldl Errors.apply s).Errors := by
  induction ops generalizing s with
  | nil => exact h
  | cons op ops ih =>
    rw [List.foldl_cons]
    apply ih
    cases op with
    | Add k p c => exact Add_keeps_union s k p c h
    | Merge err => exact Merge_keeps_union s err h

/-- C11. In the aggregator reached from the empty aggregator by any finite sequence of `Add`
and `Merge` calls, `CombinedFileDifference` is the bitwise OR of the kinds of all triples of
the triple list; it is zero when the list is empty. -/
theorem Errors.union_is_or_of_kinds (ops : List Errors.Op) :
    (Errors.run ops).CombinedFileDifference = kindsUnion (Errors.run ops).Errors ∧
    ((Errors.run ops).Errors = [] → (Errors.run ops).CombinedFileDifference = 0) := by
  have h := foldl_apply_keeps_union ops {} rfl
  refine ⟨h, ?_⟩
  intro hnil
  have h' : (Errors.run ops).CombinedFileDifference = kindsUnion (Errors.run ops).Errors := h
  rw [h', hnil]
  rfl

/-- C12. `Merge` of an aggregator `o` returns `nil`; the receiver's triple list becomes
`s.Errors ++ o.Errors`, and its union becomes `s.CombinedFileDifference` OR the kinds of
all triples of `o`. -/
theorem Errors.Merge_absorbs_aggregator (s o : verify.Errors) :
    (s.Merge (some (GoError.verification o))).2 = none ∧
    (s.Merge (some (GoError.verification o))).1.Errors = s.Errors ++ o.Errors ∧
    (s.Merge (some (GoError.verification o))).1.CombinedFileDifference
      = s.CombinedFileDifference ||| kindsUnion o.Errors ∧
    (s.Merge (some (GoError.verification o))).1.CombinedFileDifference
      = o.Errors.foldl (fun u e => u ||| e.FileDifference) s.CombinedFileDifference := by
  refine ⟨rfl, ?_, ?_, ?_⟩
  · simp only [Errors.Merge]
    exact foldl_Add_Errors o.Errors s
  · simp only [Errors.Merge]
    exact foldl_Add_Combined o.Errors s
  · simp only [Errors.Merge]
    rw [foldl_Add_Combined, foldl_or_kinds]

/-- C13. `Merge(nil)` returns `nil`, `Merge(e)` for an error `e` that is not an aggregator
returns `e`, and both leave the receiver as it was. -/
theorem Errors.Merge_nil_and_plain (s : verify.Errors) :
    s.Merge none = (s, none) ∧
    ∀ e : PlainError, s.Merge (some (GoError.plain e)) = (s, some (GoError.plain e)) :=
  ⟨rfl, fun _ => rfl⟩

/-- C14. `MapToNilIfNone` returns `nil` iff the triple list is empty and the aggregator
itself otherwise: `nil` for the fresh aggregator, the aggregator itself after any `Add`. -/
theorem Errors.MapToNilIfNone_spec (s : verify.Errors) :
    (s.MapToNilIfNone = none ↔ s.Errors = []) ∧
    (s.Errors ≠ [] → s.MapToNilIfNone = some (GoError.verification s)) ∧
    ({} : verify.Errors).MapToNilIfNone = none ∧
    ∀ (k : diff.FileDifference) (p : String) (c : Option PlainError),
      (s.Add k p c).MapToNilIfNone = some (GoError.verification (s.Add k p c)) := by
  refine ⟨?_, ?_, rfl, ?_⟩
  · unfold Errors.MapToNilIfNone
    by_cases h : s.Errors = [] <;> simp [h]
  · intro h
    unfold Errors.MapToNilIfNone
    simp [h]
  · intro k p c
    unfold Errors.MapToNilIfNone
    simp [Errors.Add]

end verify

namespace verify

/-- The loop of `HasDifference` answers `true` exactly when some triple matches both the
kind and the path. -/
theorem HasDifference_loop_iff (k : diff.FileDifference) (p : String) (es : List Error) :
    Errors.HasDifference.loop k p es = true ↔
      ∃ e ∈ es, e.FileDifference = k ∧ e.Path = p := by
  induction es with
  | nil => simp [Errors.HasDifference.loop]
  | cons e es ih =>
    unfold Errors.HasDifference.loop
    by_cases h : e.FileDifference = k ∧ e.Path = p
    · rw [if_pos h]
      exact ⟨fun _ => ⟨e, List.mem_cons_self e es, h⟩, fun _ => rfl⟩
    · rw [if_neg h, ih]
      constructor
      · rintro ⟨x, hx, hkp⟩
        exact ⟨x, List.mem_cons_of_mem e hx, hkp⟩
      · rintro ⟨x, hx, hkp⟩
        rcases List.mem_cons.mp hx with rfl | hx'
        · exact absurd hkp h
        · exact ⟨x, hx', hkp⟩

/-- C15. `HasDifference(k, p)` is `true` iff the triple list holds a triple of kind exactly
`k` and path exactly `p`; when every triple of kind `k` stands at another path (and so also
when only other kinds are recorded at `p`) it is `false`, as in the three tests. -/
theorem Errors.HasDifference_iff (s : verify.Errors) (k : diff.FileDifference) (p : String) :
    (s.HasDifference k p = true ↔ ∃ e ∈ s.Errors, e.FileDifference = k ∧ e.Path = p) ∧
    ((∀ e ∈ s.Errors, e.FileDifference = k → e.Path ≠ p) → s.HasDifference k p = false) ∧
    pathErrors.HasDifference diff.ModTime "expected/path" = true ∧
    pathErrors.HasDifference diff.Size "expected/path" = false ∧
    pathErrors.HasDifference diff.LinkTarget "expected/path" = false := by
  refine ⟨HasDifference_loop_iff k p s.Errors, ?_, by decide, by decide, by decide⟩
  intro h
  cases hv : s.HasDifference k p with
  | false => rfl
  | true =>
    obtain ⟨e, he, hk, hp⟩ := (HasDifference_loop_iff k p s.Errors).mp hv
    exact absurd hp (h e he hk)

/-- The loop of `DifferenceFor` started from `c`. -/
theorem DifferenceFor_foldl (p : String) (es : List Error) (c : diff.FileDifference) :
    es.foldl (fun diffUnion ve =>
        if ve.Path = p then diffUnion ||| ve.FileDifference else diffUnion) c
      = c ||| kindsUnion (es.filter (fun e => e.Path = p)) := by
  induction es generalizing c with
  | nil => simp [kindsUnion]
  | cons e es ih =>
    rw [List.foldl_cons, ih]
    by_cases h : e.Path = p
    · have hf : (e :: es).filter (fun e => e.Path = p)
          = [e] ++ es.filter (fun e => e.Path = p) := by simp [h]
      rw [if_pos h, hf, kindsUnion_append, ← Nat.lor_assoc]
      simp [kindsUnion]
    · have hf : (e :: es).filter (fun e => e.Path = p)
          = es.filter (fun e => e.Path = p) := by simp [h]
      rw [if_neg h, hf]

/-- C16. `DifferenceFor(p)` is the bitwise OR of the kinds of exactly the triples whose path
is `p`, and zero when no triple has path `p`. -/
theorem Errors.DifferenceFor_spec (s : verify.Errors) (p : String) :
    s.DifferenceFor p = kindsUnion (s.Errors.filter (fun e => e.Path = p)) ∧
    ((∀ e ∈ s.Errors, e.Path ≠ p) → s.DifferenceFor p = 0) ∧
    pathErrors.DifferenceFor "expected/path" = diff.ModTime ||| diff.AccTime ∧
    pathErrors.DifferenceFor "unknown/path" = 0 := by
  have h : s.DifferenceFor p = kindsUnion (s.Errors.filter (fun e => e.Path = p)) := by
    unfold Errors.DifferenceFor
    rw [DifferenceFor_foldl, Nat.zero_or]
  refine ⟨h, ?_, by decide, by decide⟩
  intro hno
  have hf : s.Errors.filter (fun e => e.Path = p) = [] := by
    rw [List.filter_eq_nil_iff]
    intro e he
    simpa using hno e he
  rw [h, hf]
  rfl

end verify

/-! ## The difference kinds as independent bits -/

namespace diff

/-- The constants are the powers of two `2^0 .. 2^10`. -/
theorem mem_kinds_iff (k : FileDifference) : k ∈ kinds ↔ ∃ i, i < 11 ∧ k = 2 ^ i := by
  have h : kinds = (List.range 11).map (fun i => 2 ^ i) := by decide
  rw [h, List.mem_map]
  constructor
  · rintro ⟨i, hi, rfl⟩
    exact ⟨i, List.mem_range.mp hi, rfl⟩
  · rintro ⟨i, hi, rfl⟩
    exact ⟨i, List.mem_range.mpr hi, rfl⟩

/-- Masking with a single bit leaves that bit or nothing. -/
theorem and_two_pow_eq (x i : Nat) : x &&& 2 ^ i = if x.testBit i then 2 ^ i else 0 := by
  apply Nat.eq_of_testBit_eq
  intro j
  rw [Nat.testBit_and, Nat.testBit_two_pow]
  by_cases hij : i = j
  · subst hij
    cases hx : x.testBit i <;> simp [Nat.testBit_two_pow]
  · cases hx : x.testBit i <;> simp [hij, Nat.testBit_two_pow]

/-- A bit of an OR over a list is set iff it is set in the start value or in an element. -/
theorem testBit_foldl_or (S : List Nat) (c i : Nat) :
    (S.foldl (fun u k => u ||| k) c).testBit i
      = (c.testBit i || S.any (fun x => x.testBit i)) := by
  induction S generalizing c with
  | nil => simp
  | cons x xs ih =>
    rw [List.foldl_cons, ih, Nat.testBit_or, List.any_cons, Bool.or_assoc]

/-- In a list of kinds, bit `i` is set in some element iff the kind `2^i` is an element. -/
theorem any_testBit_iff (S : List FileDifference) (hS : ∀ x ∈ S, x ∈ kinds) (i : Nat) :
    S.any (fun x => x.testBit i) = true ↔ 2 ^ i ∈ S := by
  rw [List.any_eq_true]
  constructor
  · rintro ⟨x, hx, hbit⟩
    obtain ⟨j, _, rfl⟩ := (mem_kinds_iff x).mp (hS x hx)
    rw [Nat.testBit_two_pow] at hbit
    have hji : j = i := of_decide_eq_true hbit
    rw [← hji]
    exact hx
  · intro hmem
    exact ⟨2 ^ i, hmem, Nat.testBit_two_pow_self⟩

/-- C17. The eleven kinds are `2^0, 2^1, ..., 2^10` in declaration order; each has exactly
one bit set; two different kinds share no bit; and for every list `S` of kinds and every
kind `k`, the OR of `S` has the bit of `k` set iff `k` is in `S`. -/
theorem kinds_are_independent_bits :
    kinds = (List.range 11).map (fun i => 2 ^ i) ∧
    (∀ k ∈ kinds, ∃ i, i < 11 ∧ ∀ j, k.testBit j = decide (i = j)) ∧
    (∀ k ∈ kinds, ∀ k' ∈ kinds, k ≠ k' → k &&& k' = 0) ∧
    (∀ S : List FileDifference, (∀ x ∈ S, x ∈ kinds) → ∀ k ∈ kinds,
      ((S.foldl (fun u x => u ||| x) 0) &&& k = k ↔ k ∈ S) ∧
      ((S.foldl (fun u x => u ||| x) 0) &&& k ≠ 0 ↔ k ∈ S)) := by
  refine ⟨by decide, ?_, ?_, ?_⟩
  · intro k hk
    obtain ⟨i, hi, rfl⟩ := (mem_kinds_iff k).mp hk
    exact ⟨i, hi, fun j => Nat.testBit_two_pow⟩
  · intro k hk k' hk' hne
    obtain ⟨i, _, rfl⟩ := (mem_kinds_iff k).mp hk
    obtain ⟨j, _, rfl⟩ := (mem_kinds_iff k').mp hk'
    have hij : i ≠ j := fun h => hne (by rw [h])
    rw [and_two_pow_eq, Nat.testBit_two_pow_of_ne hij]
    rfl
  · intro S hS k hk
    obtain ⟨i, _, rfl⟩ := (mem_kinds_iff k).mp hk
    have hpos : (2 : Nat) ^ i ≠ 0 := Nat.pos_iff_ne_zero.mp (Nat.two_pow_pos i)
    have hbit : (S.foldl (fun u x => u ||| x) 0).testBit i = true ↔ 2 ^ i ∈ S := by
      rw [testBit_foldl_or, Nat.zero_testBit, Bool.false_or]
      exact any_testBit_iff S hS i
    rw [and_two_pow_eq]
    cases hb : (S.foldl (fun u x => u ||| x) 0).testBit i with
    | true =>
      have hmem : 2 ^ i ∈ S := hbit.mp hb
      simp [hmem, hpos]
    | false =>
      have hmem : ¬ 2 ^ i ∈ S := fun h => by
        have := hbit.mpr h
        rw [hb] at this
        exact Bool.false_ne_true this
      simp only [Bool.false_eq_true, if_false]
      exact ⟨⟨fun h => absurd h.symm hpos, fun h => absurd h hmem⟩,
        ⟨fun h => absurd rfl h, fun h => absurd h hmem⟩⟩

/-- C17, instance: the union reported in the example test decomposes into its five kinds;
`Owner` is not among them and `ModePerm` is. -/
theorem kinds_are_independent_bits_witness :
    (∀ x ∈ [ModePerm, ModTime, AccTime, Group, LinkTarget], x ∈ kinds) ∧
    ¬ (([ModePerm, ModTime, AccTime, Group, LinkTarget].foldl (fun u x => u ||| x) 0)
        &&& Owner ≠ 0) ∧
    (([ModePerm, ModTime, AccTime, Group, LinkTarget].foldl (fun u x => u ||| x) 0)
        &&& ModePerm = ModePerm) :=
  ⟨by decide,
   fun h => absurd
     (((kinds_are_independent_bits.2.2.2 [ModePerm, ModTime, AccTime, Group, LinkTarget]
        (by decide) Owner (by decide)).2).mp h) (by decide),
   ((kinds_are_independent_bits.2.2.2 [ModePerm, ModTime, AccTime, Group, LinkTarget]
        (by decide) ModePerm (by decide)).1).mpr (by decide)⟩

end diff

/-! ## The batch functions `VerifyFiles` and `CreateFiles` -/

namespace filefactory

/-- Two aggregators with the same union and the same triples are equal. -/
theorem Errors_eq (a b : verify.Errors)
    (hc : a.CombinedFileDifference = b.CombinedFileDifference) (he : a.Errors = b.Errors) :
    a = b := by
  cases a
  cases b
  simp only [verify.Errors.mk.injEq]
  exact ⟨hc, he⟩

/-- The receiver after `Merge` of an aggregator. -/
theorem Merge_verification (s o : verify.Errors) :
    s.Merge (some (GoError.verification o))
      = ({ CombinedFileDifference := s.CombinedFileDifference ||| verify.kindsUnion o.Errors
           Errors := s.Errors ++ o.Errors }, none) := by
  simp only [verify.Errors.Merge, Prod.mk.injEq, and_true]
  exact Errors_eq _ _ (verify.foldl_Add_Combined o.Errors s) (verify.foldl_Add_Errors o.Errors s)

/-- The loop of `VerifyFiles` when no declaration returns a non-aggregator error: every
declaration is visited and the reported triples are absorbed in order. -/
theorem VerifyFiles_loop_absorbs (root : String) (files : List file.File) (i : Nat)
    (agg : verify.Errors) (calls : List Invocation)
    (h : ∀ f ∈ files, nilOrAggregator (f.Verify root) = true) :
    VerifyFiles.loop root files i agg calls =
      (verify.Errors.MapToNilIfNone
        { CombinedFileDifference :=
            agg.CombinedFileDifference ||| verify.kindsUnion (allReportedTriples root files)
          Errors := agg.Errors ++ allReportedTriples root files },
       calls ++ (List.range' i files.length).map (fun n => Invocation.Verify n root)) := by
  induction files generalizing i agg calls with
  | nil =>
    simp only [VerifyFiles.loop, allReportedTriples, List.append_nil, List.length_nil,
      List.range'_zero, List.map_nil]
    have : verify.kindsUnion [] = 0 := rfl
    rw [this, Nat.or_zero]
  | cons f rest ih =>
    have hrest : ∀ g ∈ rest, nilOrAggregator (g.Verify root) = true :=
      fun g hg => h g (List.mem_cons_of_mem f hg)
    have hf := h f (List.mem_cons_self f rest)
    have hcalls : (calls ++ [Invocation.Verify i root])
        ++ (List.range' (i + 1) rest.length).map (fun n => Invocation.Verify n root)
        = calls ++ (List.range' i (f :: rest).length).map
            (fun n => Invocation.Verify n root) := by
      simp [List.range'_succ]
    match hv : f.Verify root with
    | none =>
      have ht : allReportedTriples root (f :: rest) = allReportedTriples root rest := by
        simp [allReportedTriples, reportedTriples, hv]
      simp only [VerifyFiles.loop, hv, verify.Errors.Merge]
      rw [ih (i + 1) agg _ hrest, ht, hcalls]
    | some (GoError.plain e) =>
      rw [hv] at hf
      exact absurd hf (by simp [nilOrAggregator])
    | some (GoError.verification v) =>
      have ht : allReportedTriples root (f :: rest)
          = v.Errors ++ allReportedTriples root rest := by
        simp [allReportedTriples, reportedTriples, hv]
      simp only [VerifyFiles.loop, hv, Merge_verification]
      rw [ih (i + 1) _ _ hrest, ht, hcalls, verify.kindsUnion_append, Nat.lor_assoc,
        List.append_assoc]

/-- The loop of `VerifyFiles` stops at the first declaration whose `Verify` returns an error
that is not an aggregator, and returns that error. -/
theorem VerifyFiles_loop_aborts (root : String) (pre : List file.File) (f : file.File)
    (post : List file.File) (e : PlainError) (i : Nat) (agg : verify.Errors)
    (calls : List Invocation)
    (hpre : ∀ g ∈ pre, nilOrAggregator (g.Verify root) = true)
    (hf : f.Verify root = some (GoError.plain e)) :
    VerifyFiles.loop root (pre ++ f :: post) i agg calls =
      (some (GoError.plain e),
       calls ++ (List.range' i (pre.length + 1)).map (fun n => Invocation.Verify n root)) := by
  induction pre generalizing i agg calls with
  | nil =>
    simp only [List.nil_append, VerifyFiles.loop, hf, verify.Errors.Merge, List.length_nil,
      Nat.zero_add, List.range'_one, List.map_cons, List.map_nil]
  | cons g rest ih =>
    have hrest : ∀ x ∈ rest, nilOrAggregator (x.Verify root) = true :=
      fun x hx => hpre x (List.mem_cons_of_mem g hx)
    have hg := hpre g (List.mem_cons_self g rest)
    have hcalls : (calls ++ [Invocation.Verify i root])
        ++ (List.range' (i + 1) (rest.length + 1)).map (fun n => Invocation.Verify n root)
        = calls ++ (List.range' i ((g :: rest).length + 1)).map
            (fun n => Invocation.Verify n root) := by
      simp [List.range'_succ]
    match hv : g.Verify root with
    | none =>
      rw [List.cons_append]
      simp only [VerifyFiles.loop, hv, verify.Errors.Merge]
      rw [ih (i + 1) agg _ hrest, hcalls]
    | some (GoError.plain e') =>
      rw [hv] at hg
      exact absurd hg (by simp [nilOrAggregator])
    | some (GoError.verification v) =>
      rw [List.cons_append]
      simp only [VerifyFiles.loop, hv, Merge_verification]
      rw [ih (i + 1) _ _ hrest, hcalls]

end filefactory

namespace filefactory

/-- C18. When every `Verify` returns `nil` or an aggregator, `VerifyFiles` invokes
`Verify(root)` on every declaration in input order; it returns `nil` if no triple was
reported, and otherwise an aggregator whose triples are the reported triples concatenated
in input order and whose union is the OR of their kinds. -/
theorem VerifyFiles_aggregates (root : String) (files : List file.File)
    (h : ∀ f ∈ files, nilOrAggregator (f.Verify root) = true) :
    (VerifyFiles root files).2
      = (List.range files.length).map (fun n => Invocation.Verify n root) ∧
    (VerifyFiles root files).1
      = (if allReportedTriples root files = [] then none
          else some (GoError.verification
            { CombinedFileDifference := verify.kindsUnion (allReportedTriples root files)
              Errors := allReportedTriples root files })) := by
  unfold VerifyFiles
  rw [VerifyFiles_loop_absorbs root files 0 {} [] h]
  refine ⟨?_, ?_⟩
  · simp [List.range_eq_range']
  · simp only [verify.Errors.MapToNilIfNone, List.nil_append, Nat.zero_or,
      List.length_eq_zero]

/-- C18, instance: the three mocks of the test report one triple each; all three are
visited and the three triples come back in order. -/
theorem VerifyFiles_aggregates_witness :
    (∀ f ∈ [mismatchFile "error 0", mismatchFile "error 1", mismatchFile "error 2"],
        nilOrAggregator (f.Verify "/tmp/root-verification-failure") = true) ∧
    VerifyFiles "/tmp/root-verification-failure"
        [mismatchFile "error 0", mismatchFile "error 1", mismatchFile "error 2"]
      = (some (GoError.verification
          { CombinedFileDifference := 8
            Errors := [⟨8, "some path", some ⟨"error 0"⟩⟩, ⟨8, "some path", some ⟨"error 1"⟩⟩,
              ⟨8, "some path", some ⟨"error 2"⟩⟩] }),
         [Invocation.Verify 0 "/tmp/root-verification-failure",
          Invocation.Verify 1 "/tmp/root-verification-failure",
          Invocation.Verify 2 "/tmp/root-verification-failure"]) :=
  ⟨by decide,
   Prod.ext
     ((VerifyFiles_aggregates "/tmp/root-verification-failure"
        [mismatchFile "error 0", mismatchFile "error 1", mismatchFile "error 2"]
        (by decide)).2.trans (by decide))
     ((VerifyFiles_aggregates "/tmp/root-verification-failure"
        [mismatchFile "error 0", mismatchFile "error 1", mismatchFile "error 2"]
        (by decide)).1.trans (by decide))⟩

/-- C19. If the `Verify` of the declaration at position `pre.length` returns an error `e`
that is not an aggregator, and the earlier ones return `nil` or aggregators, `VerifyFiles`
returns `e` itself (so none of the mismatches absorbed so far) and has invoked `Verify` on
the positions `0 .. pre.length` only. -/
theorem VerifyFiles_aborts_on_other_error (root : String) (pre : List file.File)
    (f : file.File) (post : List file.File) (e : PlainError)
    (hpre : ∀ g ∈ pre, nilOrAggregator (g.Verify root) = true)
    (hf : f.Verify root = some (GoError.plain e)) :
    VerifyFiles root (pre ++ f :: post)
      = (some (GoError.plain e),
         (List.range (pre.length + 1)).map (fun n => Invocation.Verify n root)) ∧
    ∀ c ∈ (VerifyFiles root (pre ++ f :: post)).2,
      ∃ n, n ≤ pre.length ∧ c = Invocation.Verify n root := by
  have hres : VerifyFiles root (pre ++ f :: post)
      = (some (GoError.plain e),
         (List.range (pre.length + 1)).map (fun n => Invocation.Verify n root)) := by
    unfold VerifyFiles
    rw [VerifyFiles_loop_aborts root pre f post e 0 {} [] hpre hf]
    simp [List.range_eq_range']
  refine ⟨hres, ?_⟩
  intro c hc
  rw [hres] at hc
  obtain ⟨n, hn, rfl⟩ := List.mem_map.mp hc
  exact ⟨n, Nat.lt_succ_iff.mp (List.mem_range.mp hn), rfl⟩

/-- C19, instance: a mismatch, then a non-aggregator failure, then a declaration that is
never visited; the mismatch of the first declaration is not returned. -/
theorem VerifyFiles_aborts_on_other_error_witness :
    (∀ g ∈ [mismatchFile "error 0"], nilOrAggregator (g.Verify "/r") = true) ∧
    VerifyFiles "/r" ([mismatchFile "error 0"] ++ brokenVerifyFile :: [mismatchFile "error 2"])
      = (some (GoError.plain ⟨"verify failed"⟩),
         [Invocation.Verify 0 "/r", Invocation.Verify 1 "/r"]) :=
  ⟨by decide,
   (VerifyFiles_aborts_on_other_error "/r" [mismatchFile "error 0"] brokenVerifyFile
      [mismatchFile "error 2"] ⟨"verify failed"⟩ (by decide) rfl).1⟩

end filefactory

namespace filefactory

/-- The first loop of `CreateFiles` visits every declaration when every `Create` succeeds. -/
theorem createLoop_all_succeed (root : String) (files : List file.File) (i : Nat)
    (calls : List Invocation) (h : ∀ f ∈ files, f.Create root = none) :
    CreateFiles.createLoop root files i calls =
      (none, calls ++ (List.range' i files.length).map (fun n => Invocation.Create n root)) := by
  induction files generalizing i calls with
  | nil => simp [CreateFiles.createLoop]
  | cons f rest ih =>
    have hf := h f (List.mem_cons_self f rest)
    simp only [CreateFiles.createLoop, hf]
    rw [ih (i + 1) _ (fun g hg => h g (List.mem_cons_of_mem f hg))]
    simp [List.range'_succ]

/-- The first loop of `CreateFiles` stops at the first failing `Create`. -/
theorem createLoop_fails (root : String) (pre : List file.File) (f : file.File)
    (post : List file.File) (e : GoError) (i : Nat) (calls : List Invocation)
    (hpre : ∀ g ∈ pre, g.Create root = none) (hf : f.Create root = some e) :
    CreateFiles.createLoop root (pre ++ f :: post) i calls =
      (some e,
       calls ++ (List.range' i (pre.length + 1)).map (fun n => Invocation.Create n root)) := by
  induction pre generalizing i calls with
  | nil => simp [CreateFiles.createLoop, hf]
  | cons g rest ih =>
    have hg := hpre g (List.mem_cons_self g rest)
    rw [List.cons_append]
    simp only [CreateFiles.createLoop, hg]
    rw [ih (i + 1) _ (fun x hx => hpre x (List.mem_cons_of_mem g hx))]
    simp [List.range'_succ]

/-- The second loop of `CreateFiles` visits every declaration when every `AlignAttributes`
succeeds. -/
theorem alignLoop_all_succeed (root : String) (files : List file.File) (i : Nat)
    (calls : List Invocation)
    (h : ∀ f ∈ files, f.AlignAttributes true true true [root] = none) :
    CreateFiles.alignLoop root files i calls =
      (none, calls ++ (List.range' i files.length).map
        (fun n => Invocation.AlignAttributes n true true true [root])) := by
  induction files generalizing i calls with
  | nil => simp [CreateFiles.alignLoop]
  | cons f rest ih =>
    have hf := h f (List.mem_cons_self f rest)
    simp only [CreateFiles.alignLoop, hf]
    rw [ih (i + 1) _ (fun g hg => h g (List.mem_cons_of_mem f hg))]
    simp [List.range'_succ]

/-- The second loop of `CreateFiles` stops at the first failing `AlignAttributes`. -/
theorem alignLoop_fails (root : String) (pre : List file.File) (f : file.File)
    (post : List file.File) (e : GoError) (i : Nat) (calls : List Invocation)
    (hpre : ∀ g ∈ pre, g.AlignAttributes true true true [root] = none)
    (hf : f.AlignAttributes true true true [root] = some e) :
    CreateFiles.alignLoop root (pre ++ f :: post) i calls =
      (some e, calls ++ (List.range' i (pre.length + 1)).map
        (fun n => Invocation.AlignAttributes n true true true [root])) := by
  induction pre generalizing i calls with
  | nil => simp [CreateFiles.alignLoop, hf]
  | cons g rest ih =>
    have hg := hpre g (List.mem_cons_self g rest)
    rw [List.cons_append]
    simp only [CreateFiles.alignLoop, hg]
    rw [ih (i + 1) _ (fun x hx => hpre x (List.mem_cons_of_mem g hx))]
    simp [List.range'_succ]

/-- C20. `CreateFiles` invokes `Create(root)` in input order. If the `Create` at position
`i` fails, it returns that error after exactly the `i + 1` calls `Create 0 .. Create i` and
no `AlignAttributes` call. If every `Create` succeeds, it then invokes
`AlignAttributes(true, true, true, root)` in input order, stopping at and returning the
first error; all `Create` calls precede all `AlignAttributes` calls. -/
theorem CreateFiles_two_passes :
    (∀ (root : String) (pre : List file.File) (f : file.File) (post : List file.File)
        (e : GoError),
      (∀ g ∈ pre, g.Create root = none) → f.Create root = some e →
      CreateFiles root (pre ++ f :: post)
        = (some e, (List.range (pre.length + 1)).map (fun n => Invocation.Create n root))) ∧
    (∀ (root : String) (pre : List file.File) (f : file.File) (post : List file.File)
        (e : GoError),
      (∀ g ∈ pre ++ f :: post, g.Create root = none) →
      (∀ g ∈ pre, g.AlignAttributes true true true [root] = none) →
      f.AlignAttributes true true true [root] = some e →
      CreateFiles root (pre ++ f :: post)
        = (some e,
           (List.range (pre ++ f :: post).length).map (fun n => Invocation.Create n root)
           ++ (List.range (pre.length + 1)).map
                (fun n => Invocation.AlignAttributes n true true true [root]))) ∧
    (∀ (root : String) (files : List file.File),
      (∀ g ∈ files, g.Create root = none) →
      (∀ g ∈ files, g.AlignAttributes true true true [root] = none) →
      CreateFiles root files
        = (none,
           (List.range files.length).map (fun n => Invocation.Create n root)
           ++ (List.range files.length).map
                (fun n => Invocation.AlignAttributes n true true true [root]))) := by
  refine ⟨?_, ?_, ?_⟩
  · intro root pre f post e hpre hf
    unfold CreateFiles
    rw [createLoop_fails root pre f post e 0 [] hpre hf]
    simp [List.range_eq_range']
  · intro root pre f post e hcreate hpre hf
    unfold CreateFiles
    rw [createLoop_all_succeed root (pre ++ f :: post) 0 [] hcreate]
    simp only []
    rw [alignLoop_fails root pre f post e 0 _ hpre hf]
    simp [List.range_eq_range']
  · intro root files hcreate halign
    unfold CreateFiles
    rw [createLoop_all_succeed root files 0 [] hcreate]
    simp only []
    rw [alignLoop_all_succeed root files 0 _ halign]
    simp [List.range_eq_range']

/-- C20, instance: of three declarations the second fails to create; `Create` is invoked
twice and `AlignAttributes` not at all. -/
theorem CreateFiles_two_passes_witness :
    (∀ g ∈ [okFile], g.Create "/r" = none) ∧
    brokenCreateFile.Create "/r" = some (GoError.plain ⟨"create failed"⟩) ∧
    CreateFiles "/r" ([okFile] ++ brokenCreateFile :: [okFile])
      = (some (GoError.plain ⟨"create failed"⟩),
         [Invocation.Create 0 "/r", Invocation.Create 1 "/r"]) :=
  ⟨by decide, rfl,
   CreateFiles_two_passes.1 "/r" [okFile] brokenCreateFile [okFile]
     (GoError.plain ⟨"create failed"⟩) (by decide) rfl⟩

end filefactory

/-! ## `Meta.Populate` -/

namespace attr

/-- The last accepted value of a concatenation comes from the second list if it has one. -/
theorem lastOf_append {α : Type} (sel : Attribute → Option α) (A B : List Attribute) :
    lastOf sel (A ++ B) = (lastOf sel B).or (lastOf sel A) := by
  simp [lastOf, List.filterMap_append, List.getLast?_append]

/-- The last accepted value of a one-element list. -/
theorem lastOf_singleton {α : Type} (sel : Attribute → Option α) (a : Attribute) :
    lastOf sel [a] = sel a := by
  cases h : sel a <;> simp [lastOf, List.filterMap_cons, h]

/-- A list in which the selector accepts nothing has no last accepted value. -/
theorem lastOf_eq_none {α : Type} (sel : Attribute → Option α) (A : List Attribute)
    (h : ∀ a ∈ A, sel a = none) : lastOf sel A = none := by
  induction A with
  | nil => rfl
  | cons a rest ih =>
    have ha := h a (List.mem_cons_self a rest)
    have hrest := ih (fun x hx => h x (List.mem_cons_of_mem a hx))
    have : lastOf sel (a :: rest) = lastOf sel ([a] ++ rest) := rfl
    rw [this, lastOf_append, lastOf_singleton, ha, hrest]
    rfl

/-- Reading a default through two layers. -/
theorem getD_or {α : Type} (o o' : Option α) (d : α) :
    (o.or o').getD d = o.getD (o'.getD d) := by
  cases o <;> rfl

/-- The four-list precedence is the last accepted value of the concatenation. -/
theorem lastOf_combined {α : Type} (sel : Attribute → Option α) (H D E C : List Attribute) :
    lastOf sel (H ++ (D ++ (E ++ C))) = precedence sel H D E C := by
  simp only [precedence, lastOf_append]
  cases lastOf sel C <;> cases lastOf sel E <;> cases lastOf sel D <;> rfl

end attr

namespace file

/-- The loop of `Populate`: the path is left alone, each attribute field takes the value of
the last element of its type (or stays), and the instructions are appended in order. -/
theorem foldl_populateStep (A : List attr.Attribute) (m : Meta) :
    (A.foldl Meta.populateStep m).Path = m.Path ∧
    (A.foldl Meta.populateStep m).Mode
      = (attr.lastOf attr.Attribute.asFileMode A).getD m.Mode ∧
    (A.foldl Meta.populateStep m).Accessed
      = (attr.lastOf attr.Attribute.asAccessedTime A).getD m.Accessed ∧
    (A.foldl Meta.populateStep m).Modified
      = (attr.lastOf attr.Attribute.asModifiedTime A).getD m.Modified ∧
    (A.foldl Meta.populateStep m).Uid = (attr.lastOf attr.Attribute.asUid A).getD m.Uid ∧
    (A.foldl Meta.populateStep m).Gid = (attr.lastOf attr.Attribute.asGid A).getD m.Gid ∧
    (A.foldl Meta.populateStep m).VerificationInstructions
      = m.VerificationInstructions ++ A.filterMap attr.Attribute.asInstruction := by
  induction A generalizing m with
  | nil => simp [attr.lastOf]
  | cons a rest ih =>
    have hsplit : ∀ {α : Type} (sel : attr.Attribute → Option α) (d : α),
        (attr.lastOf sel (a :: rest)).getD d = (attr.lastOf sel rest).getD ((sel a).getD d) := by
      intro α sel d
      have : attr.lastOf sel (a :: rest) = attr.lastOf sel ([a] ++ rest) := rfl
      rw [this, attr.lastOf_append, attr.lastOf_singleton, attr.getD_or]
    rw [List.foldl_cons]
    obtain ⟨h1, h2, h3, h4, h5, h6, h7⟩ := ih (m.populateStep a)
    rw [h1, h2, h3, h4, h5, h6, h7, hsplit, hsplit, hsplit, hsplit, hsplit]
    cases a <;>
      simp [Meta.populateStep, attr.Attribute.asFileMode, attr.Attribute.asAccessedTime,
        attr.Attribute.asModifiedTime, attr.Attribute.asUid, attr.Attribute.asGid,
        attr.Attribute.asInstruction]

/-- Elements of a type that `Populate` does not switch on leave the loop result alone. -/
theorem foldl_populateStep_filter (A : List attr.Attribute) (m : Meta) :
    (A.filter attr.Attribute.isCommon).foldl Meta.populateStep m
      = A.foldl Meta.populateStep m := by
  induction A generalizing m with
  | nil => rfl
  | cons a rest ih =>
    cases a <;> simp [attr.Attribute.isCommon, Meta.populateStep, ih]

/-- C21. After `m.Populate(relPath, A...)`: `Path` is `relPath`; each of `Mode`, `Accessed`,
`Modified`, `Uid`, `Gid` is the value of the last element of `A` of its type, or the
previous value of `m` when `A` has none; `VerificationInstructions` is the previous list
followed by the instructions of `A` in order; and elements of any other type (`Size`,
`Seed`, ...) have no effect. -/
theorem Populate_spec (m : Meta) (relPath : String) (A : List attr.Attribute) :
    (m.Populate relPath A).Path = relPath ∧
    (m.Populate relPath A).Mode = (attr.lastOf attr.Attribute.asFileMode A).getD m.Mode ∧
    (m.Populate relPath A).Accessed
      = (attr.lastOf attr.Attribute.asAccessedTime A).getD m.Accessed ∧
    (m.Populate relPath A).Modified
      = (attr.lastOf attr.Attribute.asModifiedTime A).getD m.Modified ∧
    (m.Populate relPath A).Uid = (attr.lastOf attr.Attribute.asUid A).getD m.Uid ∧
    (m.Populate relPath A).Gid = (attr.lastOf attr.Attribute.asGid A).getD m.Gid ∧
    (m.Populate relPath A).VerificationInstructions
      = m.VerificationInstructions ++ A.filterMap attr.Attribute.asInstruction ∧
    m.Populate relPath (A.filter attr.Attribute.isCommon) = m.Populate relPath A ∧
    (∀ (pre post : List attr.Attribute) (a : attr.Attribute), a.isCommon = false →
      m.Populate relPath (pre ++ a :: post) = m.Populate relPath (pre ++ post)) := by
  obtain ⟨_, h2, h3, h4, h5, h6, h7⟩ := foldl_populateStep A m
  refine ⟨rfl, h2, h3, h4, h5, h6, h7, ?_, ?_⟩
  · unfold Meta.Populate
    rw [foldl_populateStep_filter]
  · intro pre post a ha
    unfold Meta.Populate
    rw [← foldl_populateStep_filter (pre ++ a :: post), ← foldl_populateStep_filter (pre ++ post)]
    simp [List.filter_cons, ha]

end file

/-! ## The constructors `Reg`, `Dir`, `Sym` -/

namespace os

/-- Masking distributes over a union. -/
theorem or_and_right (a b c : Nat) : (a ||| b) &&& c = (a &&& c) ||| (b &&& c) := by
  rw [Nat.and_comm, Nat.and_or_distrib_left, Nat.and_comm c a, Nat.and_comm c b]

/-- Clearing the type bits leaves no type bit. -/
theorem cleared_type_bits (x : FileMode) : (x &&& notModeType) &&& ModeType = 0 := by
  have h : notModeType &&& ModeType = 0 := by decide
  rw [Nat.and_assoc, h, Nat.and_zero]

/-- Clearing the type bits a second time changes nothing. -/
theorem cleared_nontype_bits (x : FileMode) :
    (x &&& notModeType) &&& notModeType = x &&& notModeType := by
  rw [Nat.and_assoc, Nat.and_self]

/-- Clearing the type bits keeps the permission bits. -/
theorem cleared_perm_bits (x : FileMode) : (x &&& notModeType) &&& ModePerm = x &&& ModePerm := by
  have h : notModeType &&& ModePerm = ModePerm := by decide
  rw [Nat.and_assoc, h]

/-- After clearing the type bits and setting one type bit `k`, the type bits are exactly
`k`, and the other bits are those of the original mode. -/
theorem forced_kind (x k : FileMode) (hk : k &&& ModeType = k) (hn : k &&& notModeType = 0)
    (hp : k &&& ModePerm = 0) :
    ((x &&& notModeType) ||| k) &&& ModeType = k ∧
    ((x &&& notModeType) ||| k) &&& notModeType = x &&& notModeType ∧
    ((x &&& notModeType) ||| k) &&& ModePerm = x &&& ModePerm := by
  refine ⟨?_, ?_, ?_⟩
  · rw [or_and_right, cleared_type_bits, hk, Nat.zero_or]
  · rw [or_and_right, cleared_nontype_bits, hn, Nat.or_zero]
  · rw [or_and_right, cleared_perm_bits, hp, Nat.or_zero]

end os

namespace defs

/-- The second loop of `Reg`: `Size` and `Seed` take the value of the last element of their
type, and the embedded `Meta` is left alone. -/
theorem foldl_sizeSeedStep (A : List attr.Attribute) (r : Regular) :
    (A.foldl Reg.sizeSeedStep r).Meta = r.Meta ∧
    (A.foldl Reg.sizeSeedStep r).Size = (attr.lastOf attr.Attribute.asSize A).getD r.Size ∧
    (A.foldl Reg.sizeSeedStep r).Seed = (attr.lastOf attr.Attribute.asSeed A).getD r.Seed := by
  induction A generalizing r with
  | nil => simp [attr.lastOf]
  | cons a rest ih =>
    have hsplit : ∀ {α : Type} (sel : attr.Attribute → Option α) (d : α),
        (attr.lastOf sel (a :: rest)).getD d = (attr.lastOf sel rest).getD ((sel a).getD d) := by
      intro α sel d
      have : attr.lastOf sel (a :: rest) = attr.lastOf sel ([a] ++ rest) := rfl
      rw [this, attr.lastOf_append, attr.lastOf_singleton, attr.getD_or]
    rw [List.foldl_cons]
    obtain ⟨h1, h2, h3⟩ := ih (Reg.sizeSeedStep r a)
    rw [h1, h2, h3, hsplit, hsplit]
    cases a <;> simp [Reg.sizeSeedStep, attr.Attribute.asSize, attr.Attribute.asSeed]

/-- The declaration built by `Reg`, field by field. -/
theorem Reg_regular_eq (relPath : String) (C H E : List attr.Attribute) :
    (Reg.regular relPath C H E).Meta =
      { ({} : file.Meta).Populate relPath (H ++ (Reg.fileSpecificDefaults ++ (E ++ C))) with
        Mode := (({} : file.Meta).Populate relPath
          (H ++ (Reg.fileSpecificDefaults ++ (E ++ C)))).Mode &&& os.notModeType } ∧
    (Reg.regular relPath C H E).Size
      = (attr.lastOf attr.Attribute.asSize (H ++ (Reg.fileSpecificDefaults ++ (E ++ C)))).getD 0 ∧
    (Reg.regular relPath C H E).Seed
      = (attr.lastOf attr.Attribute.asSeed (H ++ (Reg.fileSpecificDefaults ++ (E ++ C)))).getD 0
    := by
  obtain ⟨h1, h2, h3⟩ := foldl_sizeSeedStep (H ++ (Reg.fileSpecificDefaults ++ (E ++ C)))
    { Meta := ({} : file.Meta).Populate relPath (H ++ (Reg.fileSpecificDefaults ++ (E ++ C))) }
  refine ⟨?_, ?_, ?_⟩
  · simp only [Reg.regular, h1]
  · simp only [Reg.regular, h2]
  · simp only [Reg.regular, h3]

/-- A populated zero record follows the precedence rule, before the type bits are forced. -/
theorem Populate_precedence (relPath : String) (H D E C : List attr.Attribute) :
    (({} : file.Meta).Populate relPath (H ++ (D ++ (E ++ C)))).Mode
      = (attr.precedence attr.Attribute.asFileMode H D E C).getD 0 ∧
    (({} : file.Meta).Populate relPath (H ++ (D ++ (E ++ C)))).Uid
      = (attr.precedence attr.Attribute.asUid H D E C).getD 0 ∧
    (({} : file.Meta).Populate relPath (H ++ (D ++ (E ++ C)))).Gid
      = (attr.precedence attr.Attribute.asGid H D E C).getD 0 ∧
    (({} : file.Meta).Populate relPath (H ++ (D ++ (E ++ C)))).Accessed
      = (attr.precedence attr.Attribute.asAccessedTime H D E C).getD ⟨0, 0, ""⟩ ∧
    (({} : file.Meta).Populate relPath (H ++ (D ++ (E ++ C)))).Modified
      = (attr.precedence attr.Attribute.asModifiedTime H D E C).getD ⟨0, 0, ""⟩ := by
  obtain ⟨_, h2, h3, h4, h5, h6, _⟩ :=
    file.foldl_populateStep (H ++ (D ++ (E ++ C))) ({} : file.Meta)
  simp only [← attr.lastOf_combined]
  exact ⟨h2, h5, h6, h3, h4⟩

end defs

namespace defs

/-- The declaration built by `Dir`. -/
theorem Dir_directory_eq (relPath : String) (C H E : List attr.Attribute) :
    (Dir.directory relPath C H E).Meta =
      { ({} : file.Meta).Populate relPath (H ++ (Dir.fileSpecificDefaults ++ (E ++ C))) with
        Mode := ((({} : file.Meta).Populate relPath
          (H ++ (Dir.fileSpecificDefaults ++ (E ++ C)))).Mode &&& os.notModeType)
            ||| os.ModeDir } :=
  rfl

/-- The declaration built by `Sym`. -/
theorem Sym_symlink_eq (relPath linkTarget : String) (C H E : List attr.Attribute) :
    (Sym.symlink relPath linkTarget C H E).Meta =
      { ({} : file.Meta).Populate relPath (H ++ (Sym.fileSpecificDefaults ++ (E ++ C))) with
        Mode := ((({} : file.Meta).Populate relPath
          (H ++ (Sym.fileSpecificDefaults ++ (E ++ C)))).Mode &&& os.notModeType)
            ||| os.ModeSymlink } ∧
    (Sym.symlink relPath linkTarget C H E).LinkTarget = linkTarget :=
  ⟨rfl, rfl⟩

/-- The precedence rule holds for the declaration built by `Reg`. -/
theorem Reg_followsPrecedence (relPath : String) (C H E : List attr.Attribute) :
    followsPrecedence H Reg.fileSpecificDefaults E C (Reg.regular relPath C H E).Meta := by
  obtain ⟨h1, h2, h3, h4, h5⟩ := Populate_precedence relPath H Reg.fileSpecificDefaults E C
  rw [(Reg_regular_eq relPath C H E).1]
  refine ⟨?_, h2, h3, h4, h5⟩
  show (_ &&& os.notModeType) &&& os.ModePerm = _
  rw [os.cleared_perm_bits, h1]

/-- The precedence rule holds for the declaration built by `Dir`. -/
theorem Dir_followsPrecedence (relPath : String) (C H E : List attr.Attribute) :
    followsPrecedence H Dir.fileSpecificDefaults E C (Dir.directory relPath C H E).Meta := by
  obtain ⟨h1, h2, h3, h4, h5⟩ := Populate_precedence relPath H Dir.fileSpecificDefaults E C
  rw [Dir_directory_eq relPath C H E]
  refine ⟨?_, h2, h3, h4, h5⟩
  show ((_ &&& os.notModeType) ||| os.ModeDir) &&& os.ModePerm = _
  rw [(os.forced_kind _ os.ModeDir (by decide) (by decide) (by decide)).2.2, h1]

/-- The precedence rule holds for the declaration built by `Sym`. -/
theorem Sym_followsPrecedence (relPath linkTarget : String) (C H E : List attr.Attribute) :
    followsPrecedence H Sym.fileSpecificDefaults E C
      (Sym.symlink relPath linkTarget C H E).Meta := by
  obtain ⟨h1, h2, h3, h4, h5⟩ := Populate_precedence relPath H Sym.fileSpecificDefaults E C
  rw [(Sym_symlink_eq relPath linkTarget C H E).1]
  refine ⟨?_, h2, h3, h4, h5⟩
  show ((_ &&& os.notModeType) ||| os.ModeSymlink) &&& os.ModePerm = _
  rw [(os.forced_kind _ os.ModeSymlink (by decide) (by decide) (by decide)).2.2, h1]

/-- C22. For each of `Reg`, `Dir`, `Sym`: the common attributes of the declaration are those
of `Populate` applied to `H ++ kind defaults ++ E ++ C`, with the type bits of the mode then
forced to the kind; so permission bits, uid, gid, accessed and modified time (and `Size`,
`Seed` for `Reg`) each come from `C` if `C` has the attribute, else from `E`, else from the
kind defaults, else from `H`. -/
theorem constructors_follow_precedence (relPath linkTarget : String)
    (H E C : List attr.Attribute) :
    (Reg relPath C H E = some (Declaration.Regular (Reg.regular relPath C H E)) ∧
     (Reg.regular relPath C H E).Meta =
      { ({} : file.Meta).Populate relPath (H ++ (Reg.fileSpecificDefaults ++ (E ++ C))) with
        Mode := (({} : file.Meta).Populate relPath
          (H ++ (Reg.fileSpecificDefaults ++ (E ++ C)))).Mode &&& os.notModeType } ∧
     followsPrecedence H Reg.fileSpecificDefaults E C (Reg.regular relPath C H E).Meta ∧
     (Reg.regular relPath C H E).Size
      = (attr.precedence attr.Attribute.asSize H Reg.fileSpecificDefaults E C).getD 0 ∧
     (Reg.regular relPath C H E).Seed
      = (attr.precedence attr.Attribute.asSeed H Reg.fileSpecificDefaults E C).getD 0) ∧
    (Dir relPath C H E = some (Declaration.Directory (Dir.directory relPath C H E)) ∧
     (Dir.directory relPath C H E).Meta =
      { ({} : file.Meta).Populate relPath (H ++ (Dir.fileSpecificDefaults ++ (E ++ C))) with
        Mode := ((({} : file.Meta).Populate relPath
          (H ++ (Dir.fileSpecificDefaults ++ (E ++ C)))).Mode &&& os.notModeType)
            ||| os.ModeDir } ∧
     followsPrecedence H Dir.fileSpecificDefaults E C (Dir.directory relPath C H E).Meta) ∧
    (Sym relPath linkTarget C H E
      = some (Declaration.Symlink (Sym.symlink relPath linkTarget C H E)) ∧
     (Sym.symlink relPath linkTarget C H E).Meta =
      { ({} : file.Meta).Populate relPath (H ++ (Sym.fileSpecificDefaults ++ (E ++ C))) with
        Mode := ((({} : file.Meta).Populate relPath
          (H ++ (Sym.fileSpecificDefaults ++ (E ++ C)))).Mode &&& os.notModeType)
            ||| os.ModeSymlink } ∧
     followsPrecedence H Sym.fileSpecificDefaults E C
      (Sym.symlink relPath linkTarget C H E).Meta) := by
  obtain ⟨hm, hsize, hseed⟩ := Reg_regular_eq relPath C H E
  refine ⟨⟨rfl, hm, Reg_followsPrecedence relPath C H E, ?_, ?_⟩,
    ⟨rfl, Dir_directory_eq relPath C H E, Dir_followsPrecedence relPath C H E⟩,
    ⟨rfl, (Sym_symlink_eq relPath linkTarget C H E).1,
      Sym_followsPrecedence relPath linkTarget C H E⟩⟩
  · rw [hsize, attr.lastOf_combined]
  · rw [hseed, attr.lastOf_combined]

/-- The mode of the populated zero record is the last mode value of the combined list. -/
theorem Populate_Mode (relPath : String) (A : List attr.Attribute) :
    (({} : file.Meta).Populate relPath A).Mode
      = (attr.lastOf attr.Attribute.asFileMode A).getD 0 :=
  (file.foldl_populateStep A ({} : file.Meta)).2.1

/-- C23. Whatever type bits the mode values of `H`, `E`, `C` carry: the declaration built by
`Dir` has type bits exactly `ModeDir`, the one built by `Sym` exactly `ModeSymlink`, the
one built by `Reg` none; and in all three the bits outside the type mask are those of the
last mode value of the combined list (which exists for `Reg` and `Dir`; the zero mode
stands in when the list of `Sym` has none). -/
theorem constructors_force_type_bits (relPath linkTarget : String)
    (H E C : List attr.Attribute) :
    ((Dir.directory relPath C H E).Meta.Mode &&& os.ModeType) = os.ModeDir ∧
    ((Sym.symlink relPath linkTarget C H E).Meta.Mode &&& os.ModeType) = os.ModeSymlink ∧
    ((Reg.regular relPath C H E).Meta.Mode &&& os.ModeType) = 0 ∧
    ((Reg.regular relPath C H E).Meta.Mode &&& os.notModeType)
      = ((attr.lastOf attr.Attribute.asFileMode
          (H ++ (Reg.fileSpecificDefaults ++ (E ++ C)))).getD 0 &&& os.notModeType) ∧
    ((Dir.directory relPath C H E).Meta.Mode &&& os.notModeType)
      = ((attr.lastOf attr.Attribute.asFileMode
          (H ++ (Dir.fileSpecificDefaults ++ (E ++ C)))).getD 0 &&& os.notModeType) ∧
    ((Sym.symlink relPath linkTarget C H E).Meta.Mode &&& os.notModeType)
      = ((attr.lastOf attr.Attribute.asFileMode
          (H ++ (Sym.fileSpecificDefaults ++ (E ++ C)))).getD 0 &&& os.notModeType) ∧
    (∃ v, attr.lastOf attr.Attribute.asFileMode
        (H ++ (Reg.fileSpecificDefaults ++ (E ++ C))) = some v) ∧
    (∃ v, attr.lastOf attr.Attribute.asFileMode
        (H ++ (Dir.fileSpecificDefaults ++ (E ++ C))) = some v) := by
  have hdir := os.forced_kind
    (({} : file.Meta).Populate relPath (H ++ (Dir.fileSpecificDefaults ++ (E ++ C)))).Mode
    os.ModeDir (by decide) (by decide) (by decide)
  have hsym := os.forced_kind
    (({} : file.Meta).Populate relPath (H ++ (Sym.fileSpecificDefaults ++ (E ++ C)))).Mode
    os.ModeSymlink (by decide) (by decide) (by decide)
  have hlast : ∀ (D : List attr.Attribute) (v : os.FileMode),
      attr.lastOf attr.Attribute.asFileMode D = some v →
      ∃ w, attr.lastOf attr.Attribute.asFileMode (H ++ (D ++ (E ++ C))) = some w := by
    intro D v hD
    rw [attr.lastOf_combined, attr.precedence, hD]
    cases attr.lastOf attr.Attribute.asFileMode C <;>
      cases attr.lastOf attr.Attribute.asFileMode E <;> exact ⟨_, rfl⟩
  refine ⟨?_, ?_, ?_, ?_, ?_, ?_, hlast _ (attr.ModePerm 0o666) rfl,
    hlast _ (attr.ModePerm 0o777) rfl⟩
  · rw [Dir_directory_eq]; exact hdir.1
  · rw [(Sym_symlink_eq relPath linkTarget C H E).1]; exact hsym.1
  · rw [(Reg_regular_eq relPath C H E).1]; exact os.cleared_type_bits _
  · rw [(Reg_regular_eq relPath C H E).1, ← Populate_Mode relPath]
    exact os.cleared_nontype_bits _
  · rw [Dir_directory_eq, ← Populate_Mode relPath]; exact hdir.2.1
  · rw [(Sym_symlink_eq relPath linkTarget C H E).1, ← Populate_Mode relPath]; exact hsym.2.1

end defs

namespace defs

/-- With nothing accepted in `E` and `C`, the value comes from the kind defaults, whatever
`H` holds. -/
theorem precedence_of_default {α : Type} (sel : attr.Attribute → Option α)
    (H D E C : List attr.Attribute) (v : α) (hD : attr.lastOf sel D = some v)
    (hE : ∀ a ∈ E, sel a = none) (hC : ∀ a ∈ C, sel a = none) :
    attr.precedence sel H D E C = some v := by
  rw [attr.precedence, attr.lastOf_eq_none sel C hC, attr.lastOf_eq_none sel E hE, hD]
  rfl

/-- C24. When neither `E` nor `C` holds a mode value, `Reg` yields permission bits `0666`
and `Dir` yields `0777`; when neither holds a `Size`, `Reg` yields `Size` 20; when no list
holds a `Seed`, `Reg` yields `Seed` 0. Nothing is assumed about the modes and sizes in `H`. -/
theorem kind_defaults_apply (relPath : String) (H E C : List attr.Attribute) :
    ((∀ a ∈ E, a.asFileMode = none) → (∀ a ∈ C, a.asFileMode = none) →
      ((Reg.regular relPath C H E).Meta.Mode &&& os.ModePerm) = 0o666 ∧
      ((Dir.directory relPath C H E).Meta.Mode &&& os.ModePerm) = 0o777) ∧
    ((∀ a ∈ E, a.asSize = none) → (∀ a ∈ C, a.asSize = none) →
      (Reg.regular relPath C H E).Size = 20) ∧
    ((∀ a ∈ H, a.asSeed = none) → (∀ a ∈ E, a.asSeed = none) → (∀ a ∈ C, a.asSeed = none) →
      (Reg.regular relPath C H E).Seed = 0) := by
  refine ⟨?_, ?_, ?_⟩
  · intro hE hC
    have hreg := (Reg_followsPrecedence relPath C H E).1
    have hdir := (Dir_followsPrecedence relPath C H E).1
    rw [precedence_of_default attr.Attribute.asFileMode H Reg.fileSpecificDefaults E C
      (attr.ModePerm 0o666) rfl hE hC] at hreg
    rw [precedence_of_default attr.Attribute.asFileMode H Dir.fileSpecificDefaults E C
      (attr.ModePerm 0o777) rfl hE hC] at hdir
    exact ⟨hreg.trans (by decide), hdir.trans (by decide)⟩
  · intro hE hC
    rw [(Reg_regular_eq relPath C H E).2.1, attr.lastOf_combined,
      precedence_of_default attr.Attribute.asSize H Reg.fileSpecificDefaults E C 20 rfl hE hC]
    rfl
  · intro hH hE hC
    rw [(Reg_regular_eq relPath C H E).2.2, attr.lastOf_combined, attr.precedence,
      attr.lastOf_eq_none _ C hC, attr.lastOf_eq_none _ E hE, attr.lastOf_eq_none _ H hH]
    rfl

/-- C24, instance: hardcoded defaults that carry a mode `0700` and a `Size` 99 do not
displace the kind defaults. -/
theorem kind_defaults_apply_witness :
    ((Reg.regular "a/f" [] [attr.Attribute.FileMode 0o700, attr.Attribute.Size 99]
        [attr.Attribute.Uid 7]).Meta.Mode &&& os.ModePerm) = 0o666 ∧
    (Reg.regular "a/f" [] [attr.Attribute.FileMode 0o700, attr.Attribute.Size 99]
        [attr.Attribute.Uid 7]).Size = 20 :=
  ⟨((kind_defaults_apply "a/f" [attr.Attribute.FileMode 0o700, attr.Attribute.Size 99]
        [attr.Attribute.Uid 7] []).1 (by decide) (by decide)).1,
   (kind_defaults_apply "a/f" [attr.Attribute.FileMode 0o700, attr.Attribute.Size 99]
        [attr.Attribute.Uid 7] []).2.1 (by decide) (by decide)⟩

/-- A list without instructions contributes no instruction. -/
theorem filterMap_asInstruction_nil (A : List attr.Attribute)
    (h : ∀ a ∈ A, a.asInstruction = none) :
    A.filterMap attr.Attribute.asInstruction = [] := by
  induction A with
  | nil => rfl
  | cons a rest ih =>
    rw [List.filterMap_cons, h a (List.mem_cons_self a rest)]
    exact ih (fun x hx => h x (List.mem_cons_of_mem a hx))

/-- The instruction list after `Populate`. -/
theorem Populate_instructions (m : file.Meta) (relPath : String) (A : List attr.Attribute) :
    (m.Populate relPath A).VerificationInstructions
      = m.VerificationInstructions ++ A.filterMap attr.Attribute.asInstruction :=
  (file.foldl_populateStep A m).2.2.2.2.2.2

/-- The instruction list of a symlink declaration: the instructions of `H`, the three kind
defaults, then the instructions of `E` and of `C`. -/
theorem Sym_instructions (relPath linkTarget : String) (C H E : List attr.Attribute) :
    (Sym.symlink relPath linkTarget C H E).Meta.VerificationInstructions
      = H.filterMap attr.Attribute.asInstruction
        ++ ([verify.ModePerm false, verify.ModifiedTime false, verify.AccessedTime false]
          ++ (E.filterMap attr.Attribute.asInstruction
            ++ C.filterMap attr.Attribute.asInstruction)) := by
  rw [(Sym_symlink_eq relPath linkTarget C H E).1]
  show (({} : file.Meta).Populate relPath _).VerificationInstructions = _
  rw [Populate_instructions]
  simp only [List.filterMap_append]
  rfl

/-- C25. When none of `H`, `E`, `C` holds a verification instruction, the instruction list
of the declaration built by `Sym` is exactly `[mode-perm=false, modified=false,
accessed=false]`; `Should` is `false` for mode-perm, modified and accessed and `true` for
uid, gid and symlink-target. -/
theorem Sym_default_instructions (relPath linkTarget : String) (H E C : List attr.Attribute)
    (hH : ∀ a ∈ H, a.asInstruction = none) (hE : ∀ a ∈ E, a.asInstruction = none)
    (hC : ∀ a ∈ C, a.asInstruction = none) :
    (Sym.symlink relPath linkTarget C H E).Meta.VerificationInstructions
      = [verify.ModePerm false, verify.ModifiedTime false, verify.AccessedTime false] ∧
    (Sym.symlink relPath linkTarget C H E).Meta.Should (verify.ModePerm true) = false ∧
    (Sym.symlink relPath linkTarget C H E).Meta.Should (verify.ModifiedTime true) = false ∧
    (Sym.symlink relPath linkTarget C H E).Meta.Should (verify.AccessedTime true) = false ∧
    (Sym.symlink relPath linkTarget C H E).Meta.Should (verify.Uid true) = true ∧
    (Sym.symlink relPath linkTarget C H E).Meta.Should (verify.Gid true) = true ∧
    (Sym.symlink relPath linkTarget C H E).Meta.Should (verify.SymlinkTarget true) = true := by
  have hVI : (Sym.symlink relPath linkTarget C H E).Meta.VerificationInstructions
      = [verify.ModePerm false, verify.ModifiedTime false, verify.AccessedTime false] := by
    rw [Sym_instructions, filterMap_asInstruction_nil H hH, filterMap_asInstruction_nil E hE,
      filterMap_asInstruction_nil C hC]
    rfl
  refine ⟨hVI, ?_, ?_, ?_, ?_, ?_, ?_⟩ <;>
    · unfold file.Meta.Should
      rw [hVI]
      decide

/-- C25, instance: a factory with hardcoded ownership and times and extra mode and
ownership, no instruction anywhere. -/
theorem Sym_default_instructions_witness :
    (∀ a ∈ sampleHardcoded, a.asInstruction = none) ∧
    (Sym.symlink "a/l" "target" [] sampleHardcoded sampleExtra).Meta.VerificationInstructions
      = [verify.ModePerm false, verify.ModifiedTime false, verify.AccessedTime false] :=
  ⟨by decide,
   (Sym_default_instructions "a/l" "target" sampleHardcoded sampleExtra []
      (by decide) (by decide) (by decide)).1⟩

end defs

/-! ## One factory, one set of defaults -/

namespace filefactory

/-- The loop of `FilesToCreate` on constructors that all return a declaration: no panic, and
the declarations are appended in order. -/
theorem FilesToCreate_loop_ok {δ : Type} (ff : FileFactory)
    (constructors : List (DefinitionConstructor δ)) (files : List δ)
    (h : ∀ c ∈ constructors,
      ∃ d, c ff.hardcodedFileFactoryDefaults ff.extraFileFactoryDefaults = some d) :
    FileFactory.FilesToCreate.loop ff constructors files
      = Except.ok (files ++ constructors.filterMap
          (fun c => c ff.hardcodedFileFactoryDefaults ff.extraFileFactoryDefaults)) := by
  induction constructors generalizing files with
  | nil => simp [FileFactory.FilesToCreate.loop]
  | cons c rest ih =>
    obtain ⟨d, hd⟩ := h c (List.mem_cons_self c rest)
    simp only [FileFactory.FilesToCreate.loop, hd]
    rw [ih (files ++ [d]) (fun x hx => h x (List.mem_cons_of_mem c hx)),
      List.filterMap_cons, hd, List.append_assoc]
    rfl

end filefactory

namespace defs

/-- The factory-wide value of an attribute that neither the kind defaults nor the call site
set: from `E` if `E` has it, else from `H`. -/
theorem precedence_of_factory {α : Type} (sel : attr.Attribute → Option α)
    (H D E C : List attr.Attribute) (hD : ∀ a ∈ D, sel a = none)
    (hC : ∀ a ∈ C, sel a = none) :
    attr.precedence sel H D E C = (attr.lastOf sel E).or (attr.lastOf sel H) := by
  rw [attr.precedence, attr.lastOf_eq_none sel C hC, attr.lastOf_eq_none sel D hD]
  cases attr.lastOf sel E <;> rfl

/-- Ownership and times of a declaration whose kind defaults `D` and call-site list `C` set
none of them. -/
theorem factory_values (H D E C : List attr.Attribute) (m : file.Meta)
    (hm : followsPrecedence H D E C m) (hD : noOwnershipOrTimes D)
    (hC : noOwnershipOrTimes C) :
    m.Accessed = ((attr.lastOf attr.Attribute.asAccessedTime E).or
        (attr.lastOf attr.Attribute.asAccessedTime H)).getD ⟨0, 0, ""⟩ ∧
    m.Modified = ((attr.lastOf attr.Attribute.asModifiedTime E).or
        (attr.lastOf attr.Attribute.asModifiedTime H)).getD ⟨0, 0, ""⟩ ∧
    m.Uid = ((attr.lastOf attr.Attribute.asUid E).or
        (attr.lastOf attr.Attribute.asUid H)).getD 0 ∧
    m.Gid = ((attr.lastOf attr.Attribute.asGid E).or
        (attr.lastOf attr.Attribute.asGid H)).getD 0 := by
  obtain ⟨_, hu, hg, ha, hmo⟩ := hm
  rw [ha, hmo, hu, hg,
    precedence_of_factory _ H D E C (fun a h => (hD a h).1) (fun a h => (hC a h).1),
    precedence_of_factory _ H D E C (fun a h => (hD a h).2.1) (fun a h => (hC a h).2.1),
    precedence_of_factory _ H D E C (fun a h => (hD a h).2.2.1) (fun a h => (hC a h).2.2.1),
    precedence_of_factory _ H D E C (fun a h => (hD a h).2.2.2) (fun a h => (hC a h).2.2.2)]
  exact ⟨rfl, rfl, rfl, rfl⟩

/-- A kind constructor returns a declaration whose ownership and times are the factory-wide
values. -/
theorem kindConstructor_values (c : filefactory.DefinitionConstructor Declaration)
    (hc : kindConstructor c) (H E : List attr.Attribute) :
    ∃ d, c H E = some d ∧
      d.Meta.Accessed = ((attr.lastOf attr.Attribute.asAccessedTime E).or
        (attr.lastOf attr.Attribute.asAccessedTime H)).getD ⟨0, 0, ""⟩ ∧
      d.Meta.Modified = ((attr.lastOf attr.Attribute.asModifiedTime E).or
        (attr.lastOf attr.Attribute.asModifiedTime H)).getD ⟨0, 0, ""⟩ ∧
      d.Meta.Uid = ((attr.lastOf attr.Attribute.asUid E).or
        (attr.lastOf attr.Attribute.asUid H)).getD 0 ∧
      d.Meta.Gid = ((attr.lastOf attr.Attribute.asGid E).or
        (attr.lastOf attr.Attribute.asGid H)).getD 0 := by
  obtain ⟨relPath, C, hC, hkind⟩ := hc
  rcases hkind with rfl | rfl | ⟨linkTarget, rfl⟩
  · exact ⟨_, rfl, factory_values H Reg.fileSpecificDefaults E C _
      (Reg_followsPrecedence relPath C H E) (by decide) hC⟩
  · exact ⟨_, rfl, factory_values H Dir.fileSpecificDefaults E C _
      (Dir_followsPrecedence relPath C H E) (by decide) hC⟩
  · exact ⟨_, rfl, factory_values H Sym.fileSpecificDefaults E C _
      (Sym_followsPrecedence relPath linkTarget C H E) (by decide) hC⟩

/-- Every declaration returned for a list of kind constructors carries the factory-wide
ownership and times. -/
theorem FilesToCreate_values (ff : filefactory.FileFactory)
    (cs : List (filefactory.DefinitionConstructor Declaration))
    (h : ∀ c ∈ cs, kindConstructor c) :
    ∃ fs, ff.FilesToCreate cs = Except.ok fs ∧ fs.length = cs.length ∧
      ∀ d ∈ fs,
        d.Meta.Accessed = ((attr.lastOf attr.Attribute.asAccessedTime
            ff.extraFileFactoryDefaults).or (attr.lastOf attr.Attribute.asAccessedTime
            ff.hardcodedFileFactoryDefaults)).getD ⟨0, 0, ""⟩ ∧
        d.Meta.Modified = ((attr.lastOf attr.Attribute.asModifiedTime
            ff.extraFileFactoryDefaults).or (attr.lastOf attr.Attribute.asModifiedTime
            ff.hardcodedFileFactoryDefaults)).getD ⟨0, 0, ""⟩ ∧
        d.Meta.Uid = ((attr.lastOf attr.Attribute.asUid ff.extraFileFactoryDefaults).or
            (attr.lastOf attr.Attribute.asUid ff.hardcodedFileFactoryDefaults)).getD 0 ∧
        d.Meta.Gid = ((attr.lastOf attr.Attribute.asGid ff.extraFileFactoryDefaults).or
            (attr.lastOf attr.Attribute.asGid ff.hardcodedFileFactoryDefaults)).getD 0 := by
  have hsome : ∀ c ∈ cs,
      ∃ d, c ff.hardcodedFileFactoryDefaults ff.extraFileFactoryDefaults = some d := by
    intro c hc
    obtain ⟨d, hd, _⟩ := kindConstructor_values c (h c hc)
      ff.hardcodedFileFactoryDefaults ff.extraFileFactoryDefaults
    exact ⟨d, hd⟩
  refine ⟨_, filefactory.FilesToCreate_loop_ok ff cs [] hsome, ?_, ?_⟩
  · rw [List.nil_append]
    clear h
    induction cs with
    | nil => rfl
    | cons c rest ih =>
      obtain ⟨d, hd⟩ := hsome c (List.mem_cons_self c rest)
      rw [List.filterMap_cons, hd]
      simp only [List.length_cons]
      rw [ih (fun x hx => hsome x (List.mem_cons_of_mem c hx))]
  · intro d hd
    rw [List.nil_append, List.mem_filterMap] at hd
    obtain ⟨c, hc, hcd⟩ := hd
    obtain ⟨d', hd', hvals⟩ := kindConstructor_values c (h c hc)
      ff.hardcodedFileFactoryDefaults ff.extraFileFactoryDefaults
    rw [hd'] at hcd
    cases hcd
    exact hvals

/-- C26. For one factory and two lists of constructors obtained from `Reg`, `Dir`, `Sym`
whose call-site attributes hold no accessed time, modified time, uid or gid:
`FilesToCreate` and `FilesToExpect` return (one declaration per constructor, without
panic), and any declaration of the one and any declaration of the other have the same
`Accessed`, `Modified`, `Uid` and `Gid`. `FilesToExpect` is `FilesToCreate`. -/
theorem same_factory_same_defaults (ff : filefactory.FileFactory)
    (cs1 cs2 : List (filefactory.DefinitionConstructor Declaration))
    (h1 : ∀ c ∈ cs1, kindConstructor c) (h2 : ∀ c ∈ cs2, kindConstructor c) :
    ff.FilesToExpect cs2 = ff.FilesToCreate cs2 ∧
    ∃ fs1 fs2, ff.FilesToCreate cs1 = Except.ok fs1 ∧ ff.FilesToExpect cs2 = Except.ok fs2 ∧
      fs1.length = cs1.length ∧ fs2.length = cs2.length ∧
      ∀ d1 ∈ fs1, ∀ d2 ∈ fs2,
        d1.Meta.Accessed = d2.Meta.Accessed ∧ d1.Meta.Modified = d2.Meta.Modified ∧
        d1.Meta.Uid = d2.Meta.Uid ∧ d1.Meta.Gid = d2.Meta.Gid := by
  obtain ⟨fs1, hfs1, hlen1, hv1⟩ := FilesToCreate_values ff cs1 h1
  obtain ⟨fs2, hfs2, hlen2, hv2⟩ := FilesToCreate_values ff cs2 h2
  refine ⟨rfl, fs1, fs2, hfs1, hfs2, hlen1, hlen2, ?_⟩
  intro d1 hd1 d2 hd2
  obtain ⟨a1, m1, u1, g1⟩ := hv1 d1 hd1
  obtain ⟨a2, m2, u2, g2⟩ := hv2 d2 hd2
  exact ⟨a1.trans a2.symm, m1.trans m2.symm, u1.trans u2.symm, g1.trans g2.symm⟩

/-- C26, instance: a regular file declared for creation and a directory declared for
verification with another mode, from the same factory. -/
theorem same_factory_same_defaults_witness :
    ∃ fs1 fs2, sampleFactory.FilesToCreate [Reg "a/f" []] = Except.ok fs1 ∧
      sampleFactory.FilesToExpect [Dir "a/d" [attr.Attribute.FileMode 0o700]]
        = Except.ok fs2 ∧
      fs1.length = 1 ∧ fs2.length = 1 ∧
      ∀ d1 ∈ fs1, ∀ d2 ∈ fs2,
        d1.Meta.Accessed = d2.Meta.Accessed ∧ d1.Meta.Modified = d2.Meta.Modified ∧
        d1.Meta.Uid = d2.Meta.Uid ∧ d1.Meta.Gid = d2.Meta.Gid :=
  (same_factory_same_defaults sampleFactory [Reg "a/f" []]
    [Dir "a/d" [attr.Attribute.FileMode 0o700]]
    (fun c hc => ⟨"a/f", [], by decide, Or.inl (List.mem_singleton.mp hc)⟩)
    (fun c hc => ⟨"a/d", [attr.Attribute.FileMode 0o700], by decide,
      Or.inr (Or.inl (List.mem_singleton.mp hc))⟩)).2

end defs

/-! ## `Meta.AlignAttributes` -/

namespace file

/-- `AlignAttributes` once the path is resolved: the three guarded setter calls. -/
theorem AlignAttributes_of_path (impl : Implementation) (lib : StdLib) (m : Meta)
    (ownership mode times : Bool) (optionalRoot : List String) (path : String)
    (hpath : m.alignPath lib optionalRoot = Except.ok path) :
    m.AlignAttributes impl lib ownership mode times optionalRoot =
      match (if ownership then
          (impl.OsLchown path (Int.ofNat m.Uid) (Int.ofNat m.Gid),
            [SetterCall.OsLchown path (Int.ofNat m.Uid) (Int.ofNat m.Gid)])
        else (none, [])) with
      | (some err, calls) => (some err, calls)
      | (none, calls) =>
        match (if mode && !m.isSymlink then
            (impl.OsChmod path m.Mode, calls ++ [SetterCall.OsChmod path m.Mode])
          else (none, calls)) with
        | (some err, calls) => (some err, calls)
        | (none, calls) =>
          match (if times && !m.isSymlink then
              (impl.OsChtimes path m.Accessed m.Modified,
                calls ++ [SetterCall.OsChtimes path m.Accessed m.Modified])
            else (none, calls)) with
          | (some err, calls) => (some err, calls)
          | (none, calls) => (none, calls) := by
  unfold Meta.AlignAttributes
  rw [hpath]

/-- C27. If `m.Path` is absolute and the joined optional root is not empty,
`AlignAttributes` returns the error "root cannot be used when meta path is absolute"; if
`m.Path` is relative and the joined optional root is empty, it returns "relative meta path
requires root"; in both cases no setter is invoked, whatever the three flags are. -/
theorem AlignAttributes_path_errors (impl : Implementation) (lib : StdLib) (m : Meta)
    (ownership mode times : Bool) (optionalRoot : List String) :
    (lib.IsAbs m.Path = true → lib.JoinAll optionalRoot ≠ "" →
      m.AlignAttributes impl lib ownership mode times optionalRoot
        = (some (GoError.plain ⟨"root cannot be used when meta path is absolute"⟩), [])) ∧
    (lib.IsAbs m.Path = false → lib.JoinAll optionalRoot = "" →
      m.AlignAttributes impl lib ownership mode times optionalRoot
        = (some (GoError.plain ⟨"relative meta path requires root"⟩), [])) := by
  refine ⟨?_, ?_⟩
  · intro habs hroot
    have hpath : m.alignPath lib optionalRoot = Except.error
        (GoError.plain ⟨ErrorMessageRootCannotBeUsedWithAbsoluteMetaPath⟩) := by
      unfold Meta.alignPath
      rw [if_pos habs, if_pos hroot]
    unfold Meta.AlignAttributes
    rw [hpath]
    rfl
  · intro hrel hroot
    have hpath : m.alignPath lib optionalRoot = Except.error
        (GoError.plain ⟨ErrorMessageRelativePathHasToBeUsedWithRoot⟩) := by
      unfold Meta.alignPath
      rw [if_neg (by simp [hrel]), if_pos hroot]
    unfold Meta.AlignAttributes
    rw [hpath]
    rfl

/-- C27, instance: the two path tests, with setters that would fail if asked. -/
theorem AlignAttributes_path_errors_witness :
    ({ Path := "/when/Meta/path/is/absolute..." } : Meta).AlignAttributes
        (mockSetters (some (GoError.plain ⟨"an error"⟩)) none none) mockLib true true true
        ["...anything/here/will/upset/it"]
      = (some (GoError.plain ⟨"root cannot be used when meta path is absolute"⟩), []) ∧
    ({ Path := "a/relative/path" } : Meta).AlignAttributes
        (mockSetters (some (GoError.plain ⟨"an error"⟩)) none none) mockLib true true true []
      = (some (GoError.plain ⟨"relative meta path requires root"⟩), []) :=
  ⟨(AlignAttributes_path_errors (mockSetters (some (GoError.plain ⟨"an error"⟩)) none none)
      mockLib { Path := "/when/Meta/path/is/absolute..." } true true true
      ["...anything/here/will/upset/it"]).1 (by decide) (by decide),
   (AlignAttributes_path_errors (mockSetters (some (GoError.plain ⟨"an error"⟩)) none none)
      mockLib { Path := "a/relative/path" } true true true []).2 (by decide) (by decide)⟩

/-- C28. With a valid path and root combination (the path resolves to `path`: `m.Path`
itself when absolute without root, the root joined with `m.Path` when relative with a
root), and when the setters that get invoked succeed: `AlignAttributes` returns `nil`
after invoking, in this order and each on `path`, the ownership setter with `(Uid, Gid)`
iff the ownership flag is set, the mode setter with `Mode` iff the mode flag is set and
`m` is not a symlink, and the time setter with `(Accessed, Modified)` iff the times flag is
set and `m` is not a symlink. -/
theorem AlignAttributes_success (impl : Implementation) (lib : StdLib) (m : Meta)
    (ownership mode times : Bool) (optionalRoot : List String) (path : String)
    (hpath : m.alignPath lib optionalRoot = Except.ok path)
    (h1 : ownership = true →
      impl.OsLchown path (Int.ofNat m.Uid) (Int.ofNat m.Gid) = none)
    (h2 : mode = true → m.isSymlink = false → impl.OsChmod path m.Mode = none)
    (h3 : times = true → m.isSymlink = false →
      impl.OsChtimes path m.Accessed m.Modified = none) :
    m.AlignAttributes impl lib ownership mode times optionalRoot
      = (none,
         (if ownership = true then
            [SetterCall.OsLchown path (Int.ofNat m.Uid) (Int.ofNat m.Gid)] else [])
         ++ (if mode = true ∧ m.isSymlink = false then
            [SetterCall.OsChmod path m.Mode] else [])
         ++ (if times = true ∧ m.isSymlink = false then
            [SetterCall.OsChtimes path m.Accessed m.Modified] else [])) ∧
    (lib.IsAbs m.Path = true → path = m.Path) ∧
    (lib.IsAbs m.Path = false → path = lib.Join (lib.JoinAll optionalRoot) m.Path) := by
  refine ⟨?_, ?_, ?_⟩
  · rw [AlignAttributes_of_path impl lib m ownership mode times optionalRoot path hpath]
    cases ownership <;> cases mode <;> cases times <;> cases hs : m.isSymlink <;>
      simp_all
  · intro habs
    unfold Meta.alignPath at hpath
    rw [if_pos habs] at hpath
    by_cases hroot : lib.JoinAll optionalRoot ≠ ""
    · rw [if_pos hroot] at hpath; cases hpath
    · rw [if_neg hroot] at hpath
      cases hpath
      rfl
  · intro hrel
    unfold Meta.alignPath at hpath
    rw [if_neg (by simp [hrel])] at hpath
    by_cases hroot : lib.JoinAll optionalRoot = ""
    · rw [if_pos hroot] at hpath; cases hpath
    · rw [if_neg hroot] at hpath
      cases hpath
      rfl

end file

namespace file

/-- C28, instance: for a symlink with all three flags set only the ownership setter is
invoked, on the root joined with the path. -/
theorem AlignAttributes_success_witness :
    alignSymlink.alignPath mockLib ["/a/root"] = Except.ok "/a/root/original path" ∧
    alignSymlink.AlignAttributes (mockSetters none none none) mockLib true true true
        ["/a/root"]
      = (none, [SetterCall.OsLchown "/a/root/original path" 1883 980]) :=
  ⟨rfl,
   ((AlignAttributes_success (mockSetters none none none) mockLib alignSymlink true true true
      ["/a/root"] "/a/root/original path" rfl (fun _ => rfl) (fun _ _ => rfl)
      (fun _ _ => rfl)).1).trans (by decide)⟩

/-- C29. With a valid path and root combination, the first setter that fails ends
`AlignAttributes`, which returns the error of that setter: after a failing ownership
setter neither the mode nor the time setter is invoked, and after a failing mode setter
the time setter is not invoked. -/
theorem AlignAttributes_first_failure (impl : Implementation) (lib : StdLib) (m : Meta)
    (ownership mode times : Bool) (optionalRoot : List String) (path : String)
    (e : GoError) (hpath : m.alignPath lib optionalRoot = Except.ok path) :
    (ownership = true →
      impl.OsLchown path (Int.ofNat m.Uid) (Int.ofNat m.Gid) = some e →
      m.AlignAttributes impl lib ownership mode times optionalRoot
        = (some e, [SetterCall.OsLchown path (Int.ofNat m.Uid) (Int.ofNat m.Gid)])) ∧
    ((ownership = true → impl.OsLchown path (Int.ofNat m.Uid) (Int.ofNat m.Gid) = none) →
      mode = true → m.isSymlink = false → impl.OsChmod path m.Mode = some e →
      m.AlignAttributes impl lib ownership mode times optionalRoot
        = (some e,
           (if ownership = true then
              [SetterCall.OsLchown path (Int.ofNat m.Uid) (Int.ofNat m.Gid)] else [])
           ++ [SetterCall.OsChmod path m.Mode])) ∧
    ((ownership = true → impl.OsLchown path (Int.ofNat m.Uid) (Int.ofNat m.Gid) = none) →
      (mode = true → impl.OsChmod path m.Mode = none) →
      times = true → m.isSymlink = false →
      impl.OsChtimes path m.Accessed m.Modified = some e →
      m.AlignAttributes impl lib ownership mode times optionalRoot
        = (some e,
           (if ownership = true then
              [SetterCall.OsLchown path (Int.ofNat m.Uid) (Int.ofNat m.Gid)] else [])
           ++ (if mode = true then [SetterCall.OsChmod path m.Mode] else [])
           ++ [SetterCall.OsChtimes path m.Accessed m.Modified])) := by
  rw [AlignAttributes_of_path impl lib m ownership mode times optionalRoot path hpath]
  refine ⟨?_, ?_, ?_⟩
  · intro ho hfail
    rw [ho, if_pos rfl, hfail]
  · intro hown hm hs hfail
    cases ownership <;> simp_all
  · intro hown hmode ht hs hfail
    cases ownership <;> cases mode <;> simp_all

/-- C29, instance: the test "will return immediately with os.Lchown error". -/
theorem AlignAttributes_first_failure_witness :
    alignRegular.alignPath mockLib ["/a/root"] = Except.ok "/a/root/original path" ∧
    alignRegular.AlignAttributes
        (mockSetters (some (GoError.plain ⟨"lchown failed"⟩)) none none) mockLib
        true true true ["/a/root"]
      = (some (GoError.plain ⟨"lchown failed"⟩),
         [SetterCall.OsLchown "/a/root/original path" 1883 980]) :=
  ⟨rfl,
   ((AlignAttributes_first_failure
      (mockSetters (some (GoError.plain ⟨"lchown failed"⟩)) none none) mockLib alignRegular
      true true true ["/a/root"] "/a/root/original path" (GoError.plain ⟨"lchown failed"⟩)
      rfl).1 rfl rfl).trans (by decide)⟩

end file

/-! ## `Regular.Verify`: the short circuits -/

namespace verify

/-- A bit of the union of kinds is set iff it is set in the kind of some triple. -/
theorem kindsUnion_testBit (es : List Error) (i : Nat) :
    (kindsUnion es).testBit i = es.any (fun e => e.FileDifference.testBit i) := by
  induction es with
  | nil => simp [kindsUnion]
  | cons e rest ih =>
    have h : kindsUnion (e :: rest) = kindsUnion [e] ||| kindsUnion rest :=
      kindsUnion_append [e] rest
    have h1 : kindsUnion [e] = e.FileDifference := by simp [kindsUnion]
    rw [h, h1, Nat.testBit_or, ih, List.any_cons]

/-- A triple of kind `2^i` sets bit `i` of the union. -/
theorem kindsUnion_and_two_pow (es : List Error) (i : Nat) (t : Error) (ht : t ∈ es)
    (hk : t.FileDifference = 2 ^ i) : (kindsUnion es &&& 2 ^ i) ≠ 0 := by
  have hbit : (kindsUnion es).testBit i = true := by
    rw [kindsUnion_testBit, List.any_eq_true]
    exact ⟨t, ht, by rw [hk]; exact Nat.testBit_two_pow_self⟩
  rw [diff.and_two_pow_eq, hbit]
  exact Nat.pos_iff_ne_zero.mp (Nat.two_pow_pos i)

end verify

namespace defs

/-- `Regular.Verify` when the generic verification returns an aggregator: the triples are
absorbed into a fresh aggregator, which is returned at once if its union has the
`NotPresentOrNotAccessible` or the `ModeType` bit. -/
theorem Regular_Verify_of_aggregator (impl : Implementation) (lib : file.StdLib)
    (dlib : StdLib) (f : Regular) (root : String) (o : verify.Errors)
    (hmeta : impl.MetaVerify f.Meta root = some (GoError.verification o))
    (hbit : (verify.kindsUnion o.Errors &&& diff.NotPresentOrNotAccessible) ≠ 0 ∨
      (verify.kindsUnion o.Errors &&& diff.ModeType) ≠ 0) :
    Regular.Verify impl lib dlib f root =
      (Except.ok (some (GoError.verification
          { CombinedFileDifference := verify.kindsUnion o.Errors, Errors := o.Errors })),
        [Call.MetaVerify f.Meta root]) := by
  have hmerge : ({} : verify.Errors).Merge (some (GoError.verification o))
      = ({ CombinedFileDifference := verify.kindsUnion o.Errors, Errors := o.Errors }, none) := by
    rw [filefactory.Merge_verification]
    simp
  unfold Regular.Verify
  simp only [hmeta, hmerge]
  by_cases h1 : (verify.kindsUnion o.Errors &&& diff.NotPresentOrNotAccessible) ≠ 0
  · simp [verify.Errors.IsFileNotPresentOrNotAccessible, h1]
  · have h2 : (verify.kindsUnion o.Errors &&& diff.ModeType) ≠ 0 := by
      rcases hbit with h | h
      · exact absurd h h1
      · exact h
    simp [verify.Errors.IsFileNotPresentOrNotAccessible, verify.Errors.IsFileTypeUnexpected,
      h1, h2]

/-- C30. If the generic verification returns an error `e` that is not an aggregator,
`Regular.Verify` returns `e`; if it returns an aggregator holding a triple of kind
`NotPresentOrNotAccessible` or `ModeType`, `Regular.Verify` returns an aggregator with
exactly the triples of that aggregator. In both cases the generic verification is the
only collaborator call: neither `Lstat` nor the file read is invoked, and no `Size` or
`Contents` triple is added. -/
theorem Regular_Verify_short_circuits (impl : Implementation) (lib : file.StdLib)
    (dlib : StdLib) (f : Regular) (root : String) :
    (∀ e : PlainError, impl.MetaVerify f.Meta root = some (GoError.plain e) →
      Regular.Verify impl lib dlib f root
        = (Except.ok (some (GoError.plain e)), [Call.MetaVerify f.Meta root])) ∧
    (∀ o : verify.Errors, impl.MetaVerify f.Meta root = some (GoError.verification o) →
      (∃ t ∈ o.Errors, t.FileDifference = diff.NotPresentOrNotAccessible ∨
        t.FileDifference = diff.ModeType) →
      Regular.Verify impl lib dlib f root
        = (Except.ok (some (GoError.verification
            { CombinedFileDifference := verify.kindsUnion o.Errors, Errors := o.Errors })),
          [Call.MetaVerify f.Meta root])) := by
  refine ⟨?_, ?_⟩
  · intro e hmeta
    unfold Regular.Verify
    simp only [hmeta, verify.Errors.Merge]
  · intro o hmeta ht
    obtain ⟨t, hmem, hkind⟩ := ht
    apply Regular_Verify_of_aggregator impl lib dlib f root o hmeta
    rcases hkind with hk | hk
    · exact Or.inl (verify.kindsUnion_and_two_pow o.Errors 1 t hmem hk)
    · exact Or.inr (verify.kindsUnion_and_two_pow o.Errors 2 t hmem hk)

/-- C30, instance: the generic verification reports a missing path; `Lstat` and the file
read, which would fail, are not asked. -/
theorem Regular_Verify_short_circuits_witness :
    (∃ t ∈ notPresentErrors.Errors, t.FileDifference = diff.NotPresentOrNotAccessible ∨
      t.FileDifference = diff.ModeType) ∧
    Regular.Verify
        (mockImpl (some (GoError.verification notPresentErrors))
          ({ Size := 0 }, some (GoError.plain ⟨"lstat failed"⟩))
          ([], some (GoError.plain ⟨"read failed"⟩)))
        file.mockLib mockLib { Meta := { Path := "f" }, Size := 20 } "r"
      = (Except.ok (some (GoError.verification
          { CombinedFileDifference := diff.NotPresentOrNotAccessible
            Errors := [⟨diff.NotPresentOrNotAccessible, "r/f",
              some ⟨"file does not exist"⟩⟩] })),
         [Call.MetaVerify { Path := "f" } "r"]) :=
  ⟨by decide,
   (Regular_Verify_short_circuits
      (mockImpl (some (GoError.verification notPresentErrors))
        ({ Size := 0 }, some (GoError.plain ⟨"lstat failed"⟩))
        ([], some (GoError.plain ⟨"read failed"⟩)))
      file.mockLib mockLib { Meta := { Path := "f" }, Size := 20 } "r").2
      notPresentErrors rfl (by decide)⟩

end defs

/-! ## `Regular.Verify`: size and contents -/

namespace defs

/-- Slicing a list at a sample length never leaves the list. -/
theorem sliceTo_sampleLength (bs : List Nat) :
    sliceTo bs (sampleLength bs.length) = Except.ok (bs.take (min 50 bs.length)) := by
  unfold sliceTo sampleLength
  rw [if_pos (Nat.min_le_right 50 bs.length)]

/-- The cause of a `Contents` triple is always built, from the two samples. -/
theorem contentsCause_ok (dlib : StdLib) (expectedBytes actualBytes : List Nat) :
    Regular.contentsCause dlib expectedBytes actualBytes =
      Except.ok ⟨"base64(bytes[:<=50]) for expected "
        ++ dlib.EncodeToString (expectedBytes.take (min 50 expectedBytes.length))
        ++ ", actual "
        ++ dlib.EncodeToString (actualBytes.take (min 50 actualBytes.length))⟩ := by
  unfold Regular.contentsCause
  simp only [sliceTo_sampleLength]

/-- C35. For all expected and actual byte sequences, the two slice expressions of the
`Contents` message stay in range (no panic, also for sequences shorter than 50 bytes or
empty); the samples encoded into the message are the prefixes of length
`min(50, length)` of the expected and of the actual bytes, so each is a prefix of its
sequence of at most 50 bytes. -/
theorem contents_samples_in_range (dlib : StdLib) (expectedBytes actualBytes : List Nat) :
    sliceTo expectedBytes (sampleLength expectedBytes.length)
      = Except.ok (expectedBytes.take (min 50 expectedBytes.length)) ∧
    sliceTo actualBytes (sampleLength actualBytes.length)
      = Except.ok (actualBytes.take (min 50 actualBytes.length)) ∧
    Regular.contentsCause dlib expectedBytes actualBytes =
      Except.ok ⟨"base64(bytes[:<=50]) for expected "
        ++ dlib.EncodeToString (expectedBytes.take (min 50 expectedBytes.length))
        ++ ", actual "
        ++ dlib.EncodeToString (actualBytes.take (min 50 actualBytes.length))⟩ ∧
    sampleLength expectedBytes.length ≤ expectedBytes.length ∧
    sampleLength actualBytes.length ≤ actualBytes.length ∧
    (expectedBytes.take (min 50 expectedBytes.length)).length ≤ 50 ∧
    (actualBytes.take (min 50 actualBytes.length)).length ≤ 50 ∧
    (expectedBytes.take (min 50 expectedBytes.length)) <+: expectedBytes ∧
    (actualBytes.take (min 50 actualBytes.length)) <+: actualBytes ∧
    sliceTo [] (sampleLength 0) = Except.ok [] := by
  refine ⟨sliceTo_sampleLength _, sliceTo_sampleLength _, contentsCause_ok _ _ _,
    Nat.min_le_right _ _, Nat.min_le_right _ _, ?_, ?_, List.take_prefix _ _,
    List.take_prefix _ _, rfl⟩
  · rw [List.length_take]
    exact Nat.le_trans (Nat.min_le_left _ _) (Nat.min_le_left _ _)
  · rw [List.length_take]
    exact Nat.le_trans (Nat.min_le_left _ _) (Nat.min_le_left _ _)

/-- Absorbing the result of the generic verification into the fresh aggregator. -/
theorem Merge_generic (err : Option GoError) (h : filefactory.nilOrAggregator err = true) :
    ({} : verify.Errors).Merge err =
      ({ CombinedFileDifference := verify.kindsUnion (genericTriples err)
         Errors := genericTriples err }, none) := by
  match err, h with
  | none, _ => rfl
  | some (GoError.verification o), _ =>
    rw [filefactory.Merge_verification]
    simp [genericTriples]

/-- A union of kinds none of which carries bit `i` does not carry it. -/
theorem kindsUnion_and_two_pow_eq_zero (es : List verify.Error) (i : Nat)
    (h : ∀ t ∈ es, (t.FileDifference &&& 2 ^ i) = 0) :
    (verify.kindsUnion es &&& 2 ^ i) = 0 := by
  have hbit : (verify.kindsUnion es).testBit i = false := by
    rw [verify.kindsUnion_testBit]
    cases hany : es.any (fun e => e.FileDifference.testBit i) with
    | false => rfl
    | true =>
      obtain ⟨t, ht, htb⟩ := List.any_eq_true.mp hany
      have h0 := h t ht
      rw [diff.and_two_pow_eq, htb] at h0
      exact absurd h0 (Nat.pos_iff_ne_zero.mp (Nat.two_pow_pos i))
  rw [diff.and_two_pow_eq, hbit]
  rfl

/-- Triples that carry neither flag do not trigger the two short circuits. -/
theorem no_short_circuit (es : List verify.Error)
    (h : ∀ t ∈ es, carriesNoShortCircuit t = true) :
    verify.Errors.IsFileNotPresentOrNotAccessible
        { CombinedFileDifference := verify.kindsUnion es, Errors := es } = false ∧
    verify.Errors.IsFileTypeUnexpected
        { CombinedFileDifference := verify.kindsUnion es, Errors := es } = false := by
  have h1 : (verify.kindsUnion es &&& diff.NotPresentOrNotAccessible) = 0 :=
    kindsUnion_and_two_pow_eq_zero es 1 (fun t ht => by
      have := h t ht
      simp only [carriesNoShortCircuit, decide_eq_true_eq] at this
      exact this.1)
  have h2 : (verify.kindsUnion es &&& diff.ModeType) = 0 :=
    kindsUnion_and_two_pow_eq_zero es 2 (fun t ht => by
      have := h t ht
      simp only [carriesNoShortCircuit, decide_eq_true_eq] at this
      exact this.2)
  simp [verify.Errors.IsFileNotPresentOrNotAccessible, verify.Errors.IsFileTypeUnexpected,
    h1, h2]

/-- `Regular.Verify` past the short circuits: the size and contents checks run on the
absorbed triples. -/
theorem Regular_Verify_continues (impl : Implementation) (lib : file.StdLib) (dlib : StdLib)
    (f : Regular) (root : String)
    (hmeta : filefactory.nilOrAggregator (impl.MetaVerify f.Meta root) = true)
    (hno : ∀ t ∈ genericTriples (impl.MetaVerify f.Meta root), carriesNoShortCircuit t = true) :
    Regular.Verify impl lib dlib f root =
      Regular.verifySizeAndContents impl lib dlib f root
        { CombinedFileDifference :=
            verify.kindsUnion (genericTriples (impl.MetaVerify f.Meta root))
          Errors := genericTriples (impl.MetaVerify f.Meta root) }
        [Call.MetaVerify f.Meta root] := by
  obtain ⟨h1, h2⟩ := no_short_circuit _ hno
  unfold Regular.Verify
  simp only [Merge_generic _ hmeta, h1, h2]
  rfl

end defs

namespace defs

/-- The size and contents checks when `Lstat` and the file read succeed and the byte
generator does not panic (the declared size is within `0 .. MaxAlloc`): `Lstat` is always invoked, the file read iff the contents are to
be verified, and the aggregator goes through the two gated comparisons. -/
theorem verifySizeAndContents_eq (impl : Implementation) (lib : file.StdLib) (dlib : StdLib)
    (f : Regular) (root : String) (verr : verify.Errors) (calls : List Call)
    (fi : os.FileInfo) (b : List Nat)
    (hl : impl.OsLstat (lib.Join root f.Meta.Path) = (fi, none))
    (hr : impl.IoutilReadFile (lib.Join root f.Meta.Path) = (b, none))
    (hsize : f.Meta.Should (verify.Contents true) = true →
      0 ≤ f.Size ∧ f.Size ≤ (dlib.MaxAlloc : Int)) :
    Regular.verifySizeAndContents impl lib dlib f root verr calls =
      (Except.ok (verify.Errors.MapToNilIfNone
        (if f.Meta.Should (verify.Contents true) = true then
          (if b ≠ dlib.RandRead f.Seed f.Size.toNat then
            (if f.Meta.Should (verify.Size true) = true then
              (if fi.Size ≠ f.Size then
                verr.Add diff.Size (lib.Join root f.Meta.Path)
                  (some ⟨"expected " ++ toString f.Size ++ ", actual " ++ toString fi.Size⟩)
              else verr)
            else verr).Add diff.Contents (lib.Join root f.Meta.Path)
              (some ⟨"base64(bytes[:<=50]) for expected "
                ++ dlib.EncodeToString ((dlib.RandRead f.Seed f.Size.toNat).take
                    (min 50 (dlib.RandRead f.Seed f.Size.toNat).length))
                ++ ", actual " ++ dlib.EncodeToString (b.take (min 50 b.length))⟩)
          else
            (if f.Meta.Should (verify.Size true) = true then
              (if fi.Size ≠ f.Size then
                verr.Add diff.Size (lib.Join root f.Meta.Path)
                  (some ⟨"expected " ++ toString f.Size ++ ", actual " ++ toString fi.Size⟩)
              else verr)
            else verr))
        else
          (if f.Meta.Should (verify.Size true) = true then
            (if fi.Size ≠ f.Size then
              verr.Add diff.Size (lib.Join root f.Meta.Path)
                (some ⟨"expected " ++ toString f.Size ++ ", actual " ++ toString fi.Size⟩)
            else verr)
          else verr))),
       calls ++ [Call.OsLstat (lib.Join root f.Meta.Path)]
        ++ (if f.Meta.Should (verify.Contents true) = true then
            [Call.IoutilReadFile (lib.Join root f.Meta.Path)] else [])) := by
  unfold Regular.verifySizeAndContents
  simp only [hl]
  by_cases hc : f.Meta.Should (verify.Contents true) = true
  · have hgen : ProvidePseudoRandomBytes dlib f.Size f.Seed
        = Except.ok (dlib.RandRead f.Seed f.Size.toNat) := by
      unfold ProvidePseudoRandomBytes
      rw [if_neg (fun h => h.elim (not_lt.mpr (hsize hc).1) (not_lt.mpr (hsize hc).2))]
    simp only [hc, hr, hgen, if_true]
    by_cases hb : b ≠ dlib.RandRead f.Seed f.Size.toNat
    · simp only [if_pos hb, contentsCause_ok, List.append_assoc]
    · simp only [if_neg hb, List.append_assoc]
  · have hc' : f.Meta.Should (verify.Contents true) = false := by simpa using hc
    simp only [hc', Bool.false_eq_true, if_false, List.append_nil]

end defs

namespace defs

/-- The union of the kinds of a triple list, read off its list of kinds and paths. -/
theorem kindsUnion_of_map (es : List verify.Error) (L : List (diff.FileDifference × String))
    (h : es.map (fun e => (e.FileDifference, e.Path)) = L) :
    verify.kindsUnion es = (L.map Prod.fst).foldl (fun u k => u ||| k) 0 := by
  subst h
  unfold verify.kindsUnion
  rw [List.map_map, List.foldl_map]
  rfl

/-- The aggregator `MapToNilIfNone` is applied to decides the result through its triples. -/
theorem MapToNilIfNone_of_map (ves : verify.Errors) (L : List (diff.FileDifference × String))
    (h : ves.Errors.map (fun e => (e.FileDifference, e.Path)) = L) :
    ves.MapToNilIfNone = (if L = [] then none else some (GoError.verification ves)) := by
  have hlen : ves.Errors.length = L.length := by
    rw [← h, List.length_map]
  unfold verify.Errors.MapToNilIfNone
  by_cases hL : L = []
  · rw [if_pos hL, if_pos (by rw [hlen, hL]; rfl)]
  · rw [if_neg hL, if_neg (by rw [hlen]; exact fun h0 => hL (List.length_eq_zero.mp h0))]

/-- A gated comparison keeps the union equal to the OR of the recorded kinds. -/
theorem gated_keeps_union (c1 c2 : Prop) [Decidable c1] [Decidable c2] (verr : verify.Errors)
    (k : diff.FileDifference) (path : String) (cause : Option PlainError)
    (h : verr.CombinedFileDifference = verify.kindsUnion verr.Errors) :
    (if c1 then (if c2 then verr.Add k path cause else verr) else verr).CombinedFileDifference
      = verify.kindsUnion
          (if c1 then (if c2 then verr.Add k path cause else verr) else verr).Errors := by
  by_cases h1 : c1
  · by_cases h2 : c2
    · rw [if_pos h1, if_pos h2]
      exact verify.Add_keeps_union verr k path cause h
    · rw [if_pos h1, if_neg h2]
      exact h
  · rw [if_neg h1]
    exact h

/-- C31, amended. Let the generic verification return `nil` or an aggregator `A` none of
whose triples carries the `NotPresentOrNotAccessible` or the `ModeType` flag, let `Lstat`
report size `s` and the file read return bytes `b`, both without error, and let `f.Size` be
non-negative and at most the allocation limit `MaxAlloc` of `make` whenever the contents
are to be verified. Then `Regular.Verify` returns
(without panic), the triples of the result are the triples of `A`, then one `Size` triple
iff `Should(size)` and `s` differs from `f.Size`, then one `Contents` triple iff
`Should(contents)` and `b` differs from the bytes generated from `(f.Size, f.Seed)`, both at
`Join root f.Path`; the result is `nil` iff this list is empty. A file that matches in
everything except its bytes yields exactly one triple, of kind `Contents`. -/
theorem Regular_Verify_size_and_contents (impl : Implementation) (lib : file.StdLib)
    (dlib : StdLib) (f : Regular) (root : String) (s : Int) (b : List Nat)
    (hmeta : filefactory.nilOrAggregator (impl.MetaVerify f.Meta root) = true)
    (hno : ∀ t ∈ genericTriples (impl.MetaVerify f.Meta root), carriesNoShortCircuit t = true)
    (hl : impl.OsLstat (lib.Join root f.Meta.Path) = ({ Size := s }, none))
    (hr : impl.IoutilReadFile (lib.Join root f.Meta.Path) = (b, none))
    (hsize : f.Meta.Should (verify.Contents true) = true →
      0 ≤ f.Size ∧ f.Size ≤ (dlib.MaxAlloc : Int)) :
    (∃ ves : verify.Errors,
      ves.Errors.map (fun e => (e.FileDifference, e.Path))
        = expectedRegularTriples f (genericTriples (impl.MetaVerify f.Meta root))
            (lib.Join root f.Meta.Path) s b (dlib.RandRead f.Seed f.Size.toNat) ∧
      ves.CombinedFileDifference = verify.kindsUnion ves.Errors ∧
      (Regular.Verify impl lib dlib f root).1
        = Except.ok (if expectedRegularTriples f
              (genericTriples (impl.MetaVerify f.Meta root))
              (lib.Join root f.Meta.Path) s b (dlib.RandRead f.Seed f.Size.toNat) = []
            then none else some (GoError.verification ves))) ∧
    ((Regular.Verify impl lib dlib f root).1 = Except.ok none ↔
      expectedRegularTriples f (genericTriples (impl.MetaVerify f.Meta root))
        (lib.Join root f.Meta.Path) s b (dlib.RandRead f.Seed f.Size.toNat) = []) ∧
    (Regular.Verify impl lib dlib f root).2
      = [Call.MetaVerify f.Meta root, Call.OsLstat (lib.Join root f.Meta.Path)]
        ++ (if f.Meta.Should (verify.Contents true) = true then
            [Call.IoutilReadFile (lib.Join root f.Meta.Path)] else []) ∧
    (impl.MetaVerify f.Meta root = none → s = f.Size →
      f.Meta.Should (verify.Contents true) = true → b ≠ dlib.RandRead f.Seed f.Size.toNat →
      expectedRegularTriples f (genericTriples (impl.MetaVerify f.Meta root))
        (lib.Join root f.Meta.Path) s b (dlib.RandRead f.Seed f.Size.toNat)
        = [(diff.Contents, lib.Join root f.Meta.Path)]) := by
  have hrun := Regular_Verify_continues impl lib dlib f root hmeta hno
  rw [verifySizeAndContents_eq impl lib dlib f root _ _ { Size := s } b hl hr hsize] at hrun
  have s1 := file.gated_add_spec (f.Meta.Should (verify.Size true) = true)
    (({ Size := s } : os.FileInfo).Size ≠ f.Size) (s ≠ f.Size) Iff.rfl
    { CombinedFileDifference :=
        verify.kindsUnion (genericTriples (impl.MetaVerify f.Meta root))
      Errors := genericTriples (impl.MetaVerify f.Meta root) }
    diff.Size (lib.Join root f.Meta.Path)
    (some ⟨"expected " ++ toString f.Size ++ ", actual "
      ++ toString ({ Size := s } : os.FileInfo).Size⟩)
    ((genericTriples (impl.MetaVerify f.Meta root)).map (fun t => (t.FileDifference, t.Path)))
    [] (verify.kindsUnion (genericTriples (impl.MetaVerify f.Meta root)))
    (by simp) rfl
  have s2 := file.gated_add_spec (f.Meta.Should (verify.Contents true) = true)
    (b ≠ dlib.RandRead f.Seed f.Size.toNat) (b ≠ dlib.RandRead f.Seed f.Size.toNat) Iff.rfl
    _ diff.Contents (lib.Join root f.Meta.Path)
    (some ⟨"base64(bytes[:<=50]) for expected "
      ++ dlib.EncodeToString ((dlib.RandRead f.Seed f.Size.toNat).take
          (min 50 (dlib.RandRead f.Seed f.Size.toNat).length))
      ++ ", actual " ++ dlib.EncodeToString (b.take (min 50 b.length))⟩)
    _ _ _ s1.1 s1.2
  have hmap : ∀ ves : verify.Errors,
      ves.Errors.map (fun e => (e.FileDifference, e.Path))
        = (genericTriples (impl.MetaVerify f.Meta root)).map
            (fun t => (t.FileDifference, t.Path))
          ++ (([] ++ (if f.Meta.Should (verify.Size true) = true ∧ s ≠ f.Size
                then [diff.Size] else []))
              ++ (if f.Meta.Should (verify.Contents true) = true ∧
                    b ≠ dlib.RandRead f.Seed f.Size.toNat
                  then [diff.Contents] else [])).map
              (fun k => (k, lib.Join root f.Meta.Path)) →
      ves.Errors.map (fun e => (e.FileDifference, e.Path))
        = expectedRegularTriples f (genericTriples (impl.MetaVerify f.Meta root))
            (lib.Join root f.Meta.Path) s b (dlib.RandRead f.Seed f.Size.toNat) := by
    intro ves hves
    rw [hves]
    unfold expectedRegularTriples
    by_cases h1 : f.Meta.Should (verify.Size true) = true ∧ s ≠ f.Size <;>
      by_cases h2 : f.Meta.Should (verify.Contents true) = true ∧
        b ≠ dlib.RandRead f.Seed f.Size.toNat <;>
      simp [h1, h2]
  have hE := hmap _ s2.1
  have hres : (Regular.Verify impl lib dlib f root).1 = Except.ok _ :=
    congrArg Prod.fst hrun
  rw [MapToNilIfNone_of_map _ _ hE] at hres
  refine ⟨⟨_, hE, ?_, hres⟩, ?_, congrArg Prod.snd hrun, ?_⟩
  · exact gated_keeps_union _ _ _ _ _ _
      (gated_keeps_union _ _ _ _ _ _ rfl)
  · rw [hres]
    by_cases hL : expectedRegularTriples f (genericTriples (impl.MetaVerify f.Meta root))
        (lib.Join root f.Meta.Path) s b (dlib.RandRead f.Seed f.Size.toNat) = []
    · simp [hL]
    · simp [hL]
  · intro hnil hs hc hb
    unfold expectedRegularTriples
    rw [hnil]
    simp [genericTriples, hs, hc, hb]

end defs

namespace defs

/-- C31, counterexample. A declaration with `Size = -1` whose contents are to be verified:
the generic verification returns `nil`, `Lstat` and the file read succeed, and
`Regular.Verify` does not return a result: the byte generator panics in
`make([]byte, size)`. The same happens for `Size = 2^63 - 1`, above the allocation limit. -/
theorem Regular_Verify_negative_size_counterexample :
    filefactory.nilOrAggregator
      ((mockImpl none ({ Size := 5 }, none) ([1, 2, 3], none)).MetaVerify
        negativeSizeRegular.Meta "r") = true ∧
    (mockImpl none ({ Size := 5 }, none) ([1, 2, 3], none)).OsLstat
      (file.mockLib.Join "r" negativeSizeRegular.Meta.Path) = ({ Size := 5 }, none) ∧
    (mockImpl none ({ Size := 5 }, none) ([1, 2, 3], none)).IoutilReadFile
      (file.mockLib.Join "r" negativeSizeRegular.Meta.Path) = ([1, 2, 3], none) ∧
    negativeSizeRegular.Meta.Should (verify.Contents true) = true ∧
    (Regular.Verify (mockImpl none ({ Size := 5 }, none) ([1, 2, 3], none)) file.mockLib
        mockLib negativeSizeRegular "r").1
      = Except.error "makeslice: len out of range" ∧
    (∀ result : Option GoError,
      (Regular.Verify (mockImpl none ({ Size := 5 }, none) ([1, 2, 3], none)) file.mockLib
        mockLib negativeSizeRegular "r").1 ≠ Except.ok result) ∧
    hugeSizeRegular.Meta.Should (verify.Contents true) = true ∧
    (Regular.Verify (mockImpl none ({ Size := 5 }, none) ([1, 2, 3], none)) file.mockLib
        mockLib hugeSizeRegular "r").1
      = Except.error "makeslice: len out of range" := by
  have h : (Regular.Verify (mockImpl none ({ Size := 5 }, none) ([1, 2, 3], none))
      file.mockLib mockLib negativeSizeRegular "r").1
        = Except.error "makeslice: len out of range" := rfl
  refine ⟨rfl, rfl, rfl, by decide, h, ?_, by decide, rfl⟩
  intro result hres
  rw [h] at hres
  cases hres

/-- C31 amended, instance: the test "will append error to VerificationErrors if contents
are different": the generic verification reports an `AccTime` triple, the bytes read
differ from the generated ones, and all three collaborators are asked. -/
theorem Regular_Verify_size_and_contents_witness :
    (0 ≤ contentsRegular.Size ∧ contentsRegular.Size ≤ (mockLib.MaxAlloc : Int)) ∧
    (∀ t ∈ genericTriples ((mockImpl (some (GoError.verification accTimeErrors))
        ({ Size := 20 }, none) ([1, 2, 3], none)).MetaVerify contentsRegular.Meta "r"),
      carriesNoShortCircuit t = true) ∧
    expectedRegularTriples contentsRegular accTimeErrors.Errors
        "r/file-with-different-contents" 20 [1, 2, 3]
        (mockLib.RandRead contentsRegular.Seed contentsRegular.Size.toNat)
      = [(diff.AccTime, "some path"), (diff.Contents, "r/file-with-different-contents")] ∧
    (Regular.Verify (mockImpl (some (GoError.verification accTimeErrors))
        ({ Size := 20 }, none) ([1, 2, 3], none)) file.mockLib mockLib contentsRegular "r").2
      = [Call.MetaVerify contentsRegular.Meta "r",
         Call.OsLstat "r/file-with-different-contents",
         Call.IoutilReadFile "r/file-with-different-contents"] :=
  ⟨by decide, by decide, by decide,
   ((Regular_Verify_size_and_contents (mockImpl (some (GoError.verification accTimeErrors))
      ({ Size := 20 }, none) ([1, 2, 3], none)) file.mockLib mockLib contentsRegular "r" 20
      [1, 2, 3] rfl (by decide) rfl rfl (fun _ => by decide)).2.2.1).trans (by decide)⟩

/-- `Symlink.Verify` past the short circuits, when the link read fails. -/
theorem Symlink_Verify_read_fails (impl : Implementation) (lib : file.StdLib)
    (f : Symlink) (root : String) (linkTarget : String) (e : GoError)
    (hmeta : filefactory.nilOrAggregator (impl.MetaVerify f.Meta root) = true)
    (hno : ∀ t ∈ genericTriples (impl.MetaVerify f.Meta root), carriesNoShortCircuit t = true)
    (hr : impl.OsReadlink (lib.Join root f.Meta.Path) = (linkTarget, some e)) :
    Symlink.Verify impl lib f root =
      (some e, [Call.MetaVerify f.Meta root, Call.OsReadlink (lib.Join root f.Meta.Path)]) := by
  obtain ⟨h1, h2⟩ := no_short_circuit _ hno
  unfold Symlink.Verify
  simp only [Merge_generic _ hmeta, h1, h2, hr]
  rfl

/-- `Symlink.Verify` past the short circuits, when the link read succeeds. -/
theorem Symlink_Verify_read_ok (impl : Implementation) (lib : file.StdLib)
    (f : Symlink) (root : String) (linkTarget : String)
    (hmeta : filefactory.nilOrAggregator (impl.MetaVerify f.Meta root) = true)
    (hno : ∀ t ∈ genericTriples (impl.MetaVerify f.Meta root), carriesNoShortCircuit t = true)
    (hr : impl.OsReadlink (lib.Join root f.Meta.Path) = (linkTarget, none)) :
    Symlink.Verify impl lib f root =
      (verify.Errors.MapToNilIfNone
        (if f.Meta.Should (verify.SymlinkTarget true) = true then
          (if linkTarget ≠ f.LinkTarget then
            verify.Errors.Add
              { CombinedFileDifference :=
                  verify.kindsUnion (genericTriples (impl.MetaVerify f.Meta root))
                Errors := genericTriples (impl.MetaVerify f.Meta root) }
              diff.LinkTarget (lib.Join root f.Meta.Path)
              (some ⟨"expected " ++ f.LinkTarget ++ ", actual " ++ linkTarget⟩)
          else
            { CombinedFileDifference :=
                verify.kindsUnion (genericTriples (impl.MetaVerify f.Meta root))
              Errors := genericTriples (impl.MetaVerify f.Meta root) })
        else
          { CombinedFileDifference :=
              verify.kindsUnion (genericTriples (impl.MetaVerify f.Meta root))
            Errors := genericTriples (impl.MetaVerify f.Meta root) }),
       [Call.MetaVerify f.Meta root, Call.OsReadlink (lib.Join root f.Meta.Path)]) := by
  obtain ⟨h1, h2⟩ := no_short_circuit _ hno
  unfold Symlink.Verify
  simp only [Merge_generic _ hmeta, h1, h2, hr]
  rfl

end defs

/-! ## `Symlink.Verify` -/

namespace defs

/-- C32. Let the generic verification return `nil` or an aggregator `A` none of whose
triples carries the `NotPresentOrNotAccessible` or the `ModeType` flag. If the link read
fails with `e`, `Symlink.Verify` returns `e` itself. Otherwise the triples of the result are
the triples of `A` followed by one `LinkTarget` triple at `Join root f.Path` iff
`Should(symlink-target)` and the target read differs from `f.LinkTarget`, and the result is
`nil` iff this list is empty. -/
theorem Symlink_Verify_link_target (impl : Implementation) (lib : file.StdLib)
    (f : Symlink) (root : String)
    (hmeta : filefactory.nilOrAggregator (impl.MetaVerify f.Meta root) = true)
    (hno : ∀ t ∈ genericTriples (impl.MetaVerify f.Meta root), carriesNoShortCircuit t = true) :
    (∀ (linkTarget : String) (e : GoError),
      impl.OsReadlink (lib.Join root f.Meta.Path) = (linkTarget, some e) →
      Symlink.Verify impl lib f root
        = (some e,
           [Call.MetaVerify f.Meta root, Call.OsReadlink (lib.Join root f.Meta.Path)])) ∧
    (∀ linkTarget : String,
      impl.OsReadlink (lib.Join root f.Meta.Path) = (linkTarget, none) →
      (∃ ves : verify.Errors,
        ves.Errors.map (fun e => (e.FileDifference, e.Path))
          = expectedSymlinkTriples f (genericTriples (impl.MetaVerify f.Meta root))
              (lib.Join root f.Meta.Path) linkTarget ∧
        ves.CombinedFileDifference = verify.kindsUnion ves.Errors ∧
        (Symlink.Verify impl lib f root).1
          = (if expectedSymlinkTriples f (genericTriples (impl.MetaVerify f.Meta root))
                (lib.Join root f.Meta.Path) linkTarget = []
              then none else some (GoError.verification ves))) ∧
      ((Symlink.Verify impl lib f root).1 = none ↔
        expectedSymlinkTriples f (genericTriples (impl.MetaVerify f.Meta root))
          (lib.Join root f.Meta.Path) linkTarget = []) ∧
      (Symlink.Verify impl lib f root).2
        = [Call.MetaVerify f.Meta root, Call.OsReadlink (lib.Join root f.Meta.Path)]) := by
  refine ⟨fun linkTarget e hr => Symlink_Verify_read_fails impl lib f root linkTarget e
    hmeta hno hr, ?_⟩
  intro linkTarget hr
  have hrun := Symlink_Verify_read_ok impl lib f root linkTarget hmeta hno hr
  have s1 := file.gated_add_spec (f.Meta.Should (verify.SymlinkTarget true) = true)
    (linkTarget ≠ f.LinkTarget) (linkTarget ≠ f.LinkTarget) Iff.rfl
    { CombinedFileDifference :=
        verify.kindsUnion (genericTriples (impl.MetaVerify f.Meta root))
      Errors := genericTriples (impl.MetaVerify f.Meta root) }
    diff.LinkTarget (lib.Join root f.Meta.Path)
    (some ⟨"expected " ++ f.LinkTarget ++ ", actual " ++ linkTarget⟩)
    ((genericTriples (impl.MetaVerify f.Meta root)).map (fun t => (t.FileDifference, t.Path)))
    [] (verify.kindsUnion (genericTriples (impl.MetaVerify f.Meta root)))
    (by simp) rfl
  have hE : ∀ ves : verify.Errors,
      ves.Errors.map (fun e => (e.FileDifference, e.Path))
        = (genericTriples (impl.MetaVerify f.Meta root)).map
            (fun t => (t.FileDifference, t.Path))
          ++ ([] ++ (if f.Meta.Should (verify.SymlinkTarget true) = true ∧
                linkTarget ≠ f.LinkTarget then [diff.LinkTarget] else [])).map
              (fun k => (k, lib.Join root f.Meta.Path)) →
      ves.Errors.map (fun e => (e.FileDifference, e.Path))
        = expectedSymlinkTriples f (genericTriples (impl.MetaVerify f.Meta root))
            (lib.Join root f.Meta.Path) linkTarget := by
    intro ves hves
    rw [hves]
    unfold expectedSymlinkTriples
    by_cases h1 : f.Meta.Should (verify.SymlinkTarget true) = true ∧
      linkTarget ≠ f.LinkTarget <;> simp [h1]
  have hmap := hE _ s1.1
  have hres : (Symlink.Verify impl lib f root).1 = _ := congrArg Prod.fst hrun
  rw [MapToNilIfNone_of_map _ _ hmap] at hres
  refine ⟨⟨_, hmap, gated_keeps_union _ _ _ _ _ _ rfl, hres⟩, ?_, congrArg Prod.snd hrun⟩
  rw [hres]
  by_cases hL : expectedSymlinkTriples f (genericTriples (impl.MetaVerify f.Meta root))
      (lib.Join root f.Meta.Path) linkTarget = []
  · simp [hL]
  · simp [hL]

/-- C32, instance: the generic verification finds nothing, the link points elsewhere, and
one `LinkTarget` triple is reported; the second collaborator call is the link read. -/
theorem Symlink_Verify_link_target_witness :
    (∀ t ∈ genericTriples ((mockLinkImpl none ("different/symlink/target/path", none)).MetaVerify
        sampleSymlink.Meta "r"), carriesNoShortCircuit t = true) ∧
    expectedSymlinkTriples sampleSymlink [] "r/l" "different/symlink/target/path"
      = [(diff.LinkTarget, "r/l")] ∧
    (Symlink.Verify (mockLinkImpl none ("different/symlink/target/path", none)) file.mockLib
        sampleSymlink "r").2
      = [Call.MetaVerify sampleSymlink.Meta "r", Call.OsReadlink "r/l"] :=
  ⟨by decide, by decide,
   ((Symlink_Verify_link_target (mockLinkImpl none ("different/symlink/target/path", none))
      file.mockLib sampleSymlink "r" rfl (by decide)).2
      "different/symlink/target/path" rfl).2.2⟩

end defs

/-! ## `CurrentIds` -/

namespace user

/-- C33, the code at the failing input. With uid "3424", primary gid "4" and the group ids
`["4", "6", "non-numeric"]`, `CurrentIds` returns the ids `(3424, 4, 6)` together with the
parse error of the last entry: the `err` assigned by the failed `ParseUint` is still set
when the loop ends. For the same list without the non-numeric entry, and for the list of
the test, where a numeric entry follows the non-numeric one, it returns no error. -/
theorem CurrentIds_trailing_non_numeric :
    numeric "3424" = true ∧ numeric "4" = true ∧ numeric "6" = true ∧
    numeric "non-numeric" = false ∧
    CurrentIds (mockImpl "3424" "4" ["4", "6", "non-numeric"])
      = (3424, 4, 6, some (GoError.plain
          ⟨"strconv.ParseUint: parsing non-numeric: invalid syntax"⟩)) ∧
    ["4", "6", "non-numeric"].filter numeric = ["4", "6"] ∧
    CurrentIds (mockImpl "3424" "4" ["4", "6"]) = (3424, 4, 6, none) ∧
    CurrentIds (mockImpl "3424" "4" ["4", "non-numeric", "6"]) = (3424, 4, 6, none) := by
  refine ⟨by decide, by decide, by decide, by decide, by decide, by decide, by decide,
    by decide⟩

/-- C34, the code at the failing input. With primary gid "4" and the group ids `["4", "0"]`
the list holds the secondary id 0, different from the primary gid, yet `CurrentIds` returns
`otherGid = 4`, the primary gid: the value 0 left by the loop is taken for "no other gid".
The two lists of the tests give the primary gid and the secondary gid 5. -/
theorem CurrentIds_secondary_gid_zero :
    numeric "0" = true ∧ "0" ≠ "4" ∧
    CurrentIds (mockImpl "3424" "4" ["4", "0"]) = (3424, 4, 4, none) ∧
    CurrentIds (mockImpl "3424" "4" ["4"]) = (3424, 4, 4, none) ∧
    CurrentIds (mockImpl "3424" "4" ["4", "5"]) = (3424, 4, 5, none) := by
  refine ⟨by decide, by decide, by decide, by decide, by decide⟩

end user

/-! ## Instructions of a factory and of a call site on a symlink -/

namespace defs

/-- C36. For a symlink declaration built by `Sym` from a factory whose extra defaults are
`[all=false, mode-perm=true]` (the hardcoded defaults hold no instruction): when the call
site gives no instruction, `Should(mode-perm)` is `true`, the factory instruction standing
after the kind default `mode-perm=false`; with `mode-perm=false` added at the call site
`Should(mode-perm)` is `false`; `Should(symlink-target)` is `false` in both cases. -/
theorem Sym_factory_and_call_site_override (relPath linkTarget : String)
    (H C1 C2 : List attr.Attribute)
    (hH : ∀ a ∈ H, a.asInstruction = none) (h1 : ∀ a ∈ C1, a.asInstruction = none)
    (h2 : ∀ a ∈ C2, a.asInstruction = none) :
    (Sym.symlink relPath linkTarget (C1 ++ C2) H
        [attr.Attribute.Instruction (verify.AllByDefault false),
         attr.Attribute.Instruction (verify.ModePerm true)]).Meta.VerificationInstructions
      = [verify.ModePerm false, verify.ModifiedTime false, verify.AccessedTime false,
         verify.AllByDefault false, verify.ModePerm true] ∧
    (Sym.symlink relPath linkTarget (C1 ++ C2) H
        [attr.Attribute.Instruction (verify.AllByDefault false),
         attr.Attribute.Instruction (verify.ModePerm true)]).Meta.Should
      (verify.ModePerm true) = true ∧
    (Sym.symlink relPath linkTarget (C1 ++ C2) H
        [attr.Attribute.Instruction (verify.AllByDefault false),
         attr.Attribute.Instruction (verify.ModePerm true)]).Meta.Should
      (verify.SymlinkTarget true) = false ∧
    (Sym.symlink relPath linkTarget
        (C1 ++ attr.Attribute.Instruction (verify.ModePerm false) :: C2) H
        [attr.Attribute.Instruction (verify.AllByDefault false),
         attr.Attribute.Instruction (verify.ModePerm true)]).Meta.Should
      (verify.ModePerm true) = false ∧
    (Sym.symlink relPath linkTarget
        (C1 ++ attr.Attribute.Instruction (verify.ModePerm false) :: C2) H
        [attr.Attribute.Instruction (verify.AllByDefault false),
         attr.Attribute.Instruction (verify.ModePerm true)]).Meta.Should
      (verify.SymlinkTarget true) = false := by
  have hVI : (Sym.symlink relPath linkTarget (C1 ++ C2) H
      [attr.Attribute.Instruction (verify.AllByDefault false),
       attr.Attribute.Instruction (verify.ModePerm true)]).Meta.VerificationInstructions
      = [verify.ModePerm false, verify.ModifiedTime false, verify.AccessedTime false,
         verify.AllByDefault false, verify.ModePerm true] := by
    rw [Sym_instructions, filterMap_asInstruction_nil H hH, List.filterMap_append,
      filterMap_asInstruction_nil C1 h1, filterMap_asInstruction_nil C2 h2]
    rfl
  have hVI' : (Sym.symlink relPath linkTarget
      (C1 ++ attr.Attribute.Instruction (verify.ModePerm false) :: C2) H
      [attr.Attribute.Instruction (verify.AllByDefault false),
       attr.Attribute.Instruction (verify.ModePerm true)]).Meta.VerificationInstructions
      = [verify.ModePerm false, verify.ModifiedTime false, verify.AccessedTime false,
         verify.AllByDefault false, verify.ModePerm true, verify.ModePerm false] := by
    have hC : (C1 ++ attr.Attribute.Instruction (verify.ModePerm false) :: C2).filterMap
        attr.Attribute.asInstruction = [verify.ModePerm false] := by
      rw [List.filterMap_append, filterMap_asInstruction_nil C1 h1, List.nil_append]
      show verify.ModePerm false :: C2.filterMap attr.Attribute.asInstruction = _
      rw [filterMap_asInstruction_nil C2 h2]
    rw [Sym_instructions, filterMap_asInstruction_nil H hH, hC]
    rfl
  refine ⟨hVI, ?_, ?_, ?_, ?_⟩
  · unfold file.Meta.Should
    rw [hVI]
    decide
  · unfold file.Meta.Should
    rw [hVI]
    decide
  · unfold file.Meta.Should
    rw [hVI']
    decide
  · unfold file.Meta.Should
    rw [hVI']
    decide

/-- C36, instance: the factory of the example test with hardcoded ownership and times. -/
theorem Sym_factory_and_call_site_override_witness :
    (∀ a ∈ sampleHardcoded, a.asInstruction = none) ∧
    (Sym.symlink "relative/path/to/symlink" "symlink/target/path" ([] ++ []) sampleHardcoded
        [attr.Attribute.Instruction (verify.AllByDefault false),
         attr.Attribute.Instruction (verify.ModePerm true)]).Meta.Should
      (verify.ModePerm true) = true ∧
    (Sym.symlink "relative/path/to/symlink" "different/symlink/target/path"
        ([] ++ attr.Attribute.Instruction (verify.ModePerm false) :: []) sampleHardcoded
        [attr.Attribute.Instruction (verify.AllByDefault false),
         attr.Attribute.Instruction (verify.ModePerm true)]).Meta.Should
      (verify.ModePerm true) = false :=
  ⟨by decide,
   (Sym_factory_and_call_site_override "relative/path/to/symlink" "symlink/target/path"
      sampleHardcoded [] [] (by decide) (by decide) (by decide)).2.1,
   (Sym_factory_and_call_site_override "relative/path/to/symlink"
      "different/symlink/target/path" sampleHardcoded [] [] (by decide) (by decide)
      (by decide)).2.2.2.1⟩

end defs

/-! ## `Regular.Verify` with the instruction list `[all=false]` -/

namespace defs

/-- With the instruction list `[all=false]` the generic verification returns `nil` and
calls no collaborator. -/
theorem Meta_Verify_skipped (fimpl : file.Implementation) (lib : file.StdLib) (m : file.Meta)
    (root : String) (hVI : m.VerificationInstructions = [verify.AllByDefault false]) :
    m.Verify fimpl lib root = (none, []) := by
  unfold file.Meta.Verify
  rw [if_pos ((file.skip_test_iff _).mpr hVI)]

/-- An error of `Lstat` is the result of the size and contents checks. -/
theorem verifySizeAndContents_lstat_fails (impl : Implementation) (lib : file.StdLib)
    (dlib : StdLib) (f : Regular) (root : String) (verr : verify.Errors) (calls : List Call)
    (fi : os.FileInfo) (e : GoError)
    (hl : impl.OsLstat (lib.Join root f.Meta.Path) = (fi, some e)) :
    Regular.verifySizeAndContents impl lib dlib f root verr calls =
      (Except.ok (some e), calls ++ [Call.OsLstat (lib.Join root f.Meta.Path)]) := by
  unfold Regular.verifySizeAndContents
  simp only [hl]

/-- C37. For a Regular declaration whose instruction list is exactly `[all=false]`, with
the production `MetaVerify` (the generic `Meta.Verify`, which returns `nil` without any
call): `Regular.Verify` still invokes `Lstat` on `join(root, path)`; if `Lstat` fails with
`e` it returns `e`; if `Lstat` succeeds it returns `nil`, and in both cases the calls are
`MetaVerify` and `Lstat` only, so the contents are not read. -/
theorem Regular_Verify_all_false (impl : Implementation) (fimpl : file.Implementation)
    (lib : file.StdLib) (dlib : StdLib) (f : Regular) (root : String)
    (hVI : f.Meta.VerificationInstructions = [verify.AllByDefault false]) :
    f.Meta.Verify fimpl lib root = (none, []) ∧
    (∀ fi e, impl.OsLstat (lib.Join root f.Meta.Path) = (fi, some e) →
      Regular.Verify (withProductionMetaVerify impl fimpl lib) lib dlib f root =
        (Except.ok (some e),
          [Call.MetaVerify f.Meta root, Call.OsLstat (lib.Join root f.Meta.Path)])) ∧
    (∀ fi, impl.OsLstat (lib.Join root f.Meta.Path) = (fi, none) →
      Regular.Verify (withProductionMetaVerify impl fimpl lib) lib dlib f root =
        (Except.ok none,
          [Call.MetaVerify f.Meta root, Call.OsLstat (lib.Join root f.Meta.Path)])) := by
  have hskip := Meta_Verify_skipped fimpl lib f.Meta root hVI
  have hmv : (withProductionMetaVerify impl fimpl lib).MetaVerify f.Meta root = none := by
    show (f.Meta.Verify fimpl lib root).1 = none
    rw [hskip]
  have hcont := Regular_Verify_continues (withProductionMetaVerify impl fimpl lib) lib dlib f
    root (by rw [hmv]; rfl) (by rw [hmv]; intro t ht; cases ht)
  have hsz : f.Meta.Should (verify.Size true) = false := by
    unfold file.Meta.Should
    rw [hVI]
    decide
  have hct : f.Meta.Should (verify.Contents true) = false := by
    unfold file.Meta.Should
    rw [hVI]
    decide
  refine ⟨hskip, ?_, ?_⟩
  · intro fi e hl
    rw [hcont]
    exact verifySizeAndContents_lstat_fails _ lib dlib f root _ _ fi e hl
  · intro fi hl
    have hl' : (withProductionMetaVerify impl fimpl lib).OsLstat (lib.Join root f.Meta.Path)
        = (fi, none) := hl
    rw [hcont, hmv]
    unfold Regular.verifySizeAndContents
    simp only [hl', hsz, hct, Bool.false_eq_true, if_false]
    rfl

/-- C37, instance: the declared file does not exist, `Lstat` fails, and the error of
`Lstat` is returned although every verification is switched off. -/
theorem Regular_Verify_all_false_witness :
    skippedRegular.Meta.VerificationInstructions = [verify.AllByDefault false] ∧
    Regular.Verify
        (withProductionMetaVerify
          (mockImpl none ({ Size := 0 }, some (GoError.plain ⟨"lstat r/f: no such file"⟩))
            ([], none))
          (file.mockImpl (false, none) ({}, none)) file.mockLib)
        file.mockLib mockLib skippedRegular "r" =
      (Except.ok (some (GoError.plain ⟨"lstat r/f: no such file"⟩)),
        [Call.MetaVerify skippedRegular.Meta "r", Call.OsLstat "r/f"]) :=
  ⟨rfl,
   (Regular_Verify_all_false
      (mockImpl none ({ Size := 0 }, some (GoError.plain ⟨"lstat r/f: no such file"⟩))
        ([], none))
      (file.mockImpl (false, none) ({}, none)) file.mockLib mockLib skippedRegular "r"
      rfl).2.1 { Size := 0 } (GoError.plain ⟨"lstat r/f: no such file"⟩) rfl⟩

end defs

/-! ## `Meta.Verify`: the skip test, the mode masks, and the shape of the aggregator -/

namespace file

/-- With `all=false` in the list, `Should` is `false` for every aspect whose own
instructions, if any, all have the value `false`. -/
theorem Should_false_of_none_enabling (m : Meta) (q : verify.Instruction)
    (hmem : verify.AllByDefault false ∈ m.VerificationInstructions)
    (hoff : ∀ i ∈ m.VerificationInstructions, i.Aspect = q.Aspect → i.Verify = false) :
    m.Should q = false := by
  by_cases h : ∃ i ∈ m.VerificationInstructions, i.Aspect = q.Aspect
  · obtain ⟨pre, i, post, hL, hi, hpost⟩ := exists_last_of_aspect q.Aspect _ h
    have hS : m.Should q = i.Verify := by
      unfold Meta.Should
      simp only [hL]
      exact aspect_foldl_last q.Aspect pre post i _ hi hpost
    rw [hS]
    exact hoff i (by rw [hL]; simp) hi
  · have h' : ∀ i ∈ m.VerificationInstructions, i.Aspect ≠ q.Aspect :=
      fun i hi hia => h ⟨i, hi, hia⟩
    rw [Should_unmentioned m q h']
    simp [hmem]

/-- Past the trivial skip, the first collaborator call of `Verify` is the path-exists check
on `Join root m.Path`, whatever the collaborators answer. -/
theorem Verify_first_call (impl : Implementation) (lib : StdLib) (m : Meta) (root : String)
    (hne : m.VerificationInstructions ≠ [verify.AllByDefault false]) :
    (m.Verify impl lib root).2.head? = some (Call.PathExists (lib.Join root m.Path)) := by
  rcases hpe : impl.PathExists (lib.Join root m.Path) with ⟨ex, err⟩
  cases err with
  | some e => rw [Verify_exists_error impl lib m root ex e hne hpe]; rfl
  | none =>
    cases ex with
    | false => rw [Verify_not_exists impl lib m root hne hpe]; rfl
    | true =>
      rcases hrd : impl.WrapNewFromPath (lib.Join root m.Path) with ⟨a, err⟩
      cases err with
      | some e => rw [Verify_reader_error impl lib m a root e hne hpe hrd]; rfl
      | none =>
        rw [Verify_after_read impl lib m a root hne hpe hrd]
        split <;> rfl

/-- C38, counterexample. The list `[all=false, uid=true]` contains `all=false` and is not
`[all=false]`, yet `Should(uid)` is `true`, and when the uid read back differs `Verify`
records an `Owner` triple: `Should` is not `false` for every attribute aspect. -/
theorem Verify_all_false_then_enabled_counterexample :
    verify.AllByDefault false ∈ unchangedExpected.VerificationInstructions ∧
    unchangedExpected.VerificationInstructions ≠ [verify.AllByDefault false] ∧
    unchangedExpected.Should (verify.Uid true) = true ∧
    (unchangedExpected.Verify
        (mockImpl (true, none) ({ unchangedActual with Uid := 2000 }, none)) mockLib "r").1
      = some (GoError.verification
          { CombinedFileDifference := diff.Owner
            Errors := [{ FileDifference := diff.Owner, Path := "r/a/d",
                         Err := some ⟨"expected 1000, actual 2000"⟩ }] }) := by
  refine ⟨by decide, by decide, by decide, by decide⟩

/-- C38, amended. For every Meta whose instruction list contains `all=false` but is not
exactly `[all=false]`: `Verify` does not skip. Its first collaborator call is the
path-exists check; when the path does not exist it returns one `NotPresentOrNotAccessible`
triple; when the path exists, the metadata is read and the type differs it returns one
`ModeType` triple; and `Should` is `false` for every aspect whose own instructions in the
list, if any, all have the value `false` (an aspect with a later `true` instruction of its
own is still verified). -/
theorem Verify_all_false_among_others (impl : Implementation) (lib : StdLib) (m : Meta)
    (root : String)
    (hmem : verify.AllByDefault false ∈ m.VerificationInstructions)
    (hne : m.VerificationInstructions ≠ [verify.AllByDefault false]) :
    (m.Verify impl lib root).2.head? = some (Call.PathExists (lib.Join root m.Path)) ∧
    (impl.PathExists (lib.Join root m.Path) = (false, none) →
      (m.Verify impl lib root).1 = some (GoError.verification
        { CombinedFileDifference := diff.NotPresentOrNotAccessible
          Errors := [{ FileDifference := diff.NotPresentOrNotAccessible,
                       Path := lib.Join root m.Path,
                       Err := some ⟨"file does not exist"⟩ }] })) ∧
    (∀ a, impl.PathExists (lib.Join root m.Path) = (true, none) →
      impl.WrapNewFromPath (lib.Join root m.Path) = (a, none) →
      (a.Mode &&& os.ModeType) ≠ (m.Mode &&& os.ModeType) →
      (m.Verify impl lib root).1 = some (GoError.verification
        { CombinedFileDifference := diff.ModeType
          Errors := [{ FileDifference := diff.ModeType, Path := lib.Join root m.Path,
                       Err := some ⟨"expected " ++ lib.ModeString m.Mode ++ ", actual "
                         ++ lib.ModeString a.Mode⟩ }] })) ∧
    (∀ q, (∀ i ∈ m.VerificationInstructions, i.Aspect = q.Aspect → i.Verify = false) →
      m.Should q = false) := by
  refine ⟨Verify_first_call impl lib m root hne, ?_, ?_,
    fun q hoff => Should_false_of_none_enabling m q hmem hoff⟩
  · intro hex
    rw [Verify_not_exists impl lib m root hne hex, Add_on_empty]
  · intro a hex hrd hty
    rw [Verify_after_read impl lib m a root hne hex hrd, if_pos hty, Add_on_empty]

/-- C38, instance: with `[all=false, all=false]` every attribute aspect is switched off, and
a missing path is still reported. -/
theorem Verify_all_false_among_others_witness :
    verify.AllByDefault false ∈ twiceAllFalse.VerificationInstructions ∧
    twiceAllFalse.VerificationInstructions ≠ [verify.AllByDefault false] ∧
    twiceAllFalse.Should (verify.ModePerm true) = false ∧
    twiceAllFalse.Should (verify.Uid true) = false ∧
    twiceAllFalse.Should (verify.Gid true) = false ∧
    twiceAllFalse.Should (verify.AccessedTime true) = false ∧
    twiceAllFalse.Should (verify.ModifiedTime true) = false ∧
    (twiceAllFalse.Verify (mockImpl (false, none) ({}, none)) mockLib "r").1
      = some (GoError.verification
        { CombinedFileDifference := diff.NotPresentOrNotAccessible
          Errors := [{ FileDifference := diff.NotPresentOrNotAccessible, Path := "r/d",
                       Err := some ⟨"file does not exist"⟩ }] }) :=
  ⟨by decide, by decide, by decide, by decide, by decide, by decide, by decide,
   (Verify_all_false_among_others (mockImpl (false, none) ({}, none)) mockLib twiceAllFalse
      "r" (by decide) (by decide)).2.1 rfl⟩

/-- C39. `Verify` compares modes only through `Mode & ModeType` and `Mode & 0777`: when the
path exists and the record read back agrees with `m` on both masks and on uid, gid and the
two times, `Verify` returns `nil` (so neither a `ModeType` nor a `ModePerm` triple),
whatever the other mode bits (setuid, setgid, sticky, ...) are. -/
theorem Verify_ignores_other_mode_bits (impl : Implementation) (lib : StdLib) (m a : Meta)
    (root : String)
    (hex : impl.PathExists (lib.Join root m.Path) = (true, none))
    (hrd : impl.WrapNewFromPath (lib.Join root m.Path) = (a, none))
    (hty : (a.Mode &&& os.ModeType) = (m.Mode &&& os.ModeType))
    (hperm : (a.Mode &&& os.ModePerm) = (m.Mode &&& os.ModePerm))
    (hUid : a.Uid = m.Uid) (hGid : a.Gid = m.Gid)
    (hAcc : a.Accessed = m.Accessed) (hMod : a.Modified = m.Modified) :
    (m.Verify impl lib root).1 = none := by
  by_cases hskip : m.VerificationInstructions = [verify.AllByDefault false]
  · unfold Meta.Verify
    rw [if_pos ((skip_test_iff _).mpr hskip)]
  · have hkinds : expectedAttributeKinds m a = [] := by
      simp [expectedAttributeKinds, hperm, hUid, hGid, hAcc, hMod, Time_Equal_self]
    have hspec := (verifyAttributes_spec lib m a (lib.Join root m.Path) {}).1
    rw [hkinds] at hspec
    have hnil : (m.verifyAttributes lib a (lib.Join root m.Path) {}).Errors = [] := by
      simpa using hspec
    rw [Verify_after_read impl lib m a root hskip hex hrd, if_neg (not_not.mpr hty)]
    simp [verify.Errors.MapToNilIfNone, hnil]

/-- C39, instance: the file on disk has the setuid and sticky bits set, the declaration has
not; the modes differ, and `Verify` returns `nil`. -/
theorem Verify_ignores_other_mode_bits_witness :
    setuidActual.Mode ≠ setuidExpected.Mode ∧
    (setuidActual.Mode &&& os.ModeType) = (setuidExpected.Mode &&& os.ModeType) ∧
    (setuidActual.Mode &&& os.ModePerm) = (setuidExpected.Mode &&& os.ModePerm) ∧
    (setuidExpected.Verify (mockImpl (true, none) (setuidActual, none)) mockLib "r").1
      = none :=
  ⟨by decide, by decide, by decide,
   Verify_ignores_other_mode_bits (mockImpl (true, none) (setuidActual, none)) mockLib
     setuidExpected setuidActual "r" rfl rfl (by decide) (by decide) rfl rfl rfl rfl⟩

end file

namespace file

/-- The kinds the attribute stage can record, in the order it records them. -/
theorem expectedAttributeKinds_sublist (m a : Meta) :
    (expectedAttributeKinds m a).Sublist
      [diff.ModePerm, diff.Owner, diff.Group, diff.AccTime, diff.ModTime] := by
  have h : ∀ (c : Prop) [Decidable c] (k : diff.FileDifference),
      (if c then [k] else []).Sublist [k] := by
    intro c _ k
    by_cases hc : c
    · rw [if_pos hc]
    · rw [if_neg hc]
      exact List.nil_sublist _
  exact ((((h _ diff.ModePerm).append (h _ diff.Owner)).append (h _ diff.Group)).append
    (h _ diff.AccTime)).append (h _ diff.ModTime)

/-- Triples whose kinds and paths are `ks`, each at `path`: every triple has a kind of `ks`
and the path `path`, and the kinds of the triples are `ks`. -/
theorem triples_of_map (es : List verify.Error) (ks : List diff.FileDifference)
    (path : String)
    (h : es.map (fun e => (e.FileDifference, e.Path)) = ks.map (fun k => (k, path))) :
    (∀ t ∈ es, t.FileDifference ∈ ks ∧ t.Path = path) ∧
    es.map (fun e => e.FileDifference) = ks := by
  constructor
  · intro t ht
    have hm : (t.FileDifference, t.Path) ∈ es.map (fun e => (e.FileDifference, e.Path)) :=
      List.mem_map.mpr ⟨t, ht, rfl⟩
    rw [h] at hm
    obtain ⟨k, hk, hkeq⟩ := List.mem_map.mp hm
    have h1 : k = t.FileDifference := congrArg Prod.fst hkeq
    have h2 : path = t.Path := congrArg Prod.snd hkeq
    exact ⟨h1 ▸ hk, h2.symm⟩
  · have := congrArg (List.map Prod.fst) h
    simpa [List.map_map, Function.comp_def] using this

/-- An aggregator with one triple, as the existence and type checks return it. -/
theorem single_triple_invariants (k : diff.FileDifference) (path : String)
    (cause : Option PlainError) (ves : verify.Errors)
    (h : ves = { CombinedFileDifference := k
                 Errors := [{ FileDifference := k, Path := path, Err := cause }] }) :
    ves.Errors ≠ [] ∧
    (∀ t ∈ ves.Errors, t.Path = path) ∧
    (ves.Errors.map (fun e => e.FileDifference)).Nodup ∧
    ves.CombinedFileDifference = verify.kindsUnion ves.Errors ∧
    (∀ t ∈ ves.Errors, ves.Errors = [t]) := by
  subst h
  refine ⟨by simp, by simp, by simp, by simp [verify.kindsUnion], by simp⟩

/-- C40, counterexample. The error of the metadata reader is returned untouched, also when
it is an aggregator. When the reader fails with the empty aggregator, `Verify` returns an
aggregator without any triple; when it fails with an aggregator holding two
`NotPresentOrNotAccessible` triples at another path and a union that is not their OR,
`Verify` returns that one: a foreign path, a repeated kind, a wrong union, and a
`NotPresentOrNotAccessible` triple that is not the only triple. -/
theorem Verify_reader_aggregator_counterexample :
    (({ Path := "p" } : Meta).Verify
        (mockReaderImpl ({}, some (GoError.verification {}))) mockLib "r").1
      = some (GoError.verification {}) ∧
    ({} : verify.Errors).Errors = [] ∧
    (({ Path := "p" } : Meta).Verify
        (mockReaderImpl ({}, some (GoError.verification foreignErrors))) mockLib "r").1
      = some (GoError.verification foreignErrors) ∧
    (∃ t ∈ foreignErrors.Errors, t.Path ≠ mockLib.Join "r" "p") ∧
    ¬ (foreignErrors.Errors.map (fun e => e.FileDifference)).Nodup ∧
    foreignErrors.CombinedFileDifference ≠ verify.kindsUnion foreignErrors.Errors ∧
    (∃ t ∈ foreignErrors.Errors,
      t.FileDifference = diff.NotPresentOrNotAccessible ∧ foreignErrors.Errors ≠ [t]) := by
  refine ⟨rfl, rfl, rfl, ?_, by decide, by decide, ?_⟩
  · exact ⟨{ FileDifference := diff.NotPresentOrNotAccessible, Path := "elsewhere",
             Err := none }, by decide, by decide⟩
  · exact ⟨{ FileDifference := diff.NotPresentOrNotAccessible, Path := "elsewhere",
             Err := none }, by decide, rfl, by decide⟩

/-- C40, amended. For every Meta, root and collaborator behaviour in which the metadata
reader does not fail with an aggregator as its error: whenever `Verify` returns an
aggregator, it has at least one triple, every triple carries the path `Join root m.Path`,
no kind occurs in more than one triple, its `CombinedFileDifference` is the OR of the kinds
of its triples, and a triple of kind `NotPresentOrNotAccessible` or `ModeType` is the only
triple. -/
theorem Verify_aggregator_invariants (impl : Implementation) (lib : StdLib) (m : Meta)
    (root : String) (ves : verify.Errors)
    (hreader : ∀ o, (impl.WrapNewFromPath (lib.Join root m.Path)).2
      ≠ some (GoError.verification o))
    (h : (m.Verify impl lib root).1 = some (GoError.verification ves)) :
    ves.Errors ≠ [] ∧
    (∀ t ∈ ves.Errors, t.Path = lib.Join root m.Path) ∧
    (ves.Errors.map (fun e => e.FileDifference)).Nodup ∧
    ves.CombinedFileDifference = verify.kindsUnion ves.Errors ∧
    (∀ t ∈ ves.Errors,
      t.FileDifference = diff.NotPresentOrNotAccessible ∨ t.FileDifference = diff.ModeType →
      ves.Errors = [t]) := by
  have single : ∀ (k : diff.FileDifference) (cause : Option PlainError),
      ves = { CombinedFileDifference := k
              Errors := [{ FileDifference := k, Path := lib.Join root m.Path,
                           Err := cause }] } →
      ves.Errors ≠ [] ∧
      (∀ t ∈ ves.Errors, t.Path = lib.Join root m.Path) ∧
      (ves.Errors.map (fun e => e.FileDifference)).Nodup ∧
      ves.CombinedFileDifference = verify.kindsUnion ves.Errors ∧
      (∀ t ∈ ves.Errors,
        t.FileDifference = diff.NotPresentOrNotAccessible ∨
          t.FileDifference = diff.ModeType →
        ves.Errors = [t]) := by
    intro k cause hv
    obtain ⟨h1, h2, h3, h4, h5⟩ := single_triple_invariants k _ cause ves hv
    exact ⟨h1, h2, h3, h4, fun t ht _ => h5 t ht⟩
  by_cases hskip : m.VerificationInstructions = [verify.AllByDefault false]
  · unfold Meta.Verify at h
    rw [if_pos ((skip_test_iff _).mpr hskip)] at h
    cases h
  rcases hpe : impl.PathExists (lib.Join root m.Path) with ⟨ex, err⟩
  cases err with
  | some e =>
    rw [Verify_exists_error impl lib m root ex e hskip hpe, Add_on_empty] at h
    exact single _ _ (GoError.verification.inj (Option.some.inj h)).symm
  | none =>
    cases ex with
    | false =>
      rw [Verify_not_exists impl lib m root hskip hpe, Add_on_empty] at h
      exact single _ _ (GoError.verification.inj (Option.some.inj h)).symm
    | true =>
      rcases hrd : impl.WrapNewFromPath (lib.Join root m.Path) with ⟨a, err⟩
      cases err with
      | some e =>
        rw [Verify_reader_error impl lib m a root e hskip hpe hrd] at h
        have he : e = GoError.verification ves := Option.some.inj h
        rw [he] at hrd
        exact absurd (congrArg Prod.snd hrd) (hreader ves)
      | none =>
        rw [Verify_after_read impl lib m a root hskip hpe hrd] at h
        by_cases hty : (a.Mode &&& os.ModeType) ≠ (m.Mode &&& os.ModeType)
        · rw [if_pos hty, Add_on_empty] at h
          exact single _ _ (GoError.verification.inj (Option.some.inj h)).symm
        · rw [if_neg hty] at h
          have hspec := verifyAttributes_spec lib m a (lib.Join root m.Path) {}
          have hmap : (m.verifyAttributes lib a (lib.Join root m.Path) {}).Errors.map
              (fun e => (e.FileDifference, e.Path))
                = (expectedAttributeKinds m a).map (fun k => (k, lib.Join root m.Path)) := by
            rw [hspec.1]; rfl
          have hv : ves = m.verifyAttributes lib a (lib.Join root m.Path) {} ∧
              (m.verifyAttributes lib a (lib.Join root m.Path) {}).Errors ≠ [] := by
            have h' : (m.verifyAttributes lib a (lib.Join root m.Path) {}).MapToNilIfNone
                = some (GoError.verification ves) := h
            unfold verify.Errors.MapToNilIfNone at h'
            by_cases hl : (m.verifyAttributes lib a (lib.Join root m.Path) {}).Errors.length = 0
            · rw [if_pos hl] at h'
              cases h'
            · rw [if_neg hl] at h'
              exact ⟨(GoError.verification.inj (Option.some.inj h')).symm,
                fun h0 => hl (by rw [h0]; rfl)⟩
          obtain ⟨hves, hnonempty⟩ := hv
          obtain ⟨hmemb, hkinds⟩ := triples_of_map _ _ _ hmap
          have hsub := expectedAttributeKinds_sublist m a
          rw [hves]
          refine ⟨hnonempty, fun t ht => (hmemb t ht).2, ?_, ?_, ?_⟩
          · rw [hkinds]
            exact hsub.nodup (by decide)
          · rw [hspec.2, defs.kindsUnion_of_map _ _ hmap, List.map_map, List.foldl_map]
            rfl
          · intro t ht hk
            have hin : t.FileDifference ∈
                [diff.ModePerm, diff.Owner, diff.Group, diff.AccTime, diff.ModTime] :=
              hsub.subset (hmemb t ht).1
            rcases hk with hk | hk
            · rw [hk] at hin
              exact absurd hin (by decide)
            · rw [hk] at hin
              exact absurd hin (by decide)

/-- C40 amended, instance: the aggregator of the test "will collate all errors and return
within Errors", with its five triples; the reader does not fail. -/
theorem Verify_aggregator_invariants_witness :
    (∀ o, ((mockImpl (true, none) (collateActual, none)).WrapNewFromPath
        (mockLib.Join "/some/root" collateExpected.Path)).2
      ≠ some (GoError.verification o)) ∧
    (collateExpected.Verify (mockImpl (true, none) (collateActual, none)) mockLib
        "/some/root").1
      = some (GoError.verification (collateExpected.verifyAttributes mockLib collateActual
          (mockLib.Join "/some/root" collateExpected.Path) {})) ∧
    (verify.Errors.Errors (collateExpected.verifyAttributes mockLib collateActual
        (mockLib.Join "/some/root" collateExpected.Path) {})).map (fun e => e.FileDifference)
      = [diff.ModePerm, diff.Owner, diff.Group, diff.AccTime, diff.ModTime] ∧
    verify.Errors.CombinedFileDifference (collateExpected.verifyAttributes mockLib
        collateActual (mockLib.Join "/some/root" collateExpected.Path) {})
      = verify.kindsUnion (verify.Errors.Errors (collateExpected.verifyAttributes mockLib
          collateActual (mockLib.Join "/some/root" collateExpected.Path) {})) :=
  ⟨fun _ h => Option.noConfusion h, rfl, by decide,
   (Verify_aggregator_invariants (mockImpl (true, none) (collateActual, none)) mockLib
      collateExpected "/some/root"
      (collateExpected.verifyAttributes mockLib collateActual
        (mockLib.Join "/some/root" collateExpected.Path) {})
      (fun _ h => Option.noConfusion h) rfl).2.2.2.1⟩

end file
